import Mathlib

/-!
# Sqrat class-type translators (`include/sqrat/sqratClassType.h`)

A shallow embedding of `StaticClassData`, `ClassData` and the static member
functions of `ClassType<C>` together with the part of the Squirrel stack API
they call, followed by theorems about pushing, extracting and releasing
native instances.

Conventions of the embedding

* Native object addresses (`C*`) are natural numbers, `0` is `NULL`.
* A pointer to an `AbstractStaticClassData` is either `NULL` (`none`) or refers
  to a descriptor; descriptors are compared by their address `self`.
* Heap objects that have exactly one owner (the `std::pair` payload of a
  script instance, the `ObjectReference` stored in an instance map) are held
  by value at their owner.
* Every function that touches the VM is a state transformer over `World`
  that may end in a `Fault` (failed `assert`, undefined behaviour, or an
  exhausted loop budget).
-/

namespace Sqrat

/-- A native address (`SQUserPointer`, `C*`); `0` is `NULL`. -/
abbrev Ptr := Nat

/-- The identity of a bound C++ class (`&typeid(C)`), i.e. the template
argument of `ClassType<C>`, `StaticClassData<C, B>` and `ObjectReference<C>`. -/
abbrev TypeId := Nat

/-- `StaticClassData<C, B>` (with the members it inherits from
`AbstractStaticClassData`).  `self` is the address of the descriptor (`this`),
`type` is `C`, `toBase` is the conversion
`static_cast<B*>(static_cast<C*>(ptr))` and `copyFunc` is the address of the
copy function (`none` when it is `NULL`). -/
inductive StaticClassData where
  | mk (self : Nat) (type : TypeId) (className : String) (copyFunc : Option Nat)
      (toBase : Ptr → Ptr) (baseClass : Option StaticClassData)

namespace StaticClassData

/-- The address of the descriptor (`this`). -/
def self : StaticClassData → Nat
  | mk s _ _ _ _ _ => s

/-- The template argument `C` of the descriptor. -/
def type : StaticClassData → TypeId
  | mk _ t _ _ _ _ => t

/-- Member `className`. -/
def className : StaticClassData → String
  | mk _ _ n _ _ _ => n

/-- Member `copyFunc`. -/
def copyFunc : StaticClassData → Option Nat
  | mk _ _ _ c _ _ => c

/-- The conversion `static_cast<B*>(static_cast<C*>(ptr))`. -/
def toBase : StaticClassData → Ptr → Ptr
  | mk _ _ _ _ f _ => f

/-- Member `baseClass`. -/
def baseClass : StaticClassData → Option StaticClassData
  | mk _ _ _ _ _ b => b

end StaticClassData

/-- A Squirrel class (`SQClass`): its type tag and its base class.  Sqrat sets
the type tag of every class it binds to the class's `StaticClassData`; classes
declared in script have a `NULL` type tag. -/
inductive SQClass where
  | mk (typetag : Option StaticClassData) (base : Option SQClass)

namespace SQClass

/-- Member `_typetag`. -/
def typetag : SQClass → Option StaticClassData
  | mk t _ => t

/-- Member `_base`. -/
def base : SQClass → Option SQClass
  | mk _ b => b

end SQClass

/-- A Squirrel value (`HSQOBJECT`).  Tables and instances live in the VM heap
and are referred to by an identifier; `userdata` carries the pointer stored in
its memory block (Sqrat stores a `ClassData<C>*` there) and its type tag. -/
inductive SQObject where
  | null
  | integer (n : Int)
  | string (s : String)
  | table (id : Nat)
  | userdata (val : Ptr) (typetag : Option StaticClassData)
  | cls (c : SQClass)
  | inst (id : Nat)

/-- The result of `sq_gettype`. -/
inductive SQObjectType where
  | OT_NULL | OT_INTEGER | OT_STRING | OT_TABLE | OT_USERDATA | OT_CLASS | OT_INSTANCE
  deriving DecidableEq

/-- The type of a value (`sq_type`). -/
def SQObject.type : SQObject → SQObjectType
  | .null => .OT_NULL
  | .integer _ => .OT_INTEGER
  | .string _ => .OT_STRING
  | .table _ => .OT_TABLE
  | .userdata _ _ => .OT_USERDATA
  | .cls _ => .OT_CLASS
  | .inst _ => .OT_INSTANCE

/-- Modelled from the spec: the Wrapper (`ObjectReference<C>`, declared in
`sqratObjectReference.h`) "holds the native pointer, an ownership flag, and a
back-reference to the corresponding script-level handle".  `type` is the
template argument `C` the wrapper was instantiated with, which is what
`dynamic_cast<ObjectReference<C>*>` tests. -/
structure ObjectReference where
  type : TypeId
  owner : Bool
  object : Ptr
  squirrelObject : SQObject

/-- The instance map `unordered_map<C*, ObjectReferenceBase*>`: unique keys,
no order.  A key is present exactly when it is mapped to `some` wrapper. -/
abbrev InstanceMap := Ptr → Option ObjectReference

/-- The payload of a script instance,
`std::pair<C*, SharedPtr<unordered_map<C*, ObjectReferenceBase*>>>`: the native
pointer and the (shared) instance map, the latter named by its identifier in
`World.maps`. -/
structure Payload where
  first : Ptr
  second : Nat

/-- A release hook installed with `sq_setreleasehook`. -/
inductive ReleaseHook where
  | DeleteInstance (C : TypeId)

/-- A Squirrel class instance (`SQInstance`). -/
structure SQInstance where
  cls : SQClass
  userpointer : Option Payload
  hook : Option ReleaseHook

/-- `ClassData<C>`: `instances` names the shared instance map. -/
structure ClassData where
  classObj : SQObject
  getTable : SQObject
  setTable : SQObject
  instances : Nat
  staticData : Option StaticClassData

/-- A Squirrel table restricted to its string-keyed slots. -/
abbrev SQTable := String → Option SQObject

/-- Modelled from the spec: the errors that `SQTHROW` (declared in
`sqratUtil.h`) reports "to the calling script context through the runtime's
own error-signaling channel".  `typeError expected` is the message built by
`FormatTypeError(vm, idx, expected)`; with the bound class name it is the
TypeMismatchError, with `"unknown"` the UnknownTypeError. -/
inductive SqError where
  | typeError (expected : String)
  | unconstructed
  | referenceNotFound
  | wrongType
  deriving DecidableEq

/-- The preprocessor configuration the header is compiled with. -/
structure Build where
  NDEBUG : Bool
  SCRAT_NO_ERROR_CHECKING : Bool
  deriving DecidableEq

/-- The state of one Squirrel VM together with the native side.

* `stack`: the VM stack, top of stack first.
* `registry`: the registry table object; `tables`: the table heap.
* `instances`: the live script instances; `nextInstance`: the identifier the
  next created instance receives.
* `thrown`: the errors raised with `SQTHROW`, most recent first.
* `staticClassData C`: what `getStaticClassData().lock()` yields for
  `ClassType<C>` (`none` when the weak pointer is expired).
* `classData`: the `ClassData<C>` records by address; `maps`: the shared
  instance maps.
* `alive p`: whether the native object at `p` has not been destroyed. -/
structure World where
  stack : List SQObject
  registry : SQObject
  tables : Nat → SQTable
  instances : Nat → Option SQInstance
  nextInstance : Nat
  thrown : List SqError
  staticClassData : TypeId → Option StaticClassData
  classData : Ptr → Option ClassData
  maps : Nat → InstanceMap
  alive : Ptr → Bool

/-- The ways a run can end without returning. -/
inductive Fault where
  /-- An `assert` failed (debug build). -/
  | assertFailed
  /-- Undefined behaviour: a null or invalid pointer or iterator was
  dereferenced, an uninitialised variable was read, or the stack was indexed
  out of range. -/
  | undefinedBehaviour
  /-- The loop budget was exhausted. -/
  | outOfFuel
  deriving DecidableEq

/-- Computations over the `World` that return a value or end in a `Fault`. -/
def Sq (α : Type) : Type := World → Except Fault (α × World)

namespace Sq

/-- Return a value, leaving the world as it is. -/
def ret {α : Type} (a : α) : Sq α := fun w => .ok (a, w)

/-- Sequencing. -/
def andThen {α β : Type} (m : Sq α) (f : α → Sq β) : Sq β := fun w =>
  match m w with
  | .ok (a, w1) => f a w1
  | .error e => .error e

instance : Monad Sq where
  pure := ret
  bind := andThen

/-- End the run with a fault. -/
def fault {α : Type} (e : Fault) : Sq α := fun _ => .error e

/-- Read the world. -/
def world : Sq World := fun w => .ok (w, w)

/-- Replace the world. -/
def setWorld (w : World) : Sq Unit := fun _ => .ok ((), w)

/-- The outcome of a computation that does not touch the world. -/
def lift {α : Type} : Except Fault α → Sq α
  | .ok a => ret a
  | .error e => fault e

/-- Dereference a possibly null pointer. -/
def deref {α : Type} : Option α → Sq α
  | some a => ret a
  | none => fault .undefinedBehaviour

/-- The C `assert` macro: checked unless `NDEBUG` is defined. -/
def assert (b : Build) (cond : Bool) : Sq Unit :=
  if b.NDEBUG then ret () else if cond then ret () else fault .assertFailed

end Sq

/-! ## The Squirrel stack API used by the header

Each definition follows the reference implementation of the function of the
same name in `sqapi.cpp` (Squirrel 3). -/

/-- The position, counted from the top of a stack of height `len`, that the
index `idx` denotes: a negative index counts from the top (`-1` is the top), a
positive one from the bottom (`1` is the bottom). -/
def stackPos (len : Nat) (idx : Int) : Option Nat :=
  if idx < 0 then
    if (-idx).toNat ≤ len then some ((-idx).toNat - 1) else none
  else if idx = 0 then none
  else if idx.toNat ≤ len then some (len - idx.toNat) else none

/-- The value at stack index `idx`, if the index is in range. -/
def World.at? (w : World) (idx : Int) : Option SQObject :=
  match stackPos w.stack.length idx with
  | some k => w.stack[k]?
  | none => none

/-- The macro `stack_get(v, idx)`; indexing out of range is undefined. -/
def stack_get (idx : Int) : Sq SQObject := fun w =>
  match w.at? idx with
  | some o => .ok (o, w)
  | none => .error .undefinedBehaviour

/-- The method `SQVM::Push`. -/
def push (o : SQObject) : Sq Unit := fun w =>
  .ok ((), { w with stack := o :: w.stack })

/-- API `sq_pushnull`. -/
def sq_pushnull : Sq Unit := push .null

/-- API `sq_pushstring`. -/
def sq_pushstring (s : String) : Sq Unit := push (.string s)

/-- API `sq_pushobject`. -/
def sq_pushobject (o : SQObject) : Sq Unit := push o

/-- API `sq_pushregistrytable`. -/
def sq_pushregistrytable : Sq Unit := fun w =>
  .ok ((), { w with stack := w.registry :: w.stack })

/-- API `sq_pop`: removes the `n` topmost values; popping more values than
the stack holds is undefined. -/
def sq_pop (n : Nat) : Sq Unit := fun w =>
  if n ≤ w.stack.length then .ok ((), { w with stack := w.stack.drop n })
  else .error .undefinedBehaviour

/-- API `sq_gettop`. -/
def sq_gettop : Sq Nat := fun w => .ok (w.stack.length, w)

/-- API `sq_settop`: pops down to, or pads with nulls up to, `newtop`. -/
def sq_settop (newtop : Nat) : Sq Unit := fun w =>
  if newtop < w.stack.length then
    .ok ((), { w with stack := w.stack.drop (w.stack.length - newtop) })
  else
    .ok ((), { w with stack := List.replicate (newtop - w.stack.length) .null ++ w.stack })

/-- API `sq_remove`: removes the value at `idx`, shifting the values above it
down. -/
def sq_remove (idx : Int) : Sq Unit := fun w =>
  match stackPos w.stack.length idx with
  | some k => .ok ((), { w with stack := w.stack.eraseIdx k })
  | none => .error .undefinedBehaviour

/-- API `sq_gettype`. -/
def sq_gettype (idx : Int) : Sq SQObjectType := do
  let o ← stack_get idx
  return o.type

/-- The slot of `self` under `key`, for `sq_rawget`.  Only the string-keyed
slots of tables are represented, every other lookup finds nothing. -/
def rawLookup (tables : Nat → SQTable) (self key : SQObject) : Option SQObject :=
  match self, key with
  | .table id, .string s => tables id s
  | _, _ => none

/-- API `sq_rawget`: looks the key on top of the stack up in the value at
`idx`.  On success the key is replaced by the value found and the result is
`true` (`SQ_OK`); on failure the key is popped, nothing is pushed and the
result is `false` (`SQ_ERROR`). -/
def sq_rawget (idx : Int) : Sq Bool := do
  let self ← stack_get idx
  let key ← stack_get (-1)
  let w ← Sq.world
  match rawLookup w.tables self key with
  | some v =>
    Sq.setWorld { w with stack := v :: w.stack.drop 1 }
    return true
  | none =>
    Sq.setWorld { w with stack := w.stack.drop 1 }
    return false

/-- API `sq_getuserdata(v, idx, &p, NULL)`: `some` of the pointer held by the
userdata at `idx`, or `none` (`SQ_ERROR`, `p` not written) when the value is
not a userdata. -/
def sq_getuserdata (idx : Int) : Sq (Option Ptr) := do
  match ← stack_get idx with
  | .userdata val _ => return some val
  | _ => return none

/-- The type-tag walk of `sq_getinstanceup`:
`do { if (cl->_typetag == typetag) return SQ_OK; cl = cl->_base; } while (cl != NULL)`. -/
def SQClass.hasTypeTag : SQClass → Nat → Bool
  | .mk tag base, typetag =>
    if tag.map StaticClassData.self = some typetag then true
    else
      match base with
      | none => false
      | some b => b.hasTypeTag typetag

/-- API `sq_getinstanceup(v, idx, &p, typetag)`, given the value `p` holds
before the call.  The result is the success flag and the value of `p` after
the call: if the value at `idx` is not an instance the call fails and `p` is
not written; otherwise `p` receives the user pointer and, when `typetag` is
not `NULL`, the call succeeds only if the class of the instance or one of its
bases carries `typetag`. -/
def sq_getinstanceup (idx : Int) (p : Option Payload) (typetag : Option Nat) :
    Sq (Bool × Option Payload) := do
  match ← stack_get idx with
  | .inst id =>
    let w ← Sq.world
    let i ← Sq.deref (w.instances id)
    match typetag with
    | some t => return (i.cls.hasTypeTag t, i.userpointer)
    | none => return (true, i.userpointer)
  | _ => return (false, p)

/-- API `sq_setinstanceup`. -/
def sq_setinstanceup (idx : Int) (p : Option Payload) : Sq Bool := do
  match ← stack_get idx with
  | .inst id =>
    let w ← Sq.world
    let i ← Sq.deref (w.instances id)
    Sq.setWorld { w with instances := Function.update w.instances id (some { i with userpointer := p }) }
    return true
  | _ => return false

/-- API `sq_gettypetag(v, idx, &typetag)`: `some` of the type tag of the class
of the instance, of the userdata or of the class at `idx`; `none`
(`SQ_ERROR`, `typetag` not written) for every other value. -/
def sq_gettypetag (idx : Int) : Sq (Option (Option StaticClassData)) := do
  match ← stack_get idx with
  | .inst id =>
    let w ← Sq.world
    let i ← Sq.deref (w.instances id)
    return some i.cls.typetag
  | .userdata _ tag => return some tag
  | .cls c => return some c.typetag
  | _ => return none

/-- API `sq_getclass`: pushes the class of the instance at `idx`; fails,
pushing nothing, when the value is not an instance. -/
def sq_getclass (idx : Int) : Sq Bool := do
  match ← stack_get idx with
  | .inst id =>
    let w ← Sq.world
    let i ← Sq.deref (w.instances id)
    push (.cls i.cls)
    return true
  | _ => return false

/-- API `sq_getbase`: pushes the base class of the class at `idx`, or null
when it has none; fails, pushing nothing, when the value is not a class. -/
def sq_getbase (idx : Int) : Sq Bool := do
  match ← stack_get idx with
  | .cls c =>
    match c.base with
    | some b => push (.cls b)
    | none => push .null
    return true
  | _ => return false

/-- API `sq_createinstance`: pushes a new instance of the class at `idx`
(user pointer `NULL`, no release hook, constructor not called); fails, pushing
nothing, when the value is not a class. -/
def sq_createinstance (idx : Int) : Sq Bool := do
  match ← stack_get idx with
  | .cls c =>
    let w ← Sq.world
    Sq.setWorld { w with
      instances := Function.update w.instances w.nextInstance
        (some { cls := c, userpointer := none, hook := none })
      nextInstance := w.nextInstance + 1
      stack := .inst w.nextInstance :: w.stack }
    return true
  | _ => return false

/-- API `sq_setreleasehook`: sets the hook of the instance at `idx`; values
of other types and an empty stack are left alone. -/
def sq_setreleasehook (idx : Int) (hook : ReleaseHook) : Sq Unit := do
  let w ← Sq.world
  if 1 ≤ w.stack.length then
    match ← stack_get idx with
    | .inst id =>
      let i ← Sq.deref (w.instances id)
      Sq.setWorld { w with instances := Function.update w.instances id (some { i with hook := some hook }) }
    | _ => return
  else return

/-- API `sq_getstackobj`. -/
def sq_getstackobj (idx : Int) : Sq SQObject := stack_get idx

/-! ## `sqratClassType.h` -/

/-- Modelled from the spec: the macro `SQTHROW(vm, err)` (declared in
`sqratUtil.h`) reports the failure "to the calling script context through the
runtime's own error-signaling channel"; the caller then returns. -/
def SQTHROW (err : SqError) : Sq Unit := fun w =>
  .ok ((), { w with thrown := err :: w.thrown })

/-- Modelled from the spec: `FormatTypeError(vm, idx, expectedType)` (declared
in `sqratUtil.h`) builds the message of the TypeMismatchError /
UnknownTypeError for the value at `idx`, which it reads; it leaves the VM as
it found it. -/
def FormatTypeError (idx : Int) (expectedType : String) : Sq SqError := do
  let _ ← stack_get idx
  return .typeError expectedType

/-- Modelled from the spec: `ObjectReference<C>::GetPointer()` (declared in
`sqratObjectReference.h`), "obtain the raw native pointer from the Wrapper". -/
def ObjectReference.GetPointer (r : ObjectReference) : Ptr := r.object

/-- Modelled from the spec: `ObjectReferenceBase::GetSquirrelObject()`
(declared in `sqratObjectReference.h`), "the script-level handle corresponding
to this wrapper". -/
def ObjectReference.GetSquirrelObject (r : ObjectReference) : SQObject := r.squirrelObject

/-- Modelled from the spec: the destructor of `ObjectReference<C>` (declared
in `sqratObjectReference.h`): "if the Wrapper's ownership flag is true, also
destroy the native object", otherwise "it is left untouched". -/
def ObjectReference.destroy (r : ObjectReference) : Sq Unit := fun w =>
  if r.owner then .ok ((), { w with alive := Function.update w.alive r.object false })
  else .ok ((), w)

/-- Method `StaticClassData<C, B>::Cast(ptr, classType)`; `classType` is the
address of the target descriptor.  Calling through a `NULL` `baseClass` is
undefined. -/
def StaticClassData.Cast : StaticClassData → Ptr → Option Nat → Except Fault Ptr
  | .mk self _ _ _ toBase baseClass, ptr, classType =>
    if classType ≠ some self then
      match baseClass with
      | some base => base.Cast (toBase ptr) classType
      | none => .error .undefinedBehaviour
    else .ok ptr

/-- Method `StaticClassData<C, B>::GetPointer(ref)`: the wrapper's pointer if
`ref` is an `ObjectReference<C>`, else `NULL`. -/
def StaticClassData.GetPointer (d : StaticClassData) (ref : ObjectReference) : Ptr :=
  if ref.type = d.type then ref.GetPointer else 0

/-- Function `ClassType<C>::getStaticClassData().expired()`. -/
def expired (C : TypeId) : Sq Bool := do
  return ((← Sq.world).staticClassData C).isNone

/-- Function `ClassType<C>::getStaticClassData().lock().get()`. -/
def lock (C : TypeId) : Sq (Option StaticClassData) := do
  return (← Sq.world).staticClassData C

/-- Function `ClassType<C>::ClassName()`. -/
def ClassName (b : Build) (C : TypeId) : Sq String := do
  Sq.assert b (! (← expired C))
  let d ← Sq.deref (← lock C)
  return d.className

/-- Function `ClassType<C>::getClassData(vm)`.  When `sq_getuserdata` fails,
`ud` is read uninitialised. -/
def getClassData (b : Build) (C : TypeId) : Sq ClassData := do
  sq_pushregistrytable
  sq_pushstring "__classes"
  let r ← sq_rawget (-2)
  Sq.assert b r
  sq_pushstring (← ClassName b C)
  let r ← sq_rawget (-2)
  Sq.assert b r
  let ud ← sq_getuserdata (-1)
  sq_pop 3
  let cd ← Sq.deref ud
  Sq.deref ((← Sq.world).classData cd)

/-- Function `ClassType<C>::hasClassData(vm)`. -/
def hasClassData (b : Build) (C : TypeId) : Sq Bool := do
  if ! (← expired C) then
    sq_pushregistrytable
    sq_pushstring "__classes"
    if ← sq_rawget (-2) then
      sq_pushstring (← ClassName b C)
      if ← sq_rawget (-2) then
        sq_pop 3
        return true
      sq_pop 1
    sq_pop 1
  return false

/-- Function `ClassType<C>::DeleteInstance(ptr, size)`, the release hook;
`ptr` is the user pointer of the instance being released.  Dereferencing the
iterator when `find` returned `end()` is undefined. -/
def DeleteInstance (ptr : Option Payload) (_size : Int) : Sq Int := do
  let inst ← Sq.deref ptr
  let it := (← Sq.world).maps inst.second inst.first
  let ref ← Sq.deref it
  ref.destroy
  let w ← Sq.world
  Sq.setWorld { w with
    maps := Function.update w.maps inst.second (Function.update (w.maps inst.second) inst.first none) }
  return 0

/-- Function `ClassType<C>::PushInstance(vm, ptr)`.  For a key that is not in
the map `(*cd->instances)[ptr]` yields a null `objRef`; the new non-owning
`ObjectReference<C>` is then stored under the key. -/
def PushInstance (b : Build) (C : TypeId) (ptr : Ptr) : Sq Unit := do
  if ptr = 0 then
    sq_pushnull
    return
  let cd ← getClassData b C
  match (← Sq.world).maps cd.instances ptr with
  | some ref =>
    sq_pushobject ref.GetSquirrelObject
    return
  | none => pure ()
  sq_pushobject cd.classObj
  let _ ← sq_createinstance (-1)
  sq_remove (-2)
  let _ ← sq_setinstanceup (-1) (some { first := ptr, second := cd.instances })
  let w ← Sq.world
  let objRef ←
    match w.maps cd.instances ptr with
    | some ref => pure ref
    | none => do
      let ref : ObjectReference := { type := C, owner := false, object := ptr, squirrelObject := .null }
      Sq.setWorld { w with
        maps := Function.update w.maps cd.instances
          (Function.update (w.maps cd.instances) ptr (some ref)) }
      pure ref
  sq_setreleasehook (-1) (.DeleteInstance C)
  let o ← sq_getstackobj (-1)
  let w ← Sq.world
  Sq.setWorld { w with
    maps := Function.update w.maps cd.instances
      (Function.update (w.maps cd.instances) ptr (some { objRef with squirrelObject := o })) }

/-- The loop `while (actualType == NULL) { sq_getbase(vm, -1);
sq_gettypetag(vm, -1, &actualType); }` of `GetInstance`, with a budget of
`fuel` iterations. -/
def whileActualTypeNull : Nat → Option StaticClassData → Sq (Option StaticClassData)
  | _, some t => return some t
  | 0, none => Sq.fault .outOfFuel
  | fuel + 1, none => do
    let _ ← sq_getbase (-1)
    match ← sq_gettypetag (-1) with
    | some tag => whileActualTypeNull fuel tag
    | none => whileActualTypeNull fuel none

/-- Lines 219-247 of `ClassType<C>::GetInstance`: the checks on the requested
type and on the value at `idx`.  The result is `.inl p` when the function
returns `p` from here, and `.inr (classType, instance)`, the values of the two
local variables, when control goes on to line 248. -/
def GetInstance.typeCheck (b : Build) (C : TypeId) (idx : Int) (nullAllowed : Bool) :
    Sq (Ptr ⊕ (Option StaticClassData × Option Payload)) := do
  let inst : Option Payload := none
  if ← hasClassData b C then
    if nullAllowed then
      if (← sq_gettype idx) = .OT_NULL then
        return .inl 0
    let classType ← lock C
    if ! b.SCRAT_NO_ERROR_CHECKING then
      let r ← sq_getinstanceup idx inst (classType.map StaticClassData.self)
      if ! r.1 then
        SQTHROW (← FormatTypeError idx (← ClassName b C))
        return .inl 0
      if r.2.isNone then
        SQTHROW .unconstructed
        return .inl 0
      return .inr (classType, r.2)
    else
      let r ← sq_getinstanceup idx inst none
      return .inr (classType, r.2)
  else
    SQTHROW (← FormatTypeError idx "unknown")
    return .inl 0

/-- Lines 248-258 of `ClassType<C>::GetInstance`: the type tag of the value,
or of the nearest base class that has one.  `fuel` bounds the iterations of
the loop.  Reading `actualType` after a failed `sq_gettypetag` is a read of an
uninitialised variable. -/
def GetInstance.actualType (fuel : Nat) (idx : Int) : Sq (Option StaticClassData) := do
  let actualType ← Sq.deref (← sq_gettypetag idx)
  if actualType.isNone then
    let top ← sq_gettop
    let _ ← sq_getclass idx
    let actualType ← whileActualTypeNull fuel actualType
    sq_settop top
    return actualType
  else
    return actualType

/-- Lines 259-273 of `ClassType<C>::GetInstance`: the wrapper lookup and the
pointer adjustment. -/
def GetInstance.extract (classType : Option StaticClassData) (inst : Option Payload)
    (actualType : Option StaticClassData) : Sq Ptr := do
  let payload ← Sq.deref inst
  match (← Sq.world).maps payload.second payload.first with
  | none =>
    SQTHROW .referenceNotFound
    return 0
  | some ref =>
    let actual ← Sq.deref actualType
    let obj := actual.GetPointer ref
    if obj = 0 then
      SQTHROW .wrongType
      return 0
    else if classType.map StaticClassData.self ≠ some actual.self then
      Sq.lift (actual.Cast obj (classType.map StaticClassData.self))
    else
      return obj

/-- Function `ClassType<C>::GetInstance(vm, idx, nullAllowed)`; `fuel` bounds
the iterations of the class-hierarchy loop. -/
def GetInstance (b : Build) (C : TypeId) (fuel : Nat) (idx : Int) (nullAllowed : Bool) :
    Sq Ptr := do
  match ← GetInstance.typeCheck b C idx nullAllowed with
  | .inl p => return p
  | .inr (classType, inst) =>
    let actualType ← GetInstance.actualType fuel idx
    GetInstance.extract classType inst actualType

/-! ## Predicates on worlds used in the statements -/

/-- Whether `C` has a registration in the VM: its descriptor is alive, the
registry table has a `"__classes"` slot and the value there has a slot under
the class name (cf. `hasClassData`). -/
def World.registered (w : World) (C : TypeId) : Bool :=
  match w.staticClassData C with
  | none => false
  | some d =>
    match rawLookup w.tables w.registry (.string "__classes") with
    | none => false
    | some t => (rawLookup w.tables t (.string d.className)).isSome

/-- The class of `C` is bound in `w`: `d` is its live descriptor, the
`"__classes"` table of the registry holds, under the class name, a userdata
with the address of the record `cd`, and the class object of `cd` is the
Squirrel class `c`, whose type tag is `d`. -/
structure World.Bound (w : World) (C : TypeId) (d : StaticClassData) (cd : ClassData)
    (c : SQClass) : Prop where
  static : w.staticClassData C = some d
  type : d.type = C
  classes : ∃ t p tag, rawLookup w.tables w.registry (.string "__classes") = some t ∧
    rawLookup w.tables t (.string d.className) = some (.userdata p tag) ∧
    w.classData p = some cd
  classObj : cd.classObj = .cls c
  typetag : c.typetag = some d

/-- The entry `ref` stored under `p` in the instance map `m` of the class `c`
bound to `C` is the wrapper of a live script instance of exactly that class:
it is an `ObjectReference<C>` holding `p`, and its handle is a live instance of
`c` whose payload is the pair `(p, m)`. -/
def World.Wrapped (w : World) (C : TypeId) (c : SQClass) (m : Nat) (p : Ptr)
    (ref : ObjectReference) : Prop :=
  ref.type = C ∧ ref.object = p ∧
    ∃ id i, ref.squirrelObject = .inst id ∧ w.instances id = some i ∧ i.cls = c ∧
      i.userpointer = some { first := p, second := m }

/-- The type check of `sq_getinstanceup` on the value `v` against the type tag
`typetag` fails: `v` is not an instance, or it is a live instance and neither
its class nor any of its base classes carries `typetag`. -/
def World.tagCheckFails (w : World) (v : SQObject) (typetag : Nat) : Prop :=
  match v with
  | .inst id => ∃ i, w.instances id = some i ∧ i.cls.hasTypeTag typetag = false
  | _ => True

/-! ## A concrete VM: `Animal` (root) and `Dog : Animal` -/

/-- The descriptor of `Animal`, a root class (`StaticClassData<Animal, void>`). -/
def animalData : StaticClassData := .mk 100 1 "Animal" none id none

/-- The descriptor of `Dog : Animal`; the `Animal` sub-object lies 8 bytes
into a `Dog`. -/
def dogData : StaticClassData := .mk 200 2 "Dog" none (fun ptr => ptr + 8) (some animalData)

/-- The Squirrel class bound to `Animal`. -/
def animalClass : SQClass := .mk (some animalData) none

/-- The Squirrel class bound to `Dog`, derived from the class of `Animal`. -/
def dogClass : SQClass := .mk (some dogData) (some animalClass)

/-- The record `ClassData<Animal>`; its instance map is map `1`. -/
def animalClassData : ClassData :=
  { classObj := .cls animalClass, getTable := .null, setTable := .null, instances := 1,
    staticData := some animalData }

/-- The record `ClassData<Dog>`; its instance map is map `2`. -/
def dogClassData : ClassData :=
  { classObj := .cls dogClass, getTable := .null, setTable := .null, instances := 2,
    staticData := some dogData }

/-- The descriptor of `Cat`, a root class unrelated to `Animal` and `Dog`. -/
def catData : StaticClassData := .mk 300 3 "Cat" none id none

/-- The Squirrel class bound to `Cat`. -/
def catClass : SQClass := .mk (some catData) none

/-- The record `ClassData<Cat>`; its instance map is map `3`. -/
def catClassData : ClassData :=
  { classObj := .cls catClass, getTable := .null, setTable := .null, instances := 3,
    staticData := some catData }

/-- A VM in which `Animal` (type `1`), `Dog` (type `2`) and `Cat` (type `3`)
are bound and nothing has been pushed yet.  Table `0` is the registry, table
`1` its `"__classes"` table.  Type `4` is not bound. -/
def world0 : World where
  stack := []
  registry := .table 0
  tables := fun id key =>
    if id = 0 then (if key = "__classes" then some (.table 1) else none)
    else if id = 1 then
      (if key = "Animal" then some (.userdata 1000 none)
       else if key = "Dog" then some (.userdata 2000 none)
       else if key = "Cat" then some (.userdata 3000 none) else none)
    else none
  instances := fun _ => none
  nextInstance := 0
  thrown := []
  staticClassData := fun C =>
    if C = 1 then some animalData else if C = 2 then some dogData
    else if C = 3 then some catData else none
  classData := fun p =>
    if p = 1000 then some animalClassData else if p = 2000 then some dogClassData
    else if p = 3000 then some catClassData else none
  maps := fun _ _ => none
  alive := fun _ => true

/-- The wrapper `PushInstance` makes for the `Dog` at address `5000` when it
creates instance `0` for it. -/
def dogRef : ObjectReference :=
  { type := 2, owner := false, object := 5000, squirrelObject := .inst 0 }

/-- The VM `world0` after the `Dog` at `5000` has been pushed: instance `0`
wraps it and is on the stack. -/
def worldDog : World :=
  { world0 with
    stack := [.inst 0]
    instances := fun id =>
      if id = 0 then
        some { cls := dogClass, userpointer := some { first := 5000, second := 2 },
               hook := some (.DeleteInstance 2) }
      else none
    nextInstance := 1
    maps := fun m p => if m = 2 ∧ p = 5000 then some dogRef else none }

/-- The VM `worldDog` in which the wrapper of the `Dog` at `5000` owns it. -/
def worldOwned : World :=
  { worldDog with
    maps := fun m p => if m = 2 ∧ p = 5000 then some { dogRef with owner := true } else none }

/-- The VM `world0` after the `Cat` at `7000` has been pushed. -/
def worldCat : World :=
  { world0 with
    stack := [.inst 0]
    instances := fun id =>
      if id = 0 then
        some { cls := catClass, userpointer := some { first := 7000, second := 3 },
               hook := some (.DeleteInstance 3) }
      else none
    nextInstance := 1
    maps := fun m p =>
      if m = 3 ∧ p = 7000 then
        some { type := 3, owner := false, object := 7000, squirrelObject := .inst 0 }
      else none }

/-- A class declared in script that extends the bound class of `Dog`. -/
def scriptDogClass : SQClass := .mk none (some dogClass)

/-- The VM `world0` with, on the stack, an instance of `scriptDogClass` whose
constructor did not call the native base constructor (no payload). -/
def worldUnconstructed : World :=
  { world0 with
    stack := [.inst 0]
    instances := fun id =>
      if id = 0 then some { cls := scriptDogClass, userpointer := none, hook := none } else none
    nextInstance := 1 }

/-- The VM `world0` with the null value on the stack. -/
def worldNull : World := { world0 with stack := [.null] }

/-- A debug build with error checking. -/
def debugBuild : Build := { NDEBUG := false, SCRAT_NO_ERROR_CHECKING := false }

/-- A release build compiled with `SCRAT_NO_ERROR_CHECKING`. -/
def uncheckedBuild : Build := { NDEBUG := true, SCRAT_NO_ERROR_CHECKING := true }

/-! ## `PushInstanceCopy`, the collector and sequences of operations -/

/-- The type `COPYFUNC`, `SQInteger (*)(HSQUIRRELVM, SQInteger, const void*)`:
a copy function is called with a stack index and the address of the value and
returns an `SQRESULT`. -/
abbrev COPYFUNC := Int → Ptr → Sq Int

/-- Macro `SQ_SUCCEEDED(res)`, `res >= 0`. -/
def SQ_SUCCEEDED (res : Int) : Bool := decide (0 ≤ res)

/-- Function `ClassType<C>::CopyFunc()`. -/
def CopyFunc (b : Build) (C : TypeId) : Sq (Option Nat) := do
  Sq.assert b (! (← expired C))
  let d ← Sq.deref (← lock C)
  return d.copyFunc

/-- Function `ClassType<C>::PushInstanceCopy(vm, value)`; `value` is the
address of the value to copy.  The copy functions are defined outside the
header: `code a` is the function at the address `a` that a `copyFunc` member
holds.  Calling through a null `copyFunc` is undefined. -/
def PushInstanceCopy (code : Nat → Option COPYFUNC) (b : Build) (C : TypeId) (value : Ptr) :
    Sq Unit := do
  let cd ← getClassData b C
  sq_pushobject cd.classObj
  let _ ← sq_createinstance (-1)
  sq_remove (-2)
  let f ← Sq.deref ((← CopyFunc b C).bind code)
  let result ← f (-1) value
  Sq.assert b (SQ_SUCCEEDED result)

/-- The collector of the runtime releases the script instance `id`: the
release hook, if one is set, is called once with the user pointer of the
instance ("invoked by the runtime's collector", "at most once per object"),
then the instance is gone. -/
def release (id : Nat) : Sq Unit := do
  let i ← Sq.deref ((← Sq.world).instances id)
  match i.hook with
  | some (.DeleteInstance _) =>
    let _ ← DeleteInstance i.userpointer 0
  | none => pure ()
  let w ← Sq.world
  Sq.setWorld { w with instances := Function.update w.instances id none }

/-- An operation of the host or of the collector on one registration. -/
inductive Op where
  /-- The host calls `PushInstance(vm, ptr)`. -/
  | push (ptr : Ptr)
  /-- The host pops `n` values (`sq_pop`). -/
  | pop (n : Nat)
  /-- The collector releases the live instance `id`. -/
  | release (id : Nat)

/-- Run one operation against the registration of `C`. -/
def Op.run (b : Build) (C : TypeId) : Op → Sq Unit
  | .push ptr => PushInstance b C ptr
  | .pop n => sq_pop n
  | .release id => Sqrat.release id

/-- Run a sequence of operations, first to last. -/
def runOps (b : Build) (C : TypeId) : List Op → Sq Unit
  | [] => pure ()
  | op :: ops => do
    op.run b C
    runOps b C ops

/-! ## Class and descriptor chains -/

/-- The descriptor followed by its base, the base of its base, and so on to
the root. -/
def StaticClassData.chain : StaticClassData → List StaticClassData
  | .mk self type className copyFunc toBase baseClass =>
    .mk self type className copyFunc toBase baseClass ::
      match baseClass with
      | some base => base.chain
      | none => []

/-- The adjustments `static_cast<B*>(static_cast<C*>(ptr))` of the descriptors
`ds`, applied to `ptr` one after the other, first to last. -/
def adjustments (ds : List StaticClassData) (ptr : Ptr) : Ptr :=
  ds.foldl (fun p d => d.toBase p) ptr

/-- The strict ancestors of a script class, nearest first. -/
def SQClass.ancestors : SQClass → List SQClass
  | .mk _ base =>
    match base with
    | some b => b :: b.ancestors
    | none => []

/-- The type tags of the classes of `l` that carry one, in order. -/
def tagsOf (l : List SQClass) : List StaticClassData := l.filterMap SQClass.typetag

/-- The type tag of the nearest class, starting from the class itself, that
carries one. -/
def SQClass.nearestTag (c : SQClass) : Option StaticClassData :=
  (tagsOf (c :: c.ancestors)).head?

/-- The descriptor base links mirror the script class hierarchy at and above
`c`: the descriptor of each tagged class links to the descriptor of its
nearest tagged strict ancestor, and has no base when there is none. -/
def SQClass.Mirrored (c : SQClass) : Prop :=
  ∀ k ∈ c :: c.ancestors, ∀ d, k.typetag = some d →
    d.baseClass = (tagsOf k.ancestors).head?

/-! ## The invariant of a registration -/

/-- The invariant of the registration of `C` (class `c`, instance map `m`):
identifiers not yet given out name no instance; every entry `p -> ref` of `m`
is the non-owning `ObjectReference<C>` of a non-null `p` whose handle is a
live instance of `c` with payload `(p, m)` and release hook `DeleteInstance`;
and every live instance with payload `(p, m)` is the handle of the entry of
`p`. -/
structure World.Consistent (w : World) (C : TypeId) (c : SQClass) (m : Nat) : Prop where
  fresh : ∀ id, w.nextInstance ≤ id → w.instances id = none
  entry : ∀ p ref, w.maps m p = some ref →
    p ≠ 0 ∧ ref.type = C ∧ ref.object = p ∧ ref.owner = false ∧
    ∃ id i, ref.squirrelObject = .inst id ∧ w.instances id = some i ∧ i.cls = c ∧
      i.userpointer = some { first := p, second := m } ∧
      i.hook = some (.DeleteInstance C)
  object : ∀ id i p, w.instances id = some i →
    i.userpointer = some { first := p, second := m } →
    ∃ ref, w.maps m p = some ref ∧ ref.squirrelObject = .inst id

/-- An empty registration of `C`: the class is bound, its instance map has no
entry, no live instance has a payload for that map, and identifiers not yet
given out name no instance. -/
structure World.EmptyRegistration (w : World) (C : TypeId) (d : StaticClassData)
    (cd : ClassData) (c : SQClass) : Prop where
  bound : w.Bound C d cd c
  fresh : ∀ id, w.nextInstance ≤ id → w.instances id = none
  noEntry : ∀ p, w.maps cd.instances p = none
  noObject : ∀ id i p, w.instances id = some i →
    i.userpointer ≠ some { first := p, second := cd.instances }

/-! ## More concrete descriptors and VMs -/

/-- The descriptor of `Puppy : Dog`; the `Dog` sub-object lies 16 bytes into
a `Puppy`. -/
def puppyData : StaticClassData :=
  .mk 500 6 "Puppy" none (fun ptr => ptr + 16) (some dogData)

/-- The descriptor of `Bird`, a root class whose `copyFunc` is the function at
address `9000`. -/
def birdData : StaticClassData := .mk 400 5 "Bird" (some 9000) id none

/-- The Squirrel class bound to `Bird`. -/
def birdClass : SQClass := .mk (some birdData) none

/-- The record `ClassData<Bird>`; its instance map is map `5`. -/
def birdClassData : ClassData :=
  { classObj := .cls birdClass, getTable := .null, setTable := .null, instances := 5,
    staticData := some birdData }

/-- A copy function that reports failure and does nothing else (the copy
function of a class bound as non-copyable). -/
def failingCopy : COPYFUNC := fun _ _ => pure (-1)

/-- A copy function that reports success without touching the instance maps. -/
def succeedingCopy : COPYFUNC := fun _ _ => pure 0

/-- The code at the addresses used as `copyFunc`: `9000` is `failingCopy`,
`9001` is `succeedingCopy`. -/
def copyCode (a : Nat) : Option COPYFUNC :=
  if a = 9000 then some failingCopy else if a = 9001 then some succeedingCopy else none

/-- The descriptor of `Fish`, a root class whose `copyFunc` is the function at
address `9001`. -/
def fishData : StaticClassData := .mk 600 7 "Fish" (some 9001) id none

/-- The Squirrel class bound to `Fish`. -/
def fishClass : SQClass := .mk (some fishData) none

/-- The record `ClassData<Fish>`; its instance map is map `7`. -/
def fishClassData : ClassData :=
  { classObj := .cls fishClass, getTable := .null, setTable := .null, instances := 7,
    staticData := some fishData }

/-- A VM in which `Bird` (type `5`) and `Fish` (type `7`) are bound, the
`Fish` at `8000` has been pushed (instance `0`) and popped again.  The
descriptor of `Dog` (type `2`) is alive but `Dog` is not bound in this VM, and
`Cat` (type `3`) is bound without a copy function. -/
def worldBird : World where
  stack := [.null]
  registry := .table 0
  tables := fun id key =>
    if id = 0 then (if key = "__classes" then some (.table 1) else none)
    else if id = 1 then
      (if key = "Bird" then some (.userdata 4000 none)
       else if key = "Fish" then some (.userdata 6000 none)
       else if key = "Cat" then some (.userdata 3000 none) else none)
    else none
  instances := fun id =>
    if id = 0 then
      some { cls := fishClass, userpointer := some { first := 8000, second := 7 },
             hook := some (.DeleteInstance 7) }
    else none
  nextInstance := 1
  thrown := []
  staticClassData := fun C =>
    if C = 5 then some birdData else if C = 7 then some fishData
    else if C = 2 then some dogData else if C = 3 then some catData else none
  classData := fun p =>
    if p = 4000 then some birdClassData else if p = 6000 then some fishClassData
    else if p = 3000 then some catClassData else none
  maps := fun m p =>
    if m = 7 ∧ p = 8000 then
      some { type := 7, owner := false, object := 8000, squirrelObject := .inst 0 }
    else none
  alive := fun _ => true

/-- The VM `worldDog` in which instance `0`, the handle of the wrapper of the
`Dog` at `5000`, is an instance of the script class `scriptDogClass`. -/
def worldScript : World :=
  { worldDog with
    instances := fun id =>
      if id = 0 then
        some { cls := scriptDogClass, userpointer := some { first := 5000, second := 2 },
               hook := some (.DeleteInstance 2) }
      else none }

/-- The VM `worldDog` with all instance maps emptied: the payload of instance
`0` names a pointer that has no wrapper. -/
def worldStale : World := { worldDog with maps := fun _ _ => none }

/-- A release build with error checking. -/
def releaseBuild : Build := { NDEBUG := true, SCRAT_NO_ERROR_CHECKING := false }

/-- The descriptor of a second native type (type `8`) whose class name is
`"Cat"` as well: it was bound under that name in another VM. -/
def catTwinData : StaticClassData := .mk 800 8 "Cat" none id none

/-- The VM `world0` while the descriptor of type `8` is alive.  Type `8` was
never bound in this VM; its `"__classes"` table holds, under the name `"Cat"`,
the registration of `Cat` (type `3`). -/
def worldTwin : World :=
  { world0 with
    staticClassData := fun C => if C = 8 then some catTwinData else world0.staticClassData C }

/-- The VM `worldDog` after a second `Dog`, at the related address `5008`, has
been pushed: instance `1` wraps it, and the wrapper owns it. -/
def worldTwo : World :=
  { worldDog with
    instances := fun id =>
      if id = 0 then
        some { cls := dogClass, userpointer := some { first := 5000, second := 2 },
               hook := some (.DeleteInstance 2) }
      else if id = 1 then
        some { cls := dogClass, userpointer := some { first := 5008, second := 2 },
               hook := some (.DeleteInstance 2) }
      else none
    nextInstance := 2
    maps := fun m p =>
      if m = 2 ∧ p = 5000 then some dogRef
      else if m = 2 ∧ p = 5008 then
        some { type := 2, owner := true, object := 5008, squirrelObject := .inst 1 }
      else none }

/-! ## Frame conditions -/

/-- The computation `m`, whenever it returns, leaves the world as it was. -/
def Sq.Reads {α : Type} (m : Sq α) : Prop :=
  ∀ w a w1, m w = .ok (a, w1) → w1 = w

/-- The computation `m`, whenever it returns, leaves every component of the
world other than the raised errors as it was. -/
def Sq.Preserves {α : Type} (m : Sq α) : Prop :=
  ∀ w a w1, m w = .ok (a, w1) → ∃ t, w1 = { w with thrown := t }

/-- The computation `m`, whenever it returns, has only pushed values on the
stack and changed nothing else. -/
def Sq.Pushes {α : Type} (m : Sq α) : Prop :=
  ∀ w a w1, m w = .ok (a, w1) → ∃ pushed, w1 = { w with stack := pushed ++ w.stack }

/-! # Theorems -/

/-! ## Running the primitives -/

@[simp] theorem Sq.pure_run {α : Type} (a : α) (w : World) : (pure a : Sq α) w = .ok (a, w) := rfl

@[simp] theorem Sq.bind_run {α β : Type} (m : Sq α) (f : α → Sq β) (w : World) :
    (m >>= f) w = match m w with
      | .ok (a, w1) => f a w1
      | .error e => .error e := rfl

theorem stackPos_neg_one (n : Nat) : stackPos (n + 1) (-1) = some 0 := by
  simp [stackPos]

theorem stackPos_neg_two (n : Nat) : stackPos (n + 2) (-2) = some 1 := by
  simp [stackPos]

theorem hasClassData_run (b : Build) (C : TypeId) (w : World) :
    hasClassData b C w = .ok (w.registered C, w) := by
  unfold hasClassData World.registered
  cases hs : w.staticClassData C with
  | none => simp [expired, Sq.world, hs]
  | some d =>
    cases ht : rawLookup w.tables w.registry (.string "__classes") with
    | none =>
      simp [expired, Sq.world, hs, sq_pushregistrytable, sq_pushstring, push, sq_rawget, stack_get,
        World.at?, stackPos_neg_one, stackPos_neg_two, Sq.setWorld, sq_pop, ht]
    | some t =>
      cases hc : rawLookup w.tables t (.string d.className) with
      | none =>
        simp [expired, Sq.world, hs, sq_pushregistrytable, sq_pushstring, push, sq_rawget, stack_get,
          World.at?, stackPos_neg_one, stackPos_neg_two, Sq.setWorld, sq_pop, ht, ClassName, lock,
          Sq.assert, Sq.deref, Sq.ret, hc]
      | some v =>
        simp [expired, Sq.world, hs, sq_pushregistrytable, sq_pushstring, push, sq_rawget, stack_get,
          World.at?, stackPos_neg_one, stackPos_neg_two, Sq.setWorld, sq_pop, ht, ClassName, lock,
          Sq.assert, Sq.deref, Sq.ret, hc]

theorem World.Bound.is_registered {w : World} {C : TypeId} {d : StaticClassData} {cd : ClassData}
    {c : SQClass} (h : w.Bound C d cd c) : w.registered C = true := by
  obtain ⟨t, p, tag, ht, hc, _⟩ := h.classes
  simp [World.registered, h.static, ht, hc]

theorem getClassData_run (b : Build) {w : World} {C : TypeId} {d : StaticClassData}
    {cd : ClassData} {c : SQClass} (h : w.Bound C d cd c) :
    getClassData b C w = .ok (cd, w) := by
  obtain ⟨t, p, tag, ht, hc, hcd⟩ := h.classes
  simp [getClassData, expired, Sq.world, h.static, sq_pushregistrytable, sq_pushstring, push,
    sq_rawget, stack_get, World.at?, stackPos_neg_one, stackPos_neg_two, Sq.setWorld, sq_pop, ht,
    ClassName, lock, Sq.assert, Sq.deref, Sq.ret, hc, sq_getuserdata, hcd]

theorem PushInstance_null (b : Build) (C : TypeId) (w : World) :
    PushInstance b C 0 w = .ok ((), { w with stack := .null :: w.stack }) := by
  simp [PushInstance, sq_pushnull, push]

theorem PushInstance_existing (b : Build) {w : World} {C : TypeId} {d : StaticClassData}
    {cd : ClassData} {c : SQClass} (h : w.Bound C d cd c) {p : Ptr} (hp : p ≠ 0)
    {ref : ObjectReference} (hm : w.maps cd.instances p = some ref) :
    PushInstance b C p w = .ok ((), { w with stack := ref.squirrelObject :: w.stack }) := by
  simp [PushInstance, hp, getClassData_run b h, Sq.world, hm, sq_pushobject, push,
    ObjectReference.GetSquirrelObject]

theorem PushInstance_new (b : Build) {w : World} {C : TypeId} {d : StaticClassData}
    {cd : ClassData} {c : SQClass} (h : w.Bound C d cd c) {p : Ptr} (hp : p ≠ 0)
    (hm : w.maps cd.instances p = none) :
    PushInstance b C p w = .ok ((), { w with
      stack := .inst w.nextInstance :: w.stack
      instances := Function.update w.instances w.nextInstance
        (some { cls := c, userpointer := some { first := p, second := cd.instances },
                hook := some (.DeleteInstance C) })
      nextInstance := w.nextInstance + 1
      maps := Function.update w.maps cd.instances
        (Function.update (w.maps cd.instances) p
          (some { type := C, owner := false, object := p,
                  squirrelObject := .inst w.nextInstance })) }) := by
  simp [PushInstance, hp, getClassData_run b h, Sq.world, hm, sq_pushobject, push,
    sq_createinstance, stack_get, World.at?, stackPos_neg_one, stackPos_neg_two, h.classObj,
    Sq.setWorld, sq_remove, sq_setinstanceup, Sq.deref, Sq.ret, sq_setreleasehook,
    sq_getstackobj]

theorem typeCheck_unregistered (b : Build) (C : TypeId) (idx : Int)
    (nullAllowed : Bool) {w : World} {v : SQObject} (h : w.registered C = false)
    (hv : w.at? idx = some v) :
    GetInstance.typeCheck b C idx nullAllowed w =
      .ok (.inl 0, { w with thrown := .typeError "unknown" :: w.thrown }) := by
  simp [GetInstance.typeCheck, hasClassData_run, h, FormatTypeError, SQTHROW, stack_get, hv]

theorem typeCheck_null_allowed (b : Build) (C : TypeId) (idx : Int)
    {w : World} (h : w.registered C = true) (hv : w.at? idx = some .null) :
    GetInstance.typeCheck b C idx true w = .ok (.inl 0, w) := by
  simp [GetInstance.typeCheck, hasClassData_run, h, sq_gettype, stack_get, hv, SQObject.type]

theorem typeCheck_inst (b : Build) (C : TypeId) (idx : Int) (nullAllowed : Bool)
    {w : World} {d : StaticClassData} {id : Nat} {i : SQInstance} {pl : Payload}
    (hr : w.registered C = true) (hs : w.staticClassData C = some d)
    (hv : w.at? idx = some (.inst id)) (hi : w.instances id = some i)
    (hchk : i.cls.hasTypeTag d.self = true) (hup : i.userpointer = some pl) :
    GetInstance.typeCheck b C idx nullAllowed w = .ok (.inr (some d, some pl), w) := by
  cases nullAllowed <;> cases hb : b.SCRAT_NO_ERROR_CHECKING <;>
  simp [GetInstance.typeCheck, hasClassData_run, hr, sq_gettype, stack_get, hv, SQObject.type, lock,
    Sq.world, hs, sq_getinstanceup, Sq.deref, Sq.ret, hi, hchk, hup, hb]

theorem actualType_tagged (fuel : Nat) (idx : Int) {w : World} {a : StaticClassData} {id : Nat}
    {i : SQInstance} (hv : w.at? idx = some (.inst id)) (hi : w.instances id = some i)
    (htag : i.cls.typetag = some a) :
    GetInstance.actualType fuel idx w = .ok (some a, w) := by
  simp [GetInstance.actualType, sq_gettypetag, stack_get, hv, Sq.world, Sq.deref, Sq.ret, hi, htag]

theorem extract_found {w : World} {classType : Option StaticClassData} {a : StaticClassData}
    {p : Ptr} {m : Nat} {ref : ObjectReference} (hm : w.maps m p = some ref)
    (hobj : a.GetPointer ref ≠ 0) :
    GetInstance.extract classType (some { first := p, second := m }) (some a) w =
      if classType.map StaticClassData.self = some a.self then .ok (a.GetPointer ref, w)
      else
        match a.Cast (a.GetPointer ref) (classType.map StaticClassData.self) with
        | .ok q => .ok (q, w)
        | .error e => .error e := by
  by_cases hda : classType.map StaticClassData.self = some a.self
  · simp [GetInstance.extract, Sq.deref, Sq.ret, Sq.world, hm, hobj, hda]
  · have hne : classType.map StaticClassData.self ≠ some a.self := hda
    simp only [GetInstance.extract, Sq.deref, Sq.bind_run, Sq.ret, Sq.world, hm, if_neg hobj,
      if_pos hne, if_neg hda]
    cases hcast : a.Cast (a.GetPointer ref) (classType.map StaticClassData.self) <;>
    simp [Sq.lift, Sq.fault, Sq.ret]

theorem GetInstance_tagged (b : Build) (C : TypeId) (fuel : Nat) (idx : Int) (nullAllowed : Bool)
    {w : World} {d a : StaticClassData} {id : Nat} {i : SQInstance} {p : Ptr} {m : Nat}
    {ref : ObjectReference}
    (hr : w.registered C = true) (hs : w.staticClassData C = some d)
    (hv : w.at? idx = some (.inst id)) (hi : w.instances id = some i)
    (htag : i.cls.typetag = some a) (hchk : i.cls.hasTypeTag d.self = true)
    (hup : i.userpointer = some { first := p, second := m })
    (hm : w.maps m p = some ref) (hobj : a.GetPointer ref ≠ 0) :
    GetInstance b C fuel idx nullAllowed w =
      if d.self = a.self then .ok (a.GetPointer ref, w)
      else
        match a.Cast (a.GetPointer ref) (some d.self) with
        | .ok q => .ok (q, w)
        | .error e => .error e := by
  simp [GetInstance, typeCheck_inst b C idx nullAllowed hr hs hv hi hchk hup,
    actualType_tagged fuel idx hv hi htag, extract_found hm hobj]

theorem World.Bound.of_eq {w w1 : World} {C : TypeId} {d : StaticClassData} {cd : ClassData}
    {c : SQClass} (h : w.Bound C d cd c) (hs : w1.staticClassData = w.staticClassData)
    (ht : w1.tables = w.tables) (hr : w1.registry = w.registry)
    (hc : w1.classData = w.classData) : w1.Bound C d cd c := by
  obtain ⟨h1, h2, h3, h4, h5⟩ := h
  exact ⟨by rw [hs]; exact h1, h2, by rw [ht, hr, hc]; exact h3, h4, h5⟩

theorem SQClass.hasTypeTag_of_typetag {c : SQClass} {d : StaticClassData}
    (h : c.typetag = some d) : c.hasTypeTag d.self = true := by
  cases c with
  | mk tag base =>
    simp only [SQClass.typetag] at h
    subst h
    unfold SQClass.hasTypeTag
    simp

theorem SQClass.hasTypeTag_of_base {c cb : SQClass} {t : Nat}
    (hb : c.base = some cb) (h : cb.hasTypeTag t = true) : c.hasTypeTag t = true := by
  cases c with
  | mk tag base =>
    simp only [SQClass.base] at hb
    subst hb
    unfold SQClass.hasTypeTag
    split
    · rfl
    · exact h

theorem StaticClassData.Cast_self (d : StaticClassData) (ptr : Ptr) :
    d.Cast ptr (some d.self) = .ok ptr := by
  cases d with
  | mk s t n cf f bc =>
    unfold StaticClassData.Cast
    simp [StaticClassData.self]

theorem StaticClassData.Cast_base {d bd : StaticClassData} (hb : d.baseClass = some bd)
    (hne : d.self ≠ bd.self) (ptr : Ptr) :
    d.Cast ptr (some bd.self) = .ok (d.toBase ptr) := by
  cases d with
  | mk s t n cf f bc =>
    simp only [StaticClassData.baseClass] at hb
    simp only [StaticClassData.self] at hne
    subst hb
    have hne2 : ¬ bd.self = s := fun h => hne h.symm
    unfold StaticClassData.Cast
    simp [StaticClassData.toBase, hne2, StaticClassData.Cast_self]

/-- The world after `PushInstance` has created a wrapper for `p`. -/
theorem PushInstance_new_spec (b : Build) {w : World} {C : TypeId} {d : StaticClassData}
    {cd : ClassData} {c : SQClass} (h : w.Bound C d cd c) {p : Ptr} (hp : p ≠ 0)
    (hm : w.maps cd.instances p = none) :
    ∃ w1 ref, PushInstance b C p w = .ok ((), w1) ∧
      w1.staticClassData = w.staticClassData ∧ w1.tables = w.tables ∧
      w1.registry = w.registry ∧ w1.classData = w.classData ∧ w1.alive = w.alive ∧
      w1.maps cd.instances p = some ref ∧ w1.Wrapped C c cd.instances p ref ∧
      ref.owner = false ∧ w1.stack = ref.squirrelObject :: w.stack :=
  ⟨_, { type := C, owner := false, object := p, squirrelObject := .inst w.nextInstance },
    PushInstance_new b h hp hm, rfl, rfl, rfl, rfl, rfl, by simp,
    ⟨rfl, rfl, w.nextInstance,
      { cls := c, userpointer := some { first := p, second := cd.instances },
        hook := some (.DeleteInstance C) }, rfl, by simp, rfl, rfl⟩, rfl, rfl⟩

/-- The instance that `PushInstance` creates for a new pointer. -/
theorem PushInstance_new_instance (b : Build) {w : World} {C : TypeId} {d : StaticClassData}
    {cd : ClassData} {c : SQClass} (h : w.Bound C d cd c) {p : Ptr} (hp : p ≠ 0)
    (hm : w.maps cd.instances p = none) :
    ∃ w1 ref i, PushInstance b C p w = .ok ((), w1) ∧ w1.alive = w.alive ∧
      w1.stack = .inst w.nextInstance :: w.stack ∧
      w1.instances w.nextInstance = some i ∧
      i.userpointer = some { first := p, second := cd.instances } ∧
      i.hook = some (.DeleteInstance C) ∧
      w1.maps cd.instances p = some ref ∧ ref.object = p ∧ ref.owner = false :=
  ⟨_, { type := C, owner := false, object := p, squirrelObject := .inst w.nextInstance },
    { cls := c, userpointer := some { first := p, second := cd.instances },
      hook := some (.DeleteInstance C) },
    PushInstance_new b h hp hm, rfl, rfl, by simp, rfl, rfl, by simp, rfl, rfl⟩

/-- Extraction of a wrapped instance of exactly the bound class of `CA`,
requesting `C`. -/
theorem GetInstance_wrapped (b : Build) (fuel : Nat) (nullAllowed : Bool) (idx : Int)
    {w : World} {C CA : TypeId} {d a : StaticClassData} {cda : ClassData} {ca : SQClass}
    (hr : w.registered C = true) (hs : w.staticClassData C = some d)
    (ha : w.Bound CA a cda ca) (hchk : ca.hasTypeTag d.self = true)
    {p : Ptr} (hp : p ≠ 0) {ref : ObjectReference}
    (hm : w.maps cda.instances p = some ref) (hw : w.Wrapped CA ca cda.instances p ref)
    (hv : w.at? idx = some ref.squirrelObject) :
    GetInstance b C fuel idx nullAllowed w =
      if d.self = a.self then .ok (p, w)
      else
        match a.Cast p (some d.self) with
        | .ok q => .ok (q, w)
        | .error e => .error e := by
  obtain ⟨hty, hobj, id, i, hsq, hi, hcls, hup⟩ := hw
  have hgp : a.GetPointer ref = p := by
    simp [StaticClassData.GetPointer, hty, ha.type, ObjectReference.GetPointer, hobj]
  rw [hsq] at hv
  have htag : i.cls.typetag = some a := by rw [hcls]; exact ha.typetag
  have := GetInstance_tagged b C fuel idx nullAllowed hr hs hv hi htag (by rw [hcls]; exact hchk)
    hup hm (by rw [hgp]; exact hp)
  rw [hgp] at this
  exact this

theorem World.at?_top (w : World) (o : SQObject) (st : List SQObject) (h : w.stack = o :: st) :
    w.at? (-1) = some o := by
  simp [World.at?, h, stackPos_neg_one]

/-- C1 (identity preservation).  For a bound class and a non-null pointer `p`,
`PushInstance` pushes a handle and leaves a wrapper for `p` that stores this
handle; a second `PushInstance` of `p` pushes the same handle and changes
nothing but the stack (no script object is created, the map is as it was). -/
theorem pushInstance_twice_same_handle (b : Build) {w : World} {C : TypeId}
    {d : StaticClassData} {cd : ClassData} {c : SQClass} (h : w.Bound C d cd c)
    {p : Ptr} (hp : p ≠ 0) :
    ∃ (handle : SQObject) (w1 : World),
      PushInstance b C p w = .ok ((), w1) ∧
      w1.stack = handle :: w.stack ∧
      (∃ ref, w1.maps cd.instances p = some ref ∧ ref.squirrelObject = handle) ∧
      PushInstance b C p w1 = .ok ((), { w1 with stack := handle :: w1.stack }) := by
  cases hm : w.maps cd.instances p with
  | some ref =>
    have h1 : ({ w with stack := ref.squirrelObject :: w.stack } : World).Bound C d cd c :=
      h.of_eq rfl rfl rfl rfl
    exact ⟨ref.squirrelObject, _, PushInstance_existing b h hp hm, rfl, ⟨ref, hm, rfl⟩,
      PushInstance_existing b h1 hp hm⟩
  | none =>
    obtain ⟨w1, ref, hrun, hs, ht, hr, hc, _, hm1, _, _, hst⟩ := PushInstance_new_spec b h hp hm
    exact ⟨ref.squirrelObject, w1, hrun, hst, ⟨ref, hm1, rfl⟩,
      PushInstance_existing b (h.of_eq hs ht hr hc) hp hm1⟩

/-- C2 (round trip).  For a bound class `C` and a non-null pointer `p`, where
an entry that the map may already hold for `p` is the wrapper of a live script
object of the bound class, `PushInstance` succeeds and `GetInstance`
requesting `C` on the pushed value (stack index `-1`) returns `p`, raising no
error and leaving the world as it is. -/
theorem pushInstance_getInstance_roundtrip (b : Build) (fuel : Nat) (nullAllowed : Bool)
    {w : World} {C : TypeId} {d : StaticClassData} {cd : ClassData} {c : SQClass}
    (h : w.Bound C d cd c) {p : Ptr} (hp : p ≠ 0)
    (hinv : ∀ ref, w.maps cd.instances p = some ref → w.Wrapped C c cd.instances p ref) :
    ∃ w1, PushInstance b C p w = .ok ((), w1) ∧
      GetInstance b C fuel (-1) nullAllowed w1 = .ok (p, w1) := by
  have hchk : c.hasTypeTag d.self = true := SQClass.hasTypeTag_of_typetag h.typetag
  cases hm : w.maps cd.instances p with
  | some ref =>
    have h1 : ({ w with stack := ref.squirrelObject :: w.stack } : World).Bound C d cd c :=
      h.of_eq rfl rfl rfl rfl
    refine ⟨_, PushInstance_existing b h hp hm, ?_⟩
    have := GetInstance_wrapped b fuel nullAllowed (-1) h1.is_registered h1.static h1 hchk hp hm
      (hinv ref hm) (World.at?_top _ _ _ rfl)
    simpa using this
  | none =>
    obtain ⟨w1, ref, hrun, hs, ht, hr, hc, _, hm1, hw1, _, hst⟩ := PushInstance_new_spec b h hp hm
    have h1 : w1.Bound C d cd c := h.of_eq hs ht hr hc
    refine ⟨w1, hrun, ?_⟩
    have := GetInstance_wrapped b fuel nullAllowed (-1) h1.is_registered h1.static h1 hchk hp hm1
      hw1 (World.at?_top _ _ _ hst)
    simpa using this

/-- C3 (inheritance-adjusted round trip).  Let `Derived` and `Base` be bound,
the descriptor of `Derived` linked to the (distinct) descriptor of `Base` and
the script class of `Derived` derived from that of `Base`.  After
`PushInstance` of a non-null `Derived*` `p` through the registration of
`Derived`, `GetInstance` requesting `Base` on the pushed value returns
`static_cast<Base*>(p)` (`dD.toBase p`) and `GetInstance` requesting `Derived`
returns `p`. -/
theorem pushInstance_getInstance_base (b : Build) (fuel : Nat) (nullAllowed : Bool)
    {w : World} {Derived Base : TypeId} {dD dB : StaticClassData} {cdD cdB : ClassData}
    {cD cB : SQClass} (hD : w.Bound Derived dD cdD cD) (hB : w.Bound Base dB cdB cB)
    (hlink : dD.baseClass = some dB) (hne : dD.self ≠ dB.self) (hcls : cD.base = some cB)
    {p : Ptr} (hp : p ≠ 0)
    (hinv : ∀ ref, w.maps cdD.instances p = some ref → w.Wrapped Derived cD cdD.instances p ref) :
    ∃ w1, PushInstance b Derived p w = .ok ((), w1) ∧
      GetInstance b Base fuel (-1) nullAllowed w1 = .ok (dD.toBase p, w1) ∧
      GetInstance b Derived fuel (-1) nullAllowed w1 = .ok (p, w1) := by
  have hchkD : cD.hasTypeTag dD.self = true := SQClass.hasTypeTag_of_typetag hD.typetag
  have hchkB : cD.hasTypeTag dB.self = true :=
    SQClass.hasTypeTag_of_base hcls (SQClass.hasTypeTag_of_typetag hB.typetag)
  have hne2 : ¬ dB.self = dD.self := fun e => hne e.symm
  have key : ∀ (w1 : World) (ref : ObjectReference), w1.Bound Derived dD cdD cD →
      w1.Bound Base dB cdB cB → w1.maps cdD.instances p = some ref →
      w1.Wrapped Derived cD cdD.instances p ref → w1.at? (-1) = some ref.squirrelObject →
      GetInstance b Base fuel (-1) nullAllowed w1 = .ok (dD.toBase p, w1) ∧
      GetInstance b Derived fuel (-1) nullAllowed w1 = .ok (p, w1) := by
    intro w1 ref h1D h1B hm1 hw1 hv1
    constructor
    · have := GetInstance_wrapped b fuel nullAllowed (-1) h1B.is_registered h1B.static h1D hchkB hp
        hm1 hw1 hv1
      simpa [hne2, StaticClassData.Cast_base hlink hne] using this
    · have := GetInstance_wrapped b fuel nullAllowed (-1) h1D.is_registered h1D.static h1D hchkD hp
        hm1 hw1 hv1
      simpa using this
  cases hm : w.maps cdD.instances p with
  | some ref =>
    have h1D : ({ w with stack := ref.squirrelObject :: w.stack } : World).Bound Derived dD cdD cD :=
      hD.of_eq rfl rfl rfl rfl
    have h1B : ({ w with stack := ref.squirrelObject :: w.stack } : World).Bound Base dB cdB cB :=
      hB.of_eq rfl rfl rfl rfl
    exact ⟨_, PushInstance_existing b hD hp hm,
      key _ ref h1D h1B hm (hinv ref hm) (World.at?_top _ _ _ rfl)⟩
  | none =>
    obtain ⟨w1, ref, hrun, hs, ht, hr, hc, _, hm1, hw1, _, hst⟩ := PushInstance_new_spec b hD hp hm
    exact ⟨w1, hrun, key w1 ref (hD.of_eq hs ht hr hc) (hB.of_eq hs ht hr hc) hm1 hw1
      (World.at?_top _ _ _ hst)⟩

theorem DeleteInstance_run (size : Int) {w : World} {p : Ptr} {m : Nat} {ref : ObjectReference}
    (hm : w.maps m p = some ref) :
    DeleteInstance (some { first := p, second := m }) size w =
      .ok (0, { w with
        maps := Function.update w.maps m (Function.update (w.maps m) p none)
        alive := if ref.owner then Function.update w.alive ref.object false else w.alive }) := by
  cases ho : ref.owner <;>
  simp [DeleteInstance, Sq.deref, Sq.ret, Sq.world, hm, ObjectReference.destroy, ho, Sq.setWorld]

/-- C4 (release).  Part 1: when the map `m` holds the wrapper `ref` under `p`,
the release hook called with the payload `(p, m)` returns `0`, erases the
entry of `p` from `m` (no other entry of any map changes), runs the
destructor of the wrapper, which destroys the native object held by the
wrapper exactly when the wrapper owns it, and changes nothing else.  Part 2:
`PushInstance` of a pointer `q` that has no entry yet creates an instance
whose release hook is `DeleteInstance` and a wrapper that does not own `q`;
releasing that instance leaves no entry for `q` and the native objects as
they were before the push. -/
theorem deleteInstance_release (size : Int) {w : World} {p : Ptr} {m : Nat}
    {ref : ObjectReference} (hm : w.maps m p = some ref)
    (b : Build) {w0 : World} {C : TypeId} {d : StaticClassData} {cd : ClassData} {c : SQClass}
    (h : w0.Bound C d cd c) {q : Ptr} (hq : q ≠ 0) (hfresh : w0.maps cd.instances q = none) :
    (∃ w1, DeleteInstance (some { first := p, second := m }) size w = .ok (0, w1) ∧
      w1 = { w with maps := w1.maps, alive := w1.alive } ∧
      w1.maps m p = none ∧
      (∀ m1 p1, (m1 ≠ m ∨ p1 ≠ p) → w1.maps m1 p1 = w.maps m1 p1) ∧
      (ref.owner = true → w1.alive = Function.update w.alive ref.object false) ∧
      (ref.owner = false → w1.alive = w.alive)) ∧
    (∃ w1 w2 id i ref1, PushInstance b C q w0 = .ok ((), w1) ∧
      w1.stack = .inst id :: w0.stack ∧ w1.instances id = some i ∧
      i.hook = some (.DeleteInstance C) ∧
      w1.maps cd.instances q = some ref1 ∧ ref1.object = q ∧ ref1.owner = false ∧
      DeleteInstance i.userpointer size w1 = .ok (0, w2) ∧
      w2.maps cd.instances q = none ∧ w2.alive = w0.alive) := by
  constructor
  · refine ⟨_, DeleteInstance_run size hm, rfl, by simp, ?_, ?_, ?_⟩
    · intro m1 p1 hne
      by_cases hm1 : m1 = m
      · subst hm1
        have hp1 : p1 ≠ p := by
          rcases hne with h1 | h1
          · exact absurd rfl h1
          · exact h1
        simp [Function.update_noteq hp1]
      · simp [Function.update_noteq hm1]
    · intro ho
      simp [ho]
    · intro ho
      simp [ho]
  · obtain ⟨w1, ref1, i, hrun, hal, hst, hi, hup, hhook, hm1, hobj, hown⟩ :=
      PushInstance_new_instance b h hq hfresh
    have hdel := DeleteInstance_run size hm1
    rw [← hup] at hdel
    exact ⟨w1, _, w0.nextInstance, i, ref1, hrun, hst, hi, hhook, hm1, hobj, hown, hdel,
      by simp, by simp [hown, hal]⟩

/-- Witness for C1: the `Dog` at `5000` pushed twice into `world0`. -/
theorem pushInstance_twice_same_handle_witness :
    ∃ (handle : SQObject) (w1 : World),
      PushInstance debugBuild 2 5000 world0 = .ok ((), w1) ∧
      w1.stack = handle :: world0.stack ∧
      (∃ ref, w1.maps dogClassData.instances 5000 = some ref ∧ ref.squirrelObject = handle) ∧
      PushInstance debugBuild 2 5000 w1 = .ok ((), { w1 with stack := handle :: w1.stack }) :=
  pushInstance_twice_same_handle debugBuild
    (show world0.Bound 2 dogData dogClassData dogClass from
      ⟨rfl, rfl, ⟨.table 1, 2000, none, rfl, rfl, rfl⟩, rfl, rfl⟩)
    (show (5000 : Ptr) ≠ 0 by decide)

/-- Witness for C2: the `Dog` at `5000`, which `worldDog` already wraps, is
pushed again and extracted. -/
theorem pushInstance_getInstance_roundtrip_witness :
    ∃ w1, PushInstance debugBuild 2 5000 worldDog = .ok ((), w1) ∧
      GetInstance debugBuild 2 0 (-1) false w1 = .ok (5000, w1) :=
  pushInstance_getInstance_roundtrip debugBuild 0 false
    (show worldDog.Bound 2 dogData dogClassData dogClass from
      ⟨rfl, rfl, ⟨.table 1, 2000, none, rfl, rfl, rfl⟩, rfl, rfl⟩)
    (show (5000 : Ptr) ≠ 0 by decide)
    (fun ref href => by
      have hr : ref = dogRef := by
        have h2 : worldDog.maps dogClassData.instances 5000 = some dogRef := rfl
        rw [h2] at href
        exact (Option.some.inj href).symm
      subst hr
      exact ⟨rfl, rfl, 0, _, rfl, rfl, rfl, rfl⟩)

/-- Witness for C3: the `Dog` at `5000` pushed into `world0` and extracted as
`Animal` (`5008`) and as `Dog` (`5000`). -/
theorem pushInstance_getInstance_base_witness :
    ∃ w1, PushInstance debugBuild 2 5000 world0 = .ok ((), w1) ∧
      GetInstance debugBuild 1 0 (-1) false w1 = .ok (5008, w1) ∧
      GetInstance debugBuild 2 0 (-1) false w1 = .ok (5000, w1) :=
  pushInstance_getInstance_base debugBuild 0 false
    (show world0.Bound 2 dogData dogClassData dogClass from
      ⟨rfl, rfl, ⟨.table 1, 2000, none, rfl, rfl, rfl⟩, rfl, rfl⟩)
    (show world0.Bound 1 animalData animalClassData animalClass from
      ⟨rfl, rfl, ⟨.table 1, 1000, none, rfl, rfl, rfl⟩, rfl, rfl⟩)
    (show dogData.baseClass = some animalData from rfl)
    (show dogData.self ≠ animalData.self by decide)
    (show dogClass.base = some animalClass from rfl)
    (show (5000 : Ptr) ≠ 0 by decide)
    (fun ref href => by
      have h2 : world0.maps dogClassData.instances 5000 = none := rfl
      rw [h2] at href
      cases href)

/-- Witness for C4: the owning wrapper of `worldOwned` is released, and the
`Dog` at `6000` is pushed into `world0` and released. -/
theorem deleteInstance_release_witness :
    (∃ w1, DeleteInstance (some { first := 5000, second := 2 }) 0 worldOwned = .ok (0, w1) ∧
      w1 = { worldOwned with maps := w1.maps, alive := w1.alive } ∧
      w1.maps 2 5000 = none ∧
      (∀ m1 p1, (m1 ≠ 2 ∨ p1 ≠ 5000) → w1.maps m1 p1 = worldOwned.maps m1 p1) ∧
      (({ dogRef with owner := true } : ObjectReference).owner = true →
        w1.alive = Function.update worldOwned.alive 5000 false) ∧
      (({ dogRef with owner := true } : ObjectReference).owner = false →
        w1.alive = worldOwned.alive)) ∧
    (∃ w1 w2 id i ref1, PushInstance debugBuild 2 6000 world0 = .ok ((), w1) ∧
      w1.stack = .inst id :: world0.stack ∧ w1.instances id = some i ∧
      i.hook = some (.DeleteInstance 2) ∧
      w1.maps dogClassData.instances 6000 = some ref1 ∧ ref1.object = 6000 ∧
      ref1.owner = false ∧
      DeleteInstance i.userpointer 0 w1 = .ok (0, w2) ∧
      w2.maps dogClassData.instances 6000 = none ∧ w2.alive = world0.alive) :=
  deleteInstance_release 0
    (show worldOwned.maps 2 5000 = some { dogRef with owner := true } from rfl)
    debugBuild
    (show world0.Bound 2 dogData dogClassData dogClass from
      ⟨rfl, rfl, ⟨.table 1, 2000, none, rfl, rfl, rfl⟩, rfl, rfl⟩)
    (show (6000 : Ptr) ≠ 0 by decide)
    (show world0.maps dogClassData.instances 6000 = none from rfl)

theorem typeCheck_mismatch (b : Build) (C : TypeId) (idx : Int) (nullAllowed : Bool)
    {w : World} {d : StaticClassData} {v : SQObject}
    (hb : b.SCRAT_NO_ERROR_CHECKING = false)
    (hr : w.registered C = true) (hs : w.staticClassData C = some d)
    (hv : w.at? idx = some v) (hnull : nullAllowed = true → v.type ≠ .OT_NULL)
    (hfail : w.tagCheckFails v d.self) :
    GetInstance.typeCheck b C idx nullAllowed w =
      .ok (.inl 0, { w with thrown := .typeError d.className :: w.thrown }) := by
  cases nullAllowed <;> cases v <;>
  first
  | exact absurd rfl (hnull rfl)
  | (obtain ⟨i, hi, hchk⟩ := hfail
     simp [GetInstance.typeCheck, hasClassData_run, hr, sq_gettype, stack_get, hv, SQObject.type,
       lock, Sq.world, hs, sq_getinstanceup, Sq.deref, Sq.ret, hi, hchk, hb, ClassName, expired,
       Sq.assert, FormatTypeError, SQTHROW])
  | simp [GetInstance.typeCheck, hasClassData_run, hr, sq_gettype, stack_get, hv, SQObject.type,
       lock, Sq.world, hs, sq_getinstanceup, Sq.deref, Sq.ret, hb, ClassName, expired,
       Sq.assert, FormatTypeError, SQTHROW]

theorem typeCheck_unconstructed (b : Build) (C : TypeId) (idx : Int) (nullAllowed : Bool)
    {w : World} {d : StaticClassData} {id : Nat} {i : SQInstance}
    (hb : b.SCRAT_NO_ERROR_CHECKING = false)
    (hr : w.registered C = true) (hs : w.staticClassData C = some d)
    (hv : w.at? idx = some (.inst id)) (hi : w.instances id = some i)
    (hchk : i.cls.hasTypeTag d.self = true) (hup : i.userpointer = none) :
    GetInstance.typeCheck b C idx nullAllowed w =
      .ok (.inl 0, { w with thrown := .unconstructed :: w.thrown }) := by
  cases nullAllowed <;>
  simp [GetInstance.typeCheck, hasClassData_run, hr, sq_gettype, stack_get, hv, SQObject.type,
    lock, Sq.world, hs, sq_getinstanceup, Sq.deref, Sq.ret, hi, hchk, hup, hb, SQTHROW]

/-- The type check in a build with `SCRAT_NO_ERROR_CHECKING`, when the null
shortcut is not taken: `instance` receives the user pointer of an instance and
stays `NULL` for every other value; no error is raised. -/
theorem typeCheck_unchecked (b : Build) (C : TypeId) (idx : Int) (nullAllowed : Bool)
    {w : World} {d : StaticClassData} {v : SQObject}
    (hb : b.SCRAT_NO_ERROR_CHECKING = true)
    (hr : w.registered C = true) (hs : w.staticClassData C = some d)
    (hv : w.at? idx = some v) (hnull : nullAllowed = true → v.type ≠ .OT_NULL) :
    GetInstance.typeCheck b C idx nullAllowed w =
      match v with
      | .inst id =>
        match w.instances id with
        | some i => .ok (.inr (some d, i.userpointer), w)
        | none => .error .undefinedBehaviour
      | _ => .ok (.inr (some d, none), w) := by
  cases nullAllowed <;> cases v <;>
  first
  | exact absurd rfl (hnull rfl)
  | (rename_i id
     cases hi : w.instances id <;>
     simp [GetInstance.typeCheck, hasClassData_run, hr, sq_gettype, stack_get, hv, SQObject.type,
       lock, Sq.world, hs, sq_getinstanceup, Sq.deref, Sq.ret, hi, hb, Sq.fault])
  | simp [GetInstance.typeCheck, hasClassData_run, hr, sq_gettype, stack_get, hv, SQObject.type,
       lock, Sq.world, hs, sq_getinstanceup, Sq.deref, Sq.ret, hb]

/-- C5 (type mismatch rejection), as amended.  In a build with error checking
(`SCRAT_NO_ERROR_CHECKING` not defined), for a bound class `C` and a value `v`
at `idx` on which the type check against the descriptor of `C` fails (and
which is not the null value when `nullAllowed` is set), `GetInstance` raises
the type error naming the class of `C`, returns `NULL` and changes nothing
else. -/
theorem getInstance_type_mismatch (b : Build) (fuel : Nat) (idx : Int) (nullAllowed : Bool)
    {w : World} {C : TypeId} {d : StaticClassData} {cd : ClassData} {c : SQClass}
    {v : SQObject} (hb : b.SCRAT_NO_ERROR_CHECKING = false) (h : w.Bound C d cd c)
    (hv : w.at? idx = some v) (hnull : nullAllowed = true → v.type ≠ .OT_NULL)
    (hfail : w.tagCheckFails v d.self) :
    GetInstance b C fuel idx nullAllowed w =
      .ok (0, { w with thrown := .typeError d.className :: w.thrown }) := by
  simp [GetInstance,
    typeCheck_mismatch b C idx nullAllowed hb h.is_registered h.static hv hnull hfail]

/-- Witness for C5: extracting a `Dog` from the `Cat` instance of `worldCat`. -/
theorem getInstance_type_mismatch_witness :
    GetInstance debugBuild 2 0 (-1) false worldCat =
      .ok (0, { worldCat with thrown := .typeError dogData.className :: worldCat.thrown }) :=
  getInstance_type_mismatch debugBuild 0 (-1) false
    (show debugBuild.SCRAT_NO_ERROR_CHECKING = false from rfl)
    (show worldCat.Bound 2 dogData dogClassData dogClass from
      ⟨rfl, rfl, ⟨.table 1, 2000, none, rfl, rfl, rfl⟩, rfl, rfl⟩)
    (show worldCat.at? (-1) = some (.inst 0) from rfl)
    (fun hn => absurd hn (by decide))
    (show worldCat.tagCheckFails (.inst 0) dogData.self from ⟨_, rfl, rfl⟩)

/-- Counterexample to C5 as stated: `Dog` is bound in `worldCat`, the value
on top of the stack is an instance of the unrelated class of `Cat`, on which
the type check against the descriptor of `Dog` fails; in a build with
`SCRAT_NO_ERROR_CHECKING`, `GetInstance` requesting `Dog` raises no type
error: it reaches `Cast` on the root descriptor of `Cat`, which calls through
the null `baseClass`. -/
theorem getInstance_type_mismatch_unchecked :
    worldCat.Bound 2 dogData dogClassData dogClass ∧
    worldCat.at? (-1) = some (.inst 0) ∧
    worldCat.tagCheckFails (.inst 0) dogData.self ∧
    GetInstance uncheckedBuild 2 0 (-1) false worldCat = .error .undefinedBehaviour := by
  refine ⟨⟨rfl, rfl, ⟨.table 1, 2000, none, rfl, rfl, rfl⟩, rfl, rfl⟩, rfl, ⟨_, rfl, rfl⟩, ?_⟩
  have h1 : GetInstance.typeCheck uncheckedBuild 2 (-1) false worldCat =
      .ok (.inr (some dogData, some { first := 7000, second := 3 }), worldCat) :=
    @typeCheck_unchecked uncheckedBuild 2 (-1) false worldCat dogData (.inst 0) rfl rfl rfl
      (show worldCat.at? (-1) = some (.inst 0) from rfl) (fun hn => absurd hn (by decide))
  have h2 : GetInstance.actualType 0 (-1) worldCat = .ok (some catData, worldCat) :=
    @actualType_tagged 0 (-1) worldCat catData 0 _ rfl rfl rfl
  have h3 := @extract_found worldCat (some dogData) catData 7000 3 _
    (show worldCat.maps 3 7000 = some _ from rfl) (by decide)
  simp only [GetInstance, Sq.bind_run, h1, h2]
  rw [h3]
  rfl

/-- C6 (unconstructed rejection), as amended.  In a build with error checking
(`SCRAT_NO_ERROR_CHECKING` not defined), for a bound class `C` and a live
script instance at `idx` whose class passes the type check against the
descriptor of `C` (the class of `C` or a class derived from it) and whose
payload is empty,
`GetInstance` raises the unconstructed-instance error and returns `NULL`.  It
does so whatever the instance maps hold and leaves them as they are. -/
theorem getInstance_unconstructed (b : Build) (fuel : Nat) (idx : Int) (nullAllowed : Bool)
    {w : World} {C : TypeId} {d : StaticClassData} {cd : ClassData} {c : SQClass}
    {id : Nat} {i : SQInstance} (hb : b.SCRAT_NO_ERROR_CHECKING = false)
    (h : w.Bound C d cd c) (hv : w.at? idx = some (.inst id)) (hi : w.instances id = some i)
    (hchk : i.cls.hasTypeTag d.self = true) (hup : i.userpointer = none) :
    GetInstance b C fuel idx nullAllowed w =
      .ok (0, { w with thrown := .unconstructed :: w.thrown }) := by
  simp [GetInstance,
    typeCheck_unconstructed b C idx nullAllowed hb h.is_registered h.static hv hi hchk hup]

/-- Witness for C6: the unconstructed instance of a script class that extends
`Dog`, extracted as `Dog`. -/
theorem getInstance_unconstructed_witness :
    GetInstance debugBuild 2 0 (-1) false worldUnconstructed =
      .ok (0, { worldUnconstructed with thrown := .unconstructed :: worldUnconstructed.thrown }) :=
  getInstance_unconstructed debugBuild 0 (-1) false
    (show debugBuild.SCRAT_NO_ERROR_CHECKING = false from rfl)
    (show worldUnconstructed.Bound 2 dogData dogClassData dogClass from
      ⟨rfl, rfl, ⟨.table 1, 2000, none, rfl, rfl, rfl⟩, rfl, rfl⟩)
    (show worldUnconstructed.at? (-1) = some (.inst 0) from rfl)
    (show worldUnconstructed.instances 0 =
      some { cls := scriptDogClass, userpointer := none, hook := none } from rfl)
    (show scriptDogClass.hasTypeTag dogData.self = true from rfl)
    rfl

/-- Counterexample to C6 as stated: in a build with `SCRAT_NO_ERROR_CHECKING`
the unconstructed instance of a script class that extends the bound class of
`Dog` passes the checks, the class walk finds the descriptor of `Dog`, and the
null payload is dereferenced for the map lookup; no error is raised. -/
theorem getInstance_unconstructed_unchecked :
    worldUnconstructed.Bound 2 dogData dogClassData dogClass ∧
    worldUnconstructed.at? (-1) = some (.inst 0) ∧
    worldUnconstructed.instances 0 =
      some { cls := scriptDogClass, userpointer := none, hook := none } ∧
    scriptDogClass.hasTypeTag dogData.self = true ∧
    GetInstance.actualType 1 (-1) worldUnconstructed = .ok (some dogData, worldUnconstructed) ∧
    GetInstance uncheckedBuild 2 1 (-1) false worldUnconstructed =
      .error .undefinedBehaviour := by
  have h2 : GetInstance.actualType 1 (-1) worldUnconstructed =
      .ok (some dogData, worldUnconstructed) := rfl
  refine ⟨⟨rfl, rfl, ⟨.table 1, 2000, none, rfl, rfl, rfl⟩, rfl, rfl⟩, rfl, rfl, rfl, h2, ?_⟩
  have h1 : GetInstance.typeCheck uncheckedBuild 2 (-1) false worldUnconstructed =
      .ok (.inr (some dogData, none), worldUnconstructed) :=
    @typeCheck_unchecked uncheckedBuild 2 (-1) false worldUnconstructed dogData (.inst 0) rfl rfl
      rfl (show worldUnconstructed.at? (-1) = some (.inst 0) from rfl)
      (fun hn => absurd hn (by decide))
  simp only [GetInstance, Sq.bind_run, h1, h2]
  rfl

/-- C7 (unknown type takes precedence).  When the requested type has no
registration (its descriptor is expired, or the registry table has no
`"__classes"` slot, or that table has no slot under the class name),
`hasClassData` returns `false` and `GetInstance`, for every value at `idx`
and both values of `nullAllowed`, raises the type error for `"unknown"`,
returns `NULL` and changes nothing else. -/
theorem getInstance_unknown_type (b : Build) (fuel : Nat) (idx : Int) (nullAllowed : Bool)
    {w : World} {C : TypeId} {v : SQObject}
    (h : w.staticClassData C = none ∨
      rawLookup w.tables w.registry (.string "__classes") = none ∨
      ∃ d t, w.staticClassData C = some d ∧
        rawLookup w.tables w.registry (.string "__classes") = some t ∧
        rawLookup w.tables t (.string d.className) = none)
    (hv : w.at? idx = some v) :
    hasClassData b C w = .ok (false, w) ∧
    GetInstance b C fuel idx nullAllowed w =
      .ok (0, { w with thrown := .typeError "unknown" :: w.thrown }) := by
  have hr : w.registered C = false := by
    unfold World.registered
    rcases h with h | h | ⟨d, t, h1, h2, h3⟩
    · simp [h]
    · cases hs : w.staticClassData C <;> simp [h]
    · simp [h1, h2, h3]
  refine ⟨by rw [hasClassData_run, hr], ?_⟩
  simp [GetInstance, typeCheck_unregistered b C idx nullAllowed hr hv]

/-- Witness for C7: type `4` is not bound in `worldNull`; the null value is
extracted with `nullAllowed` set. -/
theorem getInstance_unknown_type_witness :
    hasClassData debugBuild 4 worldNull = .ok (false, worldNull) ∧
    GetInstance debugBuild 4 0 (-1) true worldNull =
      .ok (0, { worldNull with thrown := .typeError "unknown" :: worldNull.thrown }) :=
  getInstance_unknown_type debugBuild 0 (-1) true
    (Or.inl (show worldNull.staticClassData 4 = none from rfl))
    (show worldNull.at? (-1) = some .null from rfl)

/-- C8 (null handling in extraction), as amended.  For a bound class `C` and
the null value at `idx`, `GetInstance` with `nullAllowed` set returns `NULL`,
raises no error and changes nothing; with `nullAllowed` not set, in a build
with error checking (`SCRAT_NO_ERROR_CHECKING` not defined), it raises the
type error naming the class of `C` and returns `NULL`. -/
theorem getInstance_null (b : Build) (fuel : Nat) (idx : Int)
    {w : World} {C : TypeId} {d : StaticClassData} {cd : ClassData} {c : SQClass}
    (h : w.Bound C d cd c) (hv : w.at? idx = some .null) :
    GetInstance b C fuel idx true w = .ok (0, w) ∧
    (b.SCRAT_NO_ERROR_CHECKING = false →
      GetInstance b C fuel idx false w =
        .ok (0, { w with thrown := .typeError d.className :: w.thrown })) := by
  constructor
  · simp [GetInstance, typeCheck_null_allowed b C idx h.is_registered hv]
  · intro hb
    simp [GetInstance, typeCheck_mismatch b C idx false hb h.is_registered h.static hv
      (fun hn => absurd hn (by decide)) trivial]

/-- Witness for C8: the null value of `worldNull` extracted as `Dog`. -/
theorem getInstance_null_witness :
    GetInstance debugBuild 2 0 (-1) true worldNull = .ok (0, worldNull) ∧
    GetInstance debugBuild 2 0 (-1) false worldNull =
      .ok (0, { worldNull with thrown := .typeError dogData.className :: worldNull.thrown }) :=
  have h := getInstance_null debugBuild 0 (-1)
    (show worldNull.Bound 2 dogData dogClassData dogClass from
      ⟨rfl, rfl, ⟨.table 1, 2000, none, rfl, rfl, rfl⟩, rfl, rfl⟩)
    (show worldNull.at? (-1) = some .null from rfl)
  ⟨h.1, h.2 rfl⟩

/-- Counterexample to C8 as stated: in a build with `SCRAT_NO_ERROR_CHECKING`
the null value, extracted as the bound class `Dog` with `nullAllowed` not set,
is not rejected with the type error: `sq_gettypetag` fails on it and
`actualType` is read uninitialised. -/
theorem getInstance_null_unchecked :
    worldNull.Bound 2 dogData dogClassData dogClass ∧
    worldNull.at? (-1) = some .null ∧
    GetInstance uncheckedBuild 2 0 (-1) false worldNull = .error .undefinedBehaviour := by
  refine ⟨⟨rfl, rfl, ⟨.table 1, 2000, none, rfl, rfl, rfl⟩, rfl, rfl⟩, rfl, ?_⟩
  have h1 : GetInstance.typeCheck uncheckedBuild 2 (-1) false worldNull =
      .ok (.inr (some dogData, none), worldNull) :=
    @typeCheck_unchecked uncheckedBuild 2 (-1) false worldNull dogData .null rfl rfl
      rfl (show worldNull.at? (-1) = some .null from rfl)
      (fun hn => absurd hn (by decide))
  have h2 : GetInstance.actualType 0 (-1) worldNull = .error .undefinedBehaviour := rfl
  simp only [GetInstance, Sq.bind_run, h1, h2]

/-- C9 (push of null).  In every world, bound or not, and every build,
`PushInstance` of the null pointer pushes the null value and changes nothing
else: no wrapper, no map entry, no script object. -/
theorem pushInstance_null (b : Build) (C : TypeId) (w : World) :
    PushInstance b C 0 w = .ok ((), { w with stack := .null :: w.stack }) :=
  PushInstance_null b C w

/-- C10 (push side effect).  For a bound class and a non-null `p`,
`PushInstance` succeeds and pushes a handle; no entry other than the one of
`p` in the map of the class changes; if `p` had no entry, the handle is a
newly created script instance (release hook `DeleteInstance`, payload
`(p, map)`) and the entry of `p` becomes a non-owning wrapper that holds `p`
and this handle; if `p` had an entry, no map changes at all and no script
object is created. -/
theorem pushInstance_map_effect (b : Build) {w : World} {C : TypeId} {d : StaticClassData}
    {cd : ClassData} {c : SQClass} (h : w.Bound C d cd c) {p : Ptr} (hp : p ≠ 0) :
    ∃ (w1 : World) (handle : SQObject),
      PushInstance b C p w = .ok ((), w1) ∧ w1.stack = handle :: w.stack ∧
      (∀ m q, (m ≠ cd.instances ∨ q ≠ p) → w1.maps m q = w.maps m q) ∧
      (w.maps cd.instances p = none →
        handle = .inst w.nextInstance ∧ w1.nextInstance = w.nextInstance + 1 ∧
        w1.instances w.nextInstance =
          some { cls := c, userpointer := some { first := p, second := cd.instances },
                 hook := some (.DeleteInstance C) } ∧
        w1.maps cd.instances p =
          some { type := C, owner := false, object := p, squirrelObject := handle }) ∧
      (∀ ref, w.maps cd.instances p = some ref →
        w1.maps = w.maps ∧ w1.instances = w.instances ∧ w1.nextInstance = w.nextInstance) := by
  cases hm : w.maps cd.instances p with
  | some ref =>
    refine ⟨_, ref.squirrelObject, PushInstance_existing b h hp hm, rfl, ?_, ?_, ?_⟩
    · intro m q _
      rfl
    · intro hn
      cases hn
    · intro ref1 _
      exact ⟨rfl, rfl, rfl⟩
  | none =>
    refine ⟨_, .inst w.nextInstance, PushInstance_new b h hp hm, rfl, ?_, ?_, ?_⟩
    · intro m q hne
      by_cases hm1 : m = cd.instances
      · subst hm1
        have hq : q ≠ p := by
          rcases hne with h1 | h1
          · exact absurd rfl h1
          · exact h1
        simp [Function.update_noteq hq]
      · simp [Function.update_noteq hm1]
    · intro _
      exact ⟨rfl, rfl, by simp, by simp⟩
    · intro ref hr
      cases hr

/-- Witness for C10: the `Dog` at `5000` pushed into `world0`. -/
theorem pushInstance_map_effect_witness :
    ∃ (w1 : World) (handle : SQObject),
      PushInstance debugBuild 2 5000 world0 = .ok ((), w1) ∧
      w1.stack = handle :: world0.stack ∧
      (∀ m q, (m ≠ dogClassData.instances ∨ q ≠ 5000) → w1.maps m q = world0.maps m q) ∧
      (world0.maps dogClassData.instances 5000 = none →
        handle = .inst world0.nextInstance ∧ w1.nextInstance = world0.nextInstance + 1 ∧
        w1.instances world0.nextInstance =
          some { cls := dogClass,
                 userpointer := some { first := 5000, second := dogClassData.instances },
                 hook := some (.DeleteInstance 2) } ∧
        w1.maps dogClassData.instances 5000 =
          some { type := 2, owner := false, object := 5000, squirrelObject := handle }) ∧
      (∀ ref, world0.maps dogClassData.instances 5000 = some ref →
        w1.maps = world0.maps ∧ w1.instances = world0.instances ∧
        w1.nextInstance = world0.nextInstance) :=
  pushInstance_map_effect debugBuild
    (show world0.Bound 2 dogData dogClassData dogClass from
      ⟨rfl, rfl, ⟨.table 1, 2000, none, rfl, rfl, rfl⟩, rfl, rfl⟩)
    (show (5000 : Ptr) ≠ 0 by decide)

theorem StaticClassData.chain_cons (d : StaticClassData) :
    d.chain = d :: (match d.baseClass with
      | some base => base.chain
      | none => []) := by
  cases d with
  | mk s t n cf f bc =>
    conv_lhs => unfold StaticClassData.chain
    rfl

theorem StaticClassData.Cast_step (d : StaticClassData) (ptr : Ptr) (classType : Option Nat)
    (hne : classType ≠ some d.self) :
    d.Cast ptr classType =
      match d.baseClass with
      | some base => base.Cast (d.toBase ptr) classType
      | none => .error .undefinedBehaviour := by
  cases d with
  | mk s t n cf f bc =>
    conv_lhs => unfold StaticClassData.Cast
    simp only [StaticClassData.self] at hne
    simp only [hne, StaticClassData.baseClass, StaticClassData.toBase, ne_eq, not_false_eq_true,
      if_true]

/-- Casting along the base chain to the target at position `k`, given as a
list: `ds` is the chain of the descriptor. -/
theorem Cast_chain_aux : ∀ (k : Nat) (d : StaticClassData) (ptr : Ptr) (dk : StaticClassData),
    d.chain[k]? = some dk →
    (∀ j dj, j < k → d.chain[j]? = some dj → dj.self ≠ dk.self) →
    d.Cast ptr (some dk.self) = .ok (adjustments (d.chain.take k) ptr) := by
  intro k
  induction k with
  | zero =>
    intro d ptr dk hk _
    rw [StaticClassData.chain_cons] at hk
    simp at hk
    subst hk
    simp [adjustments, StaticClassData.Cast_self]
  | succ k ih =>
    intro d ptr dk hk hfirst
    have h0 : d.self ≠ dk.self := hfirst 0 d (Nat.succ_pos k) (by rw [StaticClassData.chain_cons]; simp)
    have hne : (some dk.self : Option Nat) ≠ some d.self := fun e => h0 (Option.some.inj e).symm
    rw [StaticClassData.Cast_step d ptr _ hne]
    rw [StaticClassData.chain_cons] at hk hfirst ⊢
    cases hb : d.baseClass with
    | none =>
      rw [hb] at hk
      simp at hk
    | some base =>
      rw [hb] at hk hfirst
      simp only [List.getElem?_cons_succ] at hk
      have := ih base (d.toBase ptr) dk hk (fun j dj hj hdj =>
        hfirst (j + 1) dj (Nat.succ_lt_succ hj) (by simpa using hdj))
      simpa [adjustments] using this

theorem getClassData_unregistered_debug (b : Build) (hb : b.NDEBUG = false) (C : TypeId)
    (w : World) (h : w.registered C = false) :
    getClassData b C w = .error .assertFailed := by
  unfold World.registered at h
  cases hs : w.staticClassData C with
  | none =>
    cases ht : rawLookup w.tables w.registry (.string "__classes") <;>
    simp [getClassData, expired, Sq.world, hs, sq_pushregistrytable, sq_pushstring, push,
      sq_rawget, stack_get, World.at?, stackPos_neg_one, stackPos_neg_two, Sq.setWorld, ht,
      ClassName, lock, Sq.assert, Sq.deref, Sq.ret, hb, Sq.fault]
  | some d =>
    rw [hs] at h
    cases ht : rawLookup w.tables w.registry (.string "__classes") with
    | none =>
      simp [getClassData, expired, Sq.world, hs, sq_pushregistrytable, sq_pushstring, push,
        sq_rawget, stack_get, World.at?, stackPos_neg_one, stackPos_neg_two, Sq.setWorld, ht,
        ClassName, lock, Sq.assert, Sq.deref, Sq.ret, hb, Sq.fault]
    | some t =>
      rw [ht] at h
      have hc : rawLookup w.tables t (.string d.className) = none := by
        cases hc : rawLookup w.tables t (.string d.className) with
        | none => rfl
        | some v => simp [hc] at h
      simp [getClassData, expired, Sq.world, hs, sq_pushregistrytable, sq_pushstring, push,
        sq_rawget, stack_get, World.at?, stackPos_neg_one, stackPos_neg_two, Sq.setWorld, ht,
        ClassName, lock, Sq.assert, Sq.deref, Sq.ret, hb, Sq.fault, hc]

theorem PushInstanceCopy_run (code : Nat → Option COPYFUNC) (b : Build) {w : World}
    {C : TypeId} {d : StaticClassData} {cd : ClassData} {c : SQClass} (h : w.Bound C d cd c)
    {a : Nat} {f : COPYFUNC} (hcf : d.copyFunc = some a) (hcode : code a = some f)
    (value : Ptr) :
    PushInstanceCopy code b C value w =
      (f (-1) value >>= fun result => Sq.assert b (SQ_SUCCEEDED result))
        { w with
          stack := .inst w.nextInstance :: w.stack
          instances := Function.update w.instances w.nextInstance
            (some { cls := c, userpointer := none, hook := none })
          nextInstance := w.nextInstance + 1 } := by
  simp [PushInstanceCopy, getClassData_run b h, sq_pushobject, push, sq_createinstance,
    stack_get, World.at?, stackPos_neg_one, stackPos_neg_two, h.classObj, Sq.world, Sq.setWorld,
    sq_remove, CopyFunc, expired, lock, h.static, Sq.assert, Sq.deref, Sq.ret, hcf, hcode]

theorem PushInstanceCopy_null (code : Nat → Option COPYFUNC) (b : Build) {w : World}
    {C : TypeId} {d : StaticClassData} {cd : ClassData} {c : SQClass} (h : w.Bound C d cd c)
    (hcf : d.copyFunc.bind code = none) (value : Ptr) :
    PushInstanceCopy code b C value w = .error .undefinedBehaviour := by
  simp only [Option.bind_eq_none] at hcf
  cases hd : d.copyFunc with
  | none =>
    simp [PushInstanceCopy, getClassData_run b h, sq_pushobject, push, sq_createinstance,
      stack_get, World.at?, stackPos_neg_one, stackPos_neg_two, h.classObj, Sq.world, Sq.setWorld,
      sq_remove, CopyFunc, expired, lock, h.static, Sq.assert, Sq.deref, Sq.ret, hd, Sq.fault]
  | some a =>
    have hc : code a = none := hcf a hd
    simp [PushInstanceCopy, getClassData_run b h, sq_pushobject, push, sq_createinstance,
      stack_get, World.at?, stackPos_neg_one, stackPos_neg_two, h.classObj, Sq.world, Sq.setWorld,
      sq_remove, CopyFunc, expired, lock, h.static, Sq.assert, Sq.deref, Sq.ret, hd, hc, Sq.fault]

/-! ## Frame lemmas -/

theorem Sq.bind_ok {α β : Type} {m : Sq α} {f : α → Sq β} {w w2 : World} {b : β}
    (h : (m >>= f) w = .ok (b, w2)) : ∃ a w1, m w = .ok (a, w1) ∧ f a w1 = .ok (b, w2) := by
  simp only [Sq.bind_run] at h
  cases hmw : m w with
  | error e => simp [hmw] at h
  | ok r =>
    obtain ⟨a, w1⟩ := r
    simp only [hmw] at h
    exact ⟨a, w1, rfl, h⟩

theorem Sq.reads_pure {α : Type} (a : α) : Sq.Reads (pure a : Sq α) := by
  intro w a1 w1 h
  simp at h
  exact h.2.symm

theorem Sq.reads_fault {α : Type} (e : Fault) : Sq.Reads (Sq.fault e : Sq α) := by
  intro w a w1 h
  simp [Sq.fault] at h

theorem Sq.reads_bind {α β : Type} {m : Sq α} {f : α → Sq β} (hm : Sq.Reads m)
    (hf : ∀ a, Sq.Reads (f a)) : Sq.Reads (m >>= f) := by
  intro w b w2 h
  obtain ⟨a, w1, h1, h2⟩ := Sq.bind_ok h
  have := hm w a w1 h1
  subst this
  exact hf a _ b w2 h2

theorem Sq.reads_ite {α : Type} (c : Prop) [Decidable c] {m1 m2 : Sq α}
    (h1 : Sq.Reads m1) (h2 : Sq.Reads m2) : Sq.Reads (if c then m1 else m2) := by
  split
  · exact h1
  · exact h2

theorem Sq.reads_deref {α : Type} (o : Option α) : Sq.Reads (Sq.deref o) := by
  cases o with
  | none => exact Sq.reads_fault _
  | some a => exact Sq.reads_pure a

theorem Sq.reads_lift {α : Type} (o : Except Fault α) : Sq.Reads (Sq.lift o) := by
  cases o with
  | error e => exact Sq.reads_fault _
  | ok a => exact Sq.reads_pure a

theorem Sq.reads_assert (b : Build) (c : Bool) : Sq.Reads (Sq.assert b c) := by
  unfold Sq.assert
  repeat' first
    | apply Sq.reads_ite
    | exact Sq.reads_pure ()
    | exact Sq.reads_fault _

theorem Sq.reads_world : Sq.Reads Sq.world := by
  intro w a w1 h
  simp [Sq.world] at h
  exact h.2.symm

theorem Sq.reads_stack_get (idx : Int) : Sq.Reads (stack_get idx) := by
  intro w a w1 h
  unfold Sqrat.stack_get at h
  split at h
  · simp at h
    exact h.2.symm
  · simp at h

theorem Sq.reads_sq_gettop : Sq.Reads sq_gettop := by
  intro w a w1 h
  simp [Sqrat.sq_gettop] at h
  exact h.2.symm

theorem Sq.reads_hasClassData (b : Build) (C : TypeId) : Sq.Reads (hasClassData b C) := by
  intro w a w1 h
  rw [hasClassData_run] at h
  simp at h
  exact h.2.symm

theorem Sq.reads_expired (C : TypeId) : Sq.Reads (expired C) :=
  Sq.reads_bind Sq.reads_world (fun _ => Sq.reads_pure _)

theorem Sq.reads_lock (C : TypeId) : Sq.Reads (lock C) :=
  Sq.reads_bind Sq.reads_world (fun _ => Sq.reads_pure _)

theorem Sq.reads_ClassName (b : Build) (C : TypeId) : Sq.Reads (ClassName b C) :=
  Sq.reads_bind (Sq.reads_expired C) (fun _ =>
    Sq.reads_bind (Sq.reads_assert _ _) (fun _ =>
      Sq.reads_bind (Sq.reads_lock C) (fun _ =>
        Sq.reads_bind (Sq.reads_deref _) (fun _ => Sq.reads_pure _))))

theorem Sq.reads_FormatTypeError (idx : Int) (s : String) : Sq.Reads (FormatTypeError idx s) :=
  Sq.reads_bind (Sq.reads_stack_get idx) (fun _ => Sq.reads_pure _)

theorem Sq.reads_sq_gettype (idx : Int) : Sq.Reads (sq_gettype idx) :=
  Sq.reads_bind (Sq.reads_stack_get idx) (fun _ => Sq.reads_pure _)

theorem Sq.reads_sq_getinstanceup (idx : Int) (p : Option Payload) (t : Option Nat) :
    Sq.Reads (sq_getinstanceup idx p t) := by
  unfold Sqrat.sq_getinstanceup
  refine Sq.reads_bind (Sq.reads_stack_get idx) (fun o => ?_)
  cases o <;> try exact Sq.reads_pure _
  refine Sq.reads_bind Sq.reads_world (fun _ => ?_)
  refine Sq.reads_bind (Sq.reads_deref _) (fun _ => ?_)
  cases t <;> exact Sq.reads_pure _

theorem Sq.reads_sq_gettypetag (idx : Int) : Sq.Reads (sq_gettypetag idx) := by
  unfold Sqrat.sq_gettypetag
  refine Sq.reads_bind (Sq.reads_stack_get idx) (fun o => ?_)
  cases o <;> try exact Sq.reads_pure _
  refine Sq.reads_bind Sq.reads_world (fun _ => ?_)
  exact Sq.reads_bind (Sq.reads_deref _) (fun _ => Sq.reads_pure _)

theorem Sq.preserves_of_reads {α : Type} {m : Sq α} (h : Sq.Reads m) : Sq.Preserves m := by
  intro w a w1 hr
  exact ⟨w.thrown, by rw [h w a w1 hr]⟩

theorem Sq.preserves_bind {α β : Type} {m : Sq α} {f : α → Sq β} (hm : Sq.Preserves m)
    (hf : ∀ a, Sq.Preserves (f a)) : Sq.Preserves (m >>= f) := by
  intro w b w2 h
  obtain ⟨a, w1, h1, h2⟩ := Sq.bind_ok h
  obtain ⟨t1, rfl⟩ := hm w a w1 h1
  obtain ⟨t2, h3⟩ := hf a _ b w2 h2
  exact ⟨t2, h3⟩

theorem Sq.preserves_ite {α : Type} (c : Prop) [Decidable c] {m1 m2 : Sq α}
    (h1 : Sq.Preserves m1) (h2 : Sq.Preserves m2) : Sq.Preserves (if c then m1 else m2) := by
  split
  · exact h1
  · exact h2

theorem Sq.preserves_SQTHROW (e : SqError) : Sq.Preserves (SQTHROW e) := by
  intro w a w1 h
  simp [Sqrat.SQTHROW] at h
  exact ⟨e :: w.thrown, h.symm⟩

theorem typeCheck_preserves (b : Build) (C : TypeId) (idx : Int) (nullAllowed : Bool) :
    Sq.Preserves (GetInstance.typeCheck b C idx nullAllowed) := by
  unfold GetInstance.typeCheck
  dsimp only
  repeat' first
    | apply Sq.preserves_ite
    | apply Sq.preserves_SQTHROW
    | exact Sq.preserves_of_reads (Sq.reads_pure _)
    | exact Sq.preserves_of_reads (Sq.reads_FormatTypeError _ _)
    | exact Sq.preserves_of_reads (Sq.reads_ClassName _ _)
    | exact Sq.preserves_of_reads (Sq.reads_hasClassData _ _)
    | exact Sq.preserves_of_reads (Sq.reads_sq_gettype _)
    | exact Sq.preserves_of_reads (Sq.reads_sq_getinstanceup _ _ _)
    | exact Sq.preserves_of_reads (Sq.reads_lock _)
    | apply Sq.preserves_bind
    | intro _

theorem extract_preserves (classType : Option StaticClassData) (inst : Option Payload)
    (actualType : Option StaticClassData) :
    Sq.Preserves (GetInstance.extract classType inst actualType) := by
  unfold GetInstance.extract
  dsimp only
  refine Sq.preserves_bind (Sq.preserves_of_reads (Sq.reads_deref _)) (fun payload => ?_)
  refine Sq.preserves_bind (Sq.preserves_of_reads Sq.reads_world) (fun w => ?_)
  cases w.maps payload.second payload.first with
  | none =>
    exact Sq.preserves_bind (Sq.preserves_SQTHROW _)
      (fun _ => Sq.preserves_of_reads (Sq.reads_pure _))
  | some ref =>
    dsimp only
    repeat' first
      | apply Sq.preserves_ite
      | apply Sq.preserves_SQTHROW
      | exact Sq.preserves_of_reads (Sq.reads_pure _)
      | exact Sq.preserves_of_reads (Sq.reads_deref _)
      | exact Sq.preserves_of_reads (Sq.reads_lift _)
      | apply Sq.preserves_bind
      | intro _

theorem Sq.pushes_of_reads {α : Type} {m : Sq α} (h : Sq.Reads m) : Sq.Pushes m := by
  intro w a w1 hr
  exact ⟨[], by rw [h w a w1 hr]; rfl⟩

theorem Sq.pushes_bind {α β : Type} {m : Sq α} {f : α → Sq β} (hm : Sq.Pushes m)
    (hf : ∀ a, Sq.Pushes (f a)) : Sq.Pushes (m >>= f) := by
  intro w b w2 h
  obtain ⟨a, w1, h1, h2⟩ := Sq.bind_ok h
  obtain ⟨p1, rfl⟩ := hm w a w1 h1
  obtain ⟨p2, h3⟩ := hf a _ b w2 h2
  exact ⟨p2 ++ p1, by simp [h3]⟩

theorem Sq.pushes_push (o : SQObject) : Sq.Pushes (push o) := by
  intro w a w1 h
  simp [Sqrat.push] at h
  exact ⟨[o], h.symm⟩

theorem Sq.pushes_sq_getclass (idx : Int) : Sq.Pushes (sq_getclass idx) := by
  unfold Sqrat.sq_getclass
  refine Sq.pushes_bind (Sq.pushes_of_reads (Sq.reads_stack_get idx)) (fun o => ?_)
  cases o <;> try exact Sq.pushes_of_reads (Sq.reads_pure _)
  refine Sq.pushes_bind (Sq.pushes_of_reads Sq.reads_world) (fun _ => ?_)
  refine Sq.pushes_bind (Sq.pushes_of_reads (Sq.reads_deref _)) (fun _ => ?_)
  exact Sq.pushes_bind (Sq.pushes_push _) (fun _ => Sq.pushes_of_reads (Sq.reads_pure _))

theorem Sq.pushes_sq_getbase (idx : Int) : Sq.Pushes (sq_getbase idx) := by
  unfold Sqrat.sq_getbase
  refine Sq.pushes_bind (Sq.pushes_of_reads (Sq.reads_stack_get idx)) (fun o => ?_)
  cases o <;> try exact Sq.pushes_of_reads (Sq.reads_pure _)
  rename_i c
  dsimp only
  cases c.base <;> dsimp only <;>
  exact Sq.pushes_bind (Sq.pushes_push _) (fun _ => Sq.pushes_of_reads (Sq.reads_pure _))

theorem Sq.pushes_whileActualTypeNull (fuel : Nat) (a : Option StaticClassData) :
    Sq.Pushes (whileActualTypeNull fuel a) := by
  induction fuel generalizing a with
  | zero =>
    cases a with
    | none =>
      unfold Sqrat.whileActualTypeNull
      exact Sq.pushes_of_reads (Sq.reads_fault _)
    | some t =>
      unfold Sqrat.whileActualTypeNull
      exact Sq.pushes_of_reads (Sq.reads_pure _)
  | succ n ih =>
    cases a with
    | some t =>
      unfold Sqrat.whileActualTypeNull
      exact Sq.pushes_of_reads (Sq.reads_pure _)
    | none =>
      unfold Sqrat.whileActualTypeNull
      refine Sq.pushes_bind (Sq.pushes_sq_getbase _) (fun _ => ?_)
      refine Sq.pushes_bind (Sq.pushes_of_reads (Sq.reads_sq_gettypetag _)) (fun r => ?_)
      cases r with
      | none => exact ih none
      | some tag => exact ih tag

theorem sq_settop_pushed (w : World) (pushed : List SQObject) :
    sq_settop w.stack.length { w with stack := pushed ++ w.stack } = .ok ((), w) := by
  unfold sq_settop
  by_cases hp : pushed = []
  · subst hp
    simp
  · have hlen : w.stack.length < (pushed ++ w.stack).length := by
      have := List.length_pos.mpr hp
      simp
      omega
    have hsub : (pushed ++ w.stack).length - w.stack.length = pushed.length := by simp
    simp only [if_pos hlen, hsub, List.drop_left]

theorem actualType_reads (fuel : Nat) (idx : Int) :
    Sq.Reads (GetInstance.actualType fuel idx) := by
  intro w r w1 h
  unfold GetInstance.actualType at h
  obtain ⟨o, wa, h1, hA⟩ := Sq.bind_ok h
  have e1 : wa = w := Sq.reads_sq_gettypetag idx w o wa h1
  rw [e1] at hA
  obtain ⟨at0, wb, h2, hB⟩ := Sq.bind_ok hA
  have e2 : wb = w := Sq.reads_deref o w at0 wb h2
  rw [e2] at hB
  cases hn : at0.isNone with
  | false =>
    simp [hn] at hB
    exact hB.2.symm
  | true =>
    simp only [hn, if_true] at hB
    obtain ⟨top, wc, h3, hC⟩ := Sq.bind_ok hB
    simp [sq_gettop] at h3
    obtain ⟨e3, e4⟩ := h3
    rw [← e3, ← e4] at hC
    obtain ⟨x, wd, h4, hD⟩ := Sq.bind_ok hC
    obtain ⟨p1, e5⟩ := Sq.pushes_sq_getclass idx w x wd h4
    rw [e5] at hD
    obtain ⟨a2, we, h5, hE⟩ := Sq.bind_ok hD
    obtain ⟨p2, e6⟩ := Sq.pushes_whileActualTypeNull fuel at0 _ a2 we h5
    rw [e6] at hE
    obtain ⟨u, wf, h6, hF⟩ := Sq.bind_ok hE
    have hst := sq_settop_pushed w (p2 ++ p1)
    simp only [List.append_assoc] at hst h6
    rw [hst] at h6
    simp at hF h6
    rw [← hF.2, ← h6]

/-- The frame of `GetInstance`: when it returns, the world is as before but
for the errors raised. -/
theorem GetInstance_preserves (b : Build) (C : TypeId) (fuel : Nat) (idx : Int)
    (nullAllowed : Bool) : Sq.Preserves (GetInstance b C fuel idx nullAllowed) := by
  unfold GetInstance
  refine Sq.preserves_bind (typeCheck_preserves b C idx nullAllowed) (fun r => ?_)
  cases r with
  | inl p => exact Sq.preserves_of_reads (Sq.reads_pure _)
  | inr pr =>
    obtain ⟨classType, inst⟩ := pr
    exact Sq.preserves_bind (Sq.preserves_of_reads (actualType_reads fuel idx))
      (fun _ => extract_preserves _ _ _)

theorem SQClass.ancestors_eq (c : SQClass) :
    c.ancestors = match c.base with
      | some b => b :: b.ancestors
      | none => [] := by
  cases c with
  | mk t base =>
    conv_lhs => unfold SQClass.ancestors
    cases base <;> rfl

theorem SQClass.base_of_ancestors {c b : SQClass} {l : List SQClass}
    (h : c.ancestors = b :: l) : c.base = some b ∧ b.ancestors = l := by
  rw [SQClass.ancestors_eq] at h
  cases hb : c.base with
  | none => simp [hb] at h
  | some b1 =>
    simp only [hb, List.cons.injEq] at h
    obtain ⟨h1, h2⟩ := h
    subst h1
    exact ⟨rfl, h2⟩

theorem whileActualTypeNull_some (fuel : Nat) (t : StaticClassData) (w : World) :
    whileActualTypeNull fuel (some t) w = .ok (some t, w) := by
  cases fuel <;> simp [whileActualTypeNull]

theorem whileActualTypeNull_step (fuel : Nat) {w : World} {c b : SQClass}
    {st : List SQObject} (hst : w.stack = .cls c :: st) (hb : c.base = some b) :
    whileActualTypeNull (fuel + 1) none w =
      whileActualTypeNull fuel b.typetag { w with stack := .cls b :: w.stack } := by
  conv_lhs => unfold whileActualTypeNull
  simp [sq_getbase, stack_get, World.at?, hst, stackPos_neg_one, hb, push, sq_gettypetag]

/-- The class walk from a class on top of the stack: if a strict ancestor
carries a type tag, the loop stops at the nearest one after as many iterations
as base links lead to it, having pushed the classes it passed; with a smaller
budget it does not finish. -/
theorem whileActualTypeNull_walk : ∀ (l : List SQClass) (c k : SQClass) (w : World)
    (st : List SQObject), c.ancestors = l → w.stack = .cls c :: st →
    l.find? (fun x => x.typetag.isSome) = some k →
    ∃ n pushed, n ≤ l.length ∧ ∀ fuel,
      whileActualTypeNull fuel none w =
        if n ≤ fuel then .ok (k.typetag, { w with stack := pushed ++ w.stack })
        else .error .outOfFuel := by
  intro l
  induction l with
  | nil =>
    intro c k w st _ _ hk
    simp at hk
  | cons b l ih =>
    intro c k w st hl hst hk
    obtain ⟨hb, hbl⟩ := SQClass.base_of_ancestors hl
    cases htag : b.typetag with
    | some t =>
      have hkb : k = b := by
        simp [List.find?, htag] at hk
        exact hk.symm
      subst hkb
      refine ⟨1, [.cls k], by simp, ?_⟩
      intro fuel
      cases fuel with
      | zero => simp [whileActualTypeNull, Sq.fault]
      | succ f =>
        rw [whileActualTypeNull_step f hst hb, htag, whileActualTypeNull_some]
        simp
    | none =>
      have hk2 : l.find? (fun x => x.typetag.isSome) = some k := by
        simpa [List.find?, htag] using hk
      obtain ⟨n, pushed, hn, hrun⟩ :=
        ih b k { w with stack := .cls b :: w.stack } w.stack hbl rfl hk2
      refine ⟨n + 1, pushed ++ [.cls b], by simp; omega, ?_⟩
      intro fuel
      cases fuel with
      | zero => simp [whileActualTypeNull, Sq.fault]
      | succ f =>
        rw [whileActualTypeNull_step f hst hb, htag, hrun f]
        simp

theorem SQClass.hasTypeTag_eq (c : SQClass) (t : Nat) :
    c.hasTypeTag t =
      if c.typetag.map StaticClassData.self = some t then true
      else match c.base with
        | none => false
        | some b => b.hasTypeTag t := by
  cases c with
  | mk tag base =>
    conv_lhs => unfold SQClass.hasTypeTag
    cases base <;> rfl

/-- A class passes the type-tag walk exactly when it or one of its ancestors
carries the tag. -/
theorem SQClass.hasTypeTag_ancestors : ∀ (l : List SQClass) (c : SQClass) (t : Nat),
    c.ancestors = l → c.hasTypeTag t = true →
    ∃ k ∈ c :: l, k.typetag.map StaticClassData.self = some t := by
  intro l
  induction l with
  | nil =>
    intro c t hl h
    rw [SQClass.hasTypeTag_eq] at h
    rw [SQClass.ancestors_eq] at hl
    by_cases hc : c.typetag.map StaticClassData.self = some t
    · exact ⟨c, by simp, hc⟩
    · cases hb : c.base with
      | none => simp [hc, hb] at h
      | some b => simp [hb] at hl
  | cons b l ih =>
    intro c t hl h
    obtain ⟨hb, hbl⟩ := SQClass.base_of_ancestors hl
    rw [SQClass.hasTypeTag_eq] at h
    by_cases hc : c.typetag.map StaticClassData.self = some t
    · exact ⟨c, by simp, hc⟩
    · simp only [hc, if_false, hb] at h
      obtain ⟨k, hk, hkt⟩ := ih b t hbl h
      exact ⟨k, List.mem_cons_of_mem _ hk, hkt⟩

theorem actualType_walk (idx : Int) {w : World} {id : Nat} {i : SQInstance} {k : SQClass}
    (hv : w.at? idx = some (.inst id)) (hi : w.instances id = some i)
    (hown : i.cls.typetag = none)
    (hk : i.cls.ancestors.find? (fun x => x.typetag.isSome) = some k) :
    ∃ n, n ≤ i.cls.ancestors.length ∧ ∀ fuel,
      GetInstance.actualType fuel idx w =
        if n ≤ fuel then .ok (k.typetag, w) else .error .outOfFuel := by
  obtain ⟨n, pushed, hn, hrun⟩ := whileActualTypeNull_walk i.cls.ancestors i.cls k
    { w with stack := .cls i.cls :: w.stack } w.stack rfl rfl hk
  refine ⟨n, hn, ?_⟩
  intro fuel
  have hst := sq_settop_pushed w (pushed ++ [.cls i.cls])
  simp only [List.append_assoc, List.singleton_append] at hst
  by_cases hf : n ≤ fuel
  · simp [GetInstance.actualType, sq_gettypetag, stack_get, hv, Sq.world, Sq.deref, Sq.ret, hi,
      hown, sq_gettop, sq_getclass, push, hrun fuel, hst, hf]
  · simp [GetInstance.actualType, sq_gettypetag, stack_get, hv, Sq.world, Sq.deref, Sq.ret, hi,
      hown, sq_gettop, sq_getclass, push, hrun fuel, hf]

theorem SQClass.find_tagged_of_hasTypeTag {c : SQClass} {t : Nat} (hown : c.typetag = none)
    (h : c.hasTypeTag t = true) :
    ∃ k a, c.ancestors.find? (fun x => x.typetag.isSome) = some k ∧ k.typetag = some a := by
  obtain ⟨k0, hk0, hkt⟩ := SQClass.hasTypeTag_ancestors c.ancestors c t rfl h
  have hmem : k0 ∈ c.ancestors := by
    rcases List.mem_cons.mp hk0 with h1 | h1
    · subst h1
      simp [hown] at hkt
    · exact h1
  have hsome : k0.typetag.isSome = true := by
    cases hx : k0.typetag with
    | none => simp [hx] at hkt
    | some a => rfl
  cases hf : c.ancestors.find? (fun x => x.typetag.isSome) with
  | none =>
    rw [List.find?_eq_none] at hf
    exact absurd hsome (hf k0 hmem)
  | some k =>
    have := List.find?_some hf
    cases hx : k.typetag with
    | none => simp [hx] at this
    | some a => exact ⟨k, a, rfl, hx⟩

theorem SQClass.ancestors_suffix {c b : SQClass} (hb : b ∈ c.ancestors) :
    ∀ x ∈ b :: b.ancestors, x ∈ c.ancestors := by
  have key : ∀ (l : List SQClass) (c : SQClass), c.ancestors = l → ∀ b ∈ l,
      ∀ x ∈ b :: b.ancestors, x ∈ l := by
    intro l
    induction l with
    | nil =>
      intro c _ b hb
      cases hb
    | cons b0 l ih =>
      intro c hl b hb x hx
      obtain ⟨_, hbl⟩ := SQClass.base_of_ancestors hl
      rcases List.mem_cons.mp hb with h1 | h1
      · subst h1
        rw [hbl] at hx
        exact hx
      · exact List.mem_cons_of_mem _ (ih b0 hbl b h1 x hx)
  exact key c.ancestors c rfl b hb

theorem SQClass.Mirrored.base {c b : SQClass} (h : c.Mirrored) (hb : c.base = some b) :
    b.Mirrored := by
  intro k hk d hd
  have hanc : c.ancestors = b :: b.ancestors := by
    rw [SQClass.ancestors_eq c, hb]
  exact h k (List.mem_cons_of_mem _ (by rw [hanc]; exact hk)) d hd

/-- Under the mirror assumption the base chain of the nearest descriptor is
the list of the type tags met on the way up the class hierarchy. -/
theorem SQClass.chain_of_mirrored : ∀ (l : List SQClass) (c : SQClass) (a : StaticClassData),
    c.ancestors = l → c.Mirrored → c.nearestTag = some a →
    a.chain = tagsOf (c :: c.ancestors) := by
  intro l
  induction l with
  | nil =>
    intro c a hl hm ha
    unfold SQClass.nearestTag at ha
    rw [hl] at ha ⊢
    cases ht : c.typetag with
    | none => simp [tagsOf, ht] at ha
    | some d =>
      simp [tagsOf, ht] at ha
      subst ha
      have hbase := hm c (by simp) d ht
      rw [hl] at hbase
      rw [StaticClassData.chain_cons, hbase]
      simp [tagsOf, ht]
  | cons b l ih =>
    intro c a hl hm ha
    obtain ⟨hb, hbl⟩ := SQClass.base_of_ancestors hl
    have hmb : b.Mirrored := hm.base hb
    have hrec : ∀ a2, (tagsOf (b :: b.ancestors)).head? = some a2 →
        a2.chain = tagsOf (b :: b.ancestors) := fun a2 h2 => ih b a2 hbl hmb h2
    unfold SQClass.nearestTag at ha
    rw [hl] at ha ⊢
    rw [← hbl] at ha ⊢
    cases ht : c.typetag with
    | none =>
      have e : tagsOf (c :: b :: b.ancestors) = tagsOf (b :: b.ancestors) := by
        simp [tagsOf, ht]
      rw [e] at ha ⊢
      exact hrec a ha
    | some d =>
      have e : tagsOf (c :: b :: b.ancestors) = d :: tagsOf (b :: b.ancestors) := by
        simp [tagsOf, ht]
      rw [e] at ha ⊢
      simp at ha
      subst ha
      have hbase := hm c (by simp) d ht
      rw [hl, ← hbl] at hbase
      rw [StaticClassData.chain_cons, hbase]
      cases hh : (tagsOf (b :: b.ancestors)).head? with
      | none =>
        have : tagsOf (b :: b.ancestors) = [] := by
          cases hx : tagsOf (b :: b.ancestors) with
          | nil => rfl
          | cons y ys => simp [hx] at hh
        simp [this]
      | some a2 =>
        simp [hrec a2 hh]

theorem SQClass.hasTypeTag_mem_tags {c : SQClass} {t : Nat} (h : c.hasTypeTag t = true) :
    t ∈ (tagsOf (c :: c.ancestors)).map StaticClassData.self := by
  obtain ⟨k, hk, hkt⟩ := SQClass.hasTypeTag_ancestors c.ancestors c t rfl h
  cases hx : k.typetag with
  | none => simp [hx] at hkt
  | some d =>
    simp [hx] at hkt
    refine List.mem_map.mpr ⟨d, ?_, hkt⟩
    exact List.mem_filterMap.mpr ⟨k, hk, hx⟩

/-- The cast to a target whose address is the address of a descriptor on the
base chain returns. -/
theorem StaticClassData.Cast_ok_of_mem : ∀ (l : List StaticClassData) (d : StaticClassData)
    (ptr : Ptr) (t : Nat), d.chain = l → t ∈ l.map StaticClassData.self →
    ∃ q, d.Cast ptr (some t) = .ok q := by
  intro l
  induction l with
  | nil =>
    intro d ptr t hl ht
    simp at ht
  | cons x l ih =>
    intro d ptr t hl ht
    rw [StaticClassData.chain_cons] at hl
    simp only [List.cons.injEq] at hl
    obtain ⟨hx, hrest⟩ := hl
    subst hx
    by_cases hd : t = d.self
    · subst hd
      exact ⟨ptr, StaticClassData.Cast_self d ptr⟩
    · have hne : (some t : Option Nat) ≠ some d.self := fun e => hd (Option.some.inj e)
      rw [StaticClassData.Cast_step d ptr _ hne]
      have ht2 : t ∈ l.map StaticClassData.self := by
        simp only [List.map_cons, List.mem_cons] at ht
        rcases ht with h1 | h1
        · exact absurd h1 hd
        · exact h1
      cases hb : d.baseClass with
      | none =>
        rw [hb] at hrest
        subst hrest
        simp at ht2
      | some base =>
        rw [hb] at hrest
        exact ih base (d.toBase ptr) t hrest ht2

theorem World.static_of_registered {w : World} {C : TypeId} (h : w.registered C = true) :
    ∃ d, w.staticClassData C = some d := by
  unfold World.registered at h
  cases hs : w.staticClassData C with
  | none => simp [hs] at h
  | some d => exact ⟨d, rfl⟩

/-- In a build with error checking, control passes line 247 of `GetInstance`
only for a live instance that passed the type check against the requested
descriptor and has a payload. -/
theorem typeCheck_inr_checked {b : Build} {C : TypeId} {idx : Int} {nullAllowed : Bool}
    {w w1 : World} {classType : Option StaticClassData} {inst : Option Payload}
    (hb : b.SCRAT_NO_ERROR_CHECKING = false)
    (h : GetInstance.typeCheck b C idx nullAllowed w = .ok (.inr (classType, inst), w1)) :
    ∃ d id i pl, w1 = w ∧ classType = some d ∧ w.staticClassData C = some d ∧
      w.at? idx = some (.inst id) ∧ w.instances id = some i ∧
      i.cls.hasTypeTag d.self = true ∧ i.userpointer = some pl ∧ inst = some pl := by
  cases hr : w.registered C with
  | false =>
    cases hv : w.at? idx with
    | none =>
      simp [GetInstance.typeCheck, hasClassData_run, hr, FormatTypeError, stack_get, hv] at h
    | some v =>
      rw [typeCheck_unregistered b C idx nullAllowed hr hv] at h
      simp at h
  | true =>
    obtain ⟨d, hs⟩ := World.static_of_registered hr
    cases hv : w.at? idx with
    | none =>
      cases nullAllowed <;>
      simp [GetInstance.typeCheck, hasClassData_run, hr, sq_gettype, stack_get, hv, lock,
        Sq.world, hs, sq_getinstanceup, hb] at h
    | some v =>
      by_cases hnull : nullAllowed = true ∧ v.type = .OT_NULL
      · obtain ⟨hna, hty⟩ := hnull
        subst hna
        have hvn : v = .null := by
          cases v <;> simp [SQObject.type] at hty
          rfl
        subst hvn
        rw [typeCheck_null_allowed b C idx hr hv] at h
        simp at h
      · have hnull2 : nullAllowed = true → v.type ≠ .OT_NULL := fun hna hty => hnull ⟨hna, hty⟩
        have other : w.tagCheckFails v d.self → False := by
          intro hfail
          rw [typeCheck_mismatch b C idx nullAllowed hb hr hs hv hnull2 hfail] at h
          simp at h
        cases v with
        | inst id =>
          cases hi : w.instances id with
          | none =>
            cases nullAllowed <;>
            simp [GetInstance.typeCheck, hasClassData_run, hr, sq_gettype, stack_get, hv, lock,
              Sq.world, hs, sq_getinstanceup, hb, hi, Sq.deref, Sq.fault, SQObject.type] at h
          | some i =>
            cases hchk : i.cls.hasTypeTag d.self with
            | false => exact (other ⟨i, hi, hchk⟩).elim
            | true =>
              cases hup : i.userpointer with
              | none =>
                rw [typeCheck_unconstructed b C idx nullAllowed hb hr hs hv hi hchk hup] at h
                simp at h
              | some pl =>
                rw [typeCheck_inst b C idx nullAllowed hr hs hv hi hchk hup] at h
                simp at h
                obtain ⟨⟨h1, h2⟩, h3⟩ := h
                exact ⟨d, id, i, pl, h3.symm, h1.symm, hs, rfl, hi, hchk, hup, h2.symm⟩
        | null => exact (other trivial).elim
        | integer n => exact (other trivial).elim
        | string s => exact (other trivial).elim
        | table t => exact (other trivial).elim
        | userdata p t => exact (other trivial).elim
        | cls c => exact (other trivial).elim

theorem tagsOf_head_of_find {k : SQClass} {a : StaticClassData} (hka : k.typetag = some a) :
    ∀ (l : List SQClass), l.find? (fun x => x.typetag.isSome) = some k →
      (tagsOf l).head? = some a := by
  intro l
  induction l with
  | nil =>
    intro hf
    simp at hf
  | cons x l ih =>
    intro hf
    cases hx : x.typetag with
    | none =>
      have hf2 : l.find? (fun x => x.typetag.isSome) = some k := by
        simpa [List.find?, hx] using hf
      have e : tagsOf (x :: l) = tagsOf l := by simp [tagsOf, hx]
      rw [e]
      exact ih hf2
    | some ax =>
      have hxk : x = k := by
        simpa [List.find?, hx] using hf
      subst hxk
      rw [hka] at hx
      have e : tagsOf (x :: l) = a :: tagsOf l := by simp [tagsOf, hka]
      rw [e]
      rfl

/-- When the class-type lookup of `GetInstance` returns for a live instance
that passed a type check, its result is the nearest type tag. -/
theorem actualType_inv {fuel : Nat} {idx : Int} {w w1 : World} {id : Nat} {i : SQInstance}
    {t : Nat} {r : Option StaticClassData}
    (hv : w.at? idx = some (.inst id)) (hi : w.instances id = some i)
    (hchk : i.cls.hasTypeTag t = true)
    (h : GetInstance.actualType fuel idx w = .ok (r, w1)) :
    ∃ a, r = some a ∧ i.cls.nearestTag = some a := by
  cases hown : i.cls.typetag with
  | some a =>
    rw [actualType_tagged fuel idx hv hi hown] at h
    simp at h
    exact ⟨a, h.1.symm, by simp [SQClass.nearestTag, tagsOf, hown]⟩
  | none =>
    obtain ⟨k, a, hk, hka⟩ := SQClass.find_tagged_of_hasTypeTag hown hchk
    obtain ⟨n, _, hrun⟩ := actualType_walk idx hv hi hown hk
    rw [hrun fuel] at h
    split at h
    · simp at h
      refine ⟨a, by rw [← h.1, hka], ?_⟩
      have h2 := tagsOf_head_of_find hka _ hk
      have e : tagsOf (i.cls :: i.cls.ancestors) = tagsOf i.cls.ancestors := by
        simp [tagsOf, hown]
      unfold SQClass.nearestTag
      rw [e]
      exact h2
    · simp at h

theorem World.not_registered_of {w : World} {C : TypeId}
    (h : w.staticClassData C = none ∨
      rawLookup w.tables w.registry (.string "__classes") = none ∨
      ∃ d t, w.staticClassData C = some d ∧
        rawLookup w.tables w.registry (.string "__classes") = some t ∧
        rawLookup w.tables t (.string d.className) = none) :
    w.registered C = false := by
  unfold World.registered
  rcases h with h | h | ⟨d, t, h1, h2, h3⟩
  · simp [h]
  · cases hs : w.staticClassData C <;> simp [h]
  · simp [h1, h2, h3]

/-- C11 (non-copyable failure), as amended.  For a bound class whose copy
function reports failure (a negative result) on the new instance,
`PushInstanceCopy` in a debug build stops at the failed assertion
`SQ_SUCCEEDED(result)`; in a build with `NDEBUG` it ignores the result and
returns, leaving the world as the copy function left it.  It raises no error
of its own in either build. -/
theorem pushInstanceCopy_failing_copy (code : Nat → Option COPYFUNC) (b : Build) {w : World}
    {C : TypeId} {d : StaticClassData} {cd : ClassData} {c : SQClass} (h : w.Bound C d cd c)
    {a : Nat} {f : COPYFUNC} (hcf : d.copyFunc = some a) (hcode : code a = some f)
    (value : Ptr) {result : Int} {w2 : World}
    (hrun : f (-1) value
      { w with
        stack := .inst w.nextInstance :: w.stack
        instances := Function.update w.instances w.nextInstance
          (some { cls := c, userpointer := none, hook := none })
        nextInstance := w.nextInstance + 1 } = .ok (result, w2))
    (hfail : result < 0) :
    (b.NDEBUG = false → PushInstanceCopy code b C value w = .error .assertFailed) ∧
    (b.NDEBUG = true → PushInstanceCopy code b C value w = .ok ((), w2)) := by
  have hs : SQ_SUCCEEDED result = false := by
    simp [SQ_SUCCEEDED, hfail]
  rw [PushInstanceCopy_run code b h hcf hcode value]
  constructor
  · intro hb
    simp [hrun, Sq.assert, hb, hs, Sq.fault]
  · intro hb
    simp [hrun, Sq.assert, hb, Sq.ret]

/-- Witness for C11: the `Bird` class of `worldBird`, whose copy function
reports failure, in a debug build and in a release build. -/
theorem pushInstanceCopy_failing_copy_witness :
    PushInstanceCopy copyCode debugBuild 5 7000 worldBird = .error .assertFailed ∧
    PushInstanceCopy copyCode releaseBuild 5 7000 worldBird =
      .ok ((), { worldBird with
        stack := .inst 1 :: worldBird.stack
        instances := Function.update worldBird.instances 1
          (some { cls := birdClass, userpointer := none, hook := none })
        nextInstance := 2 }) :=
  have hB : worldBird.Bound 5 birdData birdClassData birdClass :=
    ⟨rfl, rfl, ⟨.table 1, 4000, none, rfl, rfl, rfl⟩, rfl, rfl⟩
  have hcf : birdData.copyFunc = some 9000 := rfl
  have hcode : copyCode 9000 = some failingCopy := rfl
  ⟨(pushInstanceCopy_failing_copy copyCode debugBuild hB hcf hcode 7000
      (show failingCopy (-1) 7000 _ = .ok (-1, _) from rfl) (by decide)).1 rfl,
   (pushInstanceCopy_failing_copy copyCode releaseBuild hB hcf hcode 7000
      (show failingCopy (-1) 7000 _ = .ok (-1, _) from rfl) (by decide)).2 rfl⟩

/-- Counterexample to C11 as stated.  First: `Bird` is bound in `worldBird`
and its copy function reports failure, yet in a release build (`NDEBUG`)
`PushInstanceCopy` returns normally, with the new, unconstructed instance `1`
on the stack and no error raised.  Second: `Cat` is bound with a null
`copyFunc`, and `PushInstanceCopy` calls through the null pointer. -/
theorem pushInstanceCopy_release_completes :
    worldBird.Bound 5 birdData birdClassData birdClass ∧
    birdData.copyFunc = some 9000 ∧
    failingCopy (-1) 7000 worldBird = .ok (-1, worldBird) ∧
    PushInstanceCopy copyCode releaseBuild 5 7000 worldBird =
      .ok ((), { worldBird with
        stack := .inst 1 :: worldBird.stack
        instances := Function.update worldBird.instances 1
          (some { cls := birdClass, userpointer := none, hook := none })
        nextInstance := 2 }) ∧
    worldBird.thrown = [] ∧
    worldBird.Bound 3 catData catClassData catClass ∧
    catData.copyFunc = none ∧
    PushInstanceCopy copyCode debugBuild 3 7000 worldBird = .error .undefinedBehaviour := by
  have hB : worldBird.Bound 5 birdData birdClassData birdClass :=
    ⟨rfl, rfl, ⟨.table 1, 4000, none, rfl, rfl, rfl⟩, rfl, rfl⟩
  have hC : worldBird.Bound 3 catData catClassData catClass :=
    ⟨rfl, rfl, ⟨.table 1, 3000, none, rfl, rfl, rfl⟩, rfl, rfl⟩
  refine ⟨hB, rfl, rfl, ?_, rfl, hC, rfl, PushInstanceCopy_null copyCode debugBuild hC rfl 7000⟩
  rw [PushInstanceCopy_run copyCode releaseBuild hB (show birdData.copyFunc = some 9000 from rfl)
    (show copyCode 9000 = some failingCopy from rfl) 7000]
  rfl

/-- C12 (not-bound lookup failure), as amended.  Registrations are found by
class name.  For a type under whose class name the VM holds no registration
(its descriptor is expired, or the registry table has no `"__classes"` slot,
or that table has no slot under the class name), `hasClassData` returns
`false` in every build, and in a debug build (`NDEBUG` not defined)
`getClassData` stops at a failed assertion; it returns no record. -/
theorem getClassData_not_bound_debug (b : Build) {w : World} {C : TypeId}
    (h : w.staticClassData C = none ∨
      rawLookup w.tables w.registry (.string "__classes") = none ∨
      ∃ d t, w.staticClassData C = some d ∧
        rawLookup w.tables w.registry (.string "__classes") = some t ∧
        rawLookup w.tables t (.string d.className) = none) :
    hasClassData b C w = .ok (false, w) ∧
    (b.NDEBUG = false → getClassData b C w = .error .assertFailed) := by
  have hr := World.not_registered_of h
  exact ⟨by rw [hasClassData_run, hr], fun hb => getClassData_unregistered_debug b hb C w hr⟩

/-- Witness for C12: `Dog` has a live descriptor but no entry in the
`"__classes"` table of `worldBird`; `hasClassData` returns `false` in the
debug, the release and the unchecked build, and `getClassData` fails the
assertion in the debug build. -/
theorem getClassData_not_bound_debug_witness :
    (hasClassData debugBuild 2 worldBird = .ok (false, worldBird) ∧
      getClassData debugBuild 2 worldBird = .error .assertFailed) ∧
    hasClassData releaseBuild 2 worldBird = .ok (false, worldBird) ∧
    hasClassData uncheckedBuild 2 worldBird = .ok (false, worldBird) :=
  have h : worldBird.staticClassData 2 = none ∨
      rawLookup worldBird.tables worldBird.registry (.string "__classes") = none ∨
      ∃ d t, worldBird.staticClassData 2 = some d ∧
        rawLookup worldBird.tables worldBird.registry (.string "__classes") = some t ∧
        rawLookup worldBird.tables t (.string d.className) = none :=
    Or.inr (Or.inr ⟨dogData, .table 1,
      (show worldBird.staticClassData 2 = some dogData from rfl),
      (show rawLookup worldBird.tables worldBird.registry (.string "__classes") =
        some (.table 1) from rfl),
      (show rawLookup worldBird.tables (.table 1) (.string dogData.className) = none from rfl)⟩)
  ⟨⟨(getClassData_not_bound_debug debugBuild h).1,
      (getClassData_not_bound_debug debugBuild h).2 rfl⟩,
    (getClassData_not_bound_debug releaseBuild h).1,
    (getClassData_not_bound_debug uncheckedBuild h).1⟩

/-- The run of `getClassData` in a build with `NDEBUG` when the `"__classes"`
table is found but has no slot under the class name: the second lookup pops
its key, `sq_getuserdata` fails on the table that is now on top, three values
are popped and `ud` is read uninitialised. -/
theorem getClassData_missing_entry_release (b : Build) (hb : b.NDEBUG = true) {w : World}
    {C : TypeId} {d : StaticClassData} {t : SQObject} {id : Nat}
    (hs : w.staticClassData C = some d)
    (ht : rawLookup w.tables w.registry (.string "__classes") = some t)
    (htt : t = .table id)
    (hc : rawLookup w.tables t (.string d.className) = none) :
    getClassData b C w = .error .undefinedBehaviour := by
  subst htt
  by_cases hlen : 1 ≤ w.stack.length
  · simp [getClassData, expired, Sq.world, hs, sq_pushregistrytable, sq_pushstring, push,
      sq_rawget, stack_get, World.at?, stackPos_neg_one, stackPos_neg_two, Sq.setWorld, ht,
      ClassName, lock, Sq.assert, Sq.deref, Sq.ret, hb, Sq.fault, hc, sq_getuserdata, sq_pop,
      hlen]
  · have h3 : ¬ (3 ≤ w.stack.length + 1 + 1) := by omega
    simp [getClassData, expired, Sq.world, hs, sq_pushregistrytable, sq_pushstring, push,
      sq_rawget, stack_get, World.at?, stackPos_neg_one, stackPos_neg_two, Sq.setWorld, ht,
      ClassName, lock, Sq.assert, Sq.deref, Sq.ret, hb, Sq.fault, hc, sq_getuserdata, sq_pop,
      h3]

/-- The run of `getClassData` when the `"__classes"` table has, under the
class name of the descriptor of `C`, a userdata holding the address of the
record `cd`: that record is returned, whichever type it was made for. -/
theorem getClassData_by_name (b : Build) {w : World} {C : TypeId} {d : StaticClassData}
    {t : SQObject} {p : Nat} {tag : Option StaticClassData} {cd : ClassData}
    (hs : w.staticClassData C = some d)
    (ht : rawLookup w.tables w.registry (.string "__classes") = some t)
    (hc : rawLookup w.tables t (.string d.className) = some (.userdata p tag))
    (hcd : w.classData p = some cd) :
    getClassData b C w = .ok (cd, w) := by
  simp [getClassData, expired, Sq.world, hs, sq_pushregistrytable, sq_pushstring, push,
    sq_rawget, stack_get, World.at?, stackPos_neg_one, stackPos_neg_two, Sq.setWorld, sq_pop, ht,
    ClassName, lock, Sq.assert, Sq.deref, Sq.ret, hc, sq_getuserdata, hcd]

/-- Type `8` is not bound in `worldTwin`: the record found under its class
name belongs to the class of `Cat`, whose type tag is another descriptor. -/
theorem worldTwin_not_bound (d : StaticClassData) (cd : ClassData) (c : SQClass) :
    ¬ worldTwin.Bound 8 d cd c := by
  intro hB
  have hd : d = catTwinData := by
    have h1 : worldTwin.staticClassData 8 = some catTwinData := rfl
    have h2 := hB.static
    rw [h1] at h2
    exact (Option.some.inj h2).symm
  subst hd
  obtain ⟨t, p, tag, ht, hc, hcd⟩ := hB.classes
  have ht1 : rawLookup worldTwin.tables worldTwin.registry (.string "__classes") =
      some (.table 1) := rfl
  rw [ht1] at ht
  have ht2 : t = .table 1 := (Option.some.inj ht).symm
  subst ht2
  have hc1 : rawLookup worldTwin.tables (.table 1) (.string catTwinData.className) =
      some (.userdata 3000 none) := rfl
  rw [hc1] at hc
  have hp : p = 3000 := by
    cases hc
    rfl
  subst hp
  have hcd1 : worldTwin.classData 3000 = some catClassData := rfl
  rw [hcd1] at hcd
  have hcd2 : cd = catClassData := (Option.some.inj hcd).symm
  subst hcd2
  have hco := hB.classObj
  have hc2 : c = catClass := by
    cases hco
    rfl
  subst hc2
  have htt := hB.typetag
  have hself : catData.self = catTwinData.self := by
    have h3 : catClass.typetag = some catData := rfl
    rw [h3] at htt
    rw [Option.some.inj htt]
  exact absurd hself (by decide)

/-- Counterexample to C12 as stated.  First: `Dog` has a live descriptor but
is not bound in `worldBird` (`hasClassData` returns `false`); in a release
build (`NDEBUG`) `getClassData` gives no explicit failure: both lookups are
unchecked, `sq_getuserdata` fails on the `"__classes"` table and the
uninitialised `ud` is dereferenced.  Second: type `8` was never bound in
`worldTwin` (no class of that VM carries its descriptor), but its class name
is that of the bound class `Cat`; the lookup goes by class name, so
`hasClassData` returns `true` and `getClassData` returns the record of `Cat`,
in the debug build too. -/
theorem getClassData_unbound_no_failure :
    (hasClassData releaseBuild 2 worldBird = .ok (false, worldBird) ∧
      getClassData releaseBuild 2 worldBird = .error .undefinedBehaviour) ∧
    ((∀ d cd c, ¬ worldTwin.Bound 8 d cd c) ∧
      worldTwin.Bound 3 catData catClassData catClass ∧
      hasClassData debugBuild 8 worldTwin = .ok (true, worldTwin) ∧
      getClassData debugBuild 8 worldTwin = .ok (catClassData, worldTwin) ∧
      getClassData releaseBuild 8 worldTwin = .ok (catClassData, worldTwin)) := by
  have hs : worldTwin.staticClassData 8 = some catTwinData := rfl
  have ht : rawLookup worldTwin.tables worldTwin.registry (.string "__classes") =
      some (.table 1) := rfl
  have hc : rawLookup worldTwin.tables (.table 1) (.string catTwinData.className) =
      some (.userdata 3000 none) := rfl
  have hcd : worldTwin.classData 3000 = some catClassData := rfl
  refine ⟨⟨?_, ?_⟩, worldTwin_not_bound,
    ⟨rfl, rfl, ⟨.table 1, 3000, none, rfl, rfl, rfl⟩, rfl, rfl⟩, ?_,
    getClassData_by_name debugBuild hs ht hc hcd,
    getClassData_by_name releaseBuild hs ht hc hcd⟩
  · rw [hasClassData_run]
    rfl
  · exact getClassData_missing_entry_release releaseBuild rfl
      (show worldBird.staticClassData 2 = some dogData from rfl)
      (show rawLookup worldBird.tables worldBird.registry (.string "__classes") =
        some (.table 1) from rfl) rfl rfl
  · rw [hasClassData_run]
    rfl

/-- C14 (copy independence).  For a bound class with a copy function `f`,
`PushInstanceCopy` first creates a new script instance of the class (user
pointer `NULL`, no hook) and pushes it, without reading or changing any
instance map; a wrapper that a map holds for the address `value` and whose
handle is a live instance has a handle other than the new one; then `f` is
called on the new instance, and when `f` reports success the call returns
with the world `f` produced, so that the entry of `value` is as `f` left
it. -/
theorem pushInstanceCopy_new_object (code : Nat → Option COPYFUNC) (b : Build) {w : World}
    {C : TypeId} {d : StaticClassData} {cd : ClassData} {c : SQClass} (h : w.Bound C d cd c)
    {a : Nat} {f : COPYFUNC} (hcf : d.copyFunc = some a) (hcode : code a = some f)
    (value : Ptr) (hfresh : ∀ id, w.nextInstance ≤ id → w.instances id = none) :
    ∃ w1 : World,
      w1.stack = .inst w.nextInstance :: w.stack ∧
      w1.instances w.nextInstance = some { cls := c, userpointer := none, hook := none } ∧
      w1.maps = w.maps ∧
      (∀ m ref id i, w.maps m value = some ref → ref.squirrelObject = .inst id →
        w.instances id = some i → id ≠ w.nextInstance) ∧
      PushInstanceCopy code b C value w =
        (f (-1) value >>= fun result => Sq.assert b (SQ_SUCCEEDED result)) w1 ∧
      (∀ result w2, f (-1) value w1 = .ok (result, w2) → 0 ≤ result →
        PushInstanceCopy code b C value w = .ok ((), w2)) := by
  refine ⟨{ w with
      stack := .inst w.nextInstance :: w.stack
      instances := Function.update w.instances w.nextInstance
        (some { cls := c, userpointer := none, hook := none })
      nextInstance := w.nextInstance + 1 },
    rfl, by simp, rfl, ?_, PushInstanceCopy_run code b h hcf hcode value, ?_⟩
  · intro m ref id i _ _ hi hid
    have := hfresh id (by omega)
    rw [hi] at this
    cases this
  · intro result w2 hrun hres
    rw [PushInstanceCopy_run code b h hcf hcode value]
    have hs : SQ_SUCCEEDED result = true := by simp [SQ_SUCCEEDED, hres]
    cases hb : b.NDEBUG <;> simp [hrun, Sq.assert, hb, hs, Sq.ret]

/-- Witness for C14: the `Fish` at `8000`, which `worldBird` already wraps
(instance `0`), is pushed as a copy; the new instance is instance `1`. -/
theorem pushInstanceCopy_new_object_witness :
    ∃ w1 : World,
      w1.stack = .inst worldBird.nextInstance :: worldBird.stack ∧
      w1.instances worldBird.nextInstance =
        some { cls := fishClass, userpointer := none, hook := none } ∧
      w1.maps = worldBird.maps ∧
      (∀ m ref id i, worldBird.maps m 8000 = some ref → ref.squirrelObject = .inst id →
        worldBird.instances id = some i → id ≠ worldBird.nextInstance) ∧
      PushInstanceCopy copyCode debugBuild 7 8000 worldBird =
        (succeedingCopy (-1) 8000 >>= fun result =>
          Sq.assert debugBuild (SQ_SUCCEEDED result)) w1 ∧
      (∀ result w2, succeedingCopy (-1) 8000 w1 = .ok (result, w2) → 0 ≤ result →
        PushInstanceCopy copyCode debugBuild 7 8000 worldBird = .ok ((), w2)) :=
  pushInstanceCopy_new_object copyCode debugBuild
    (show worldBird.Bound 7 fishData fishClassData fishClass from
      ⟨rfl, rfl, ⟨.table 1, 6000, none, rfl, rfl, rfl⟩, rfl, rfl⟩)
    (show fishData.copyFunc = some 9001 from rfl)
    (show copyCode 9001 = some succeedingCopy from rfl) 8000
    (fun id hid => by
      have h1 : worldBird.nextInstance = 1 := rfl
      rw [h1] at hid
      have h2 : ¬ id = 0 := by omega
      simp [worldBird, h2])

/-- C15 (cast over the base chain).  Let `dk` be the descriptor at position
`k` of the base chain of `d`, its address different from those of the
descriptors before it in the chain.  Then `d.Cast(ptr, dk)` returns `ptr`
after the adjustments of the first `k` descriptors of the chain, applied in
chain order; there are exactly `k` of them; and casting to `d` itself returns
`ptr` unchanged, whether `d` has a base or not. -/
theorem cast_over_base_chain (d : StaticClassData) (ptr : Ptr) (k : Nat)
    (dk : StaticClassData) (hk : d.chain[k]? = some dk)
    (hfirst : ∀ j dj, j < k → d.chain[j]? = some dj → dj.self ≠ dk.self) :
    d.Cast ptr (some dk.self) = .ok (adjustments (d.chain.take k) ptr) ∧
    (d.chain.take k).length = k ∧
    d.Cast ptr (some d.self) = .ok ptr := by
  refine ⟨Cast_chain_aux k d ptr dk hk hfirst, ?_, StaticClassData.Cast_self d ptr⟩
  have hlt : k < d.chain.length := by
    rcases Nat.lt_or_ge k d.chain.length with hlt | hge
    · exact hlt
    · rw [List.getElem?_eq_none hge] at hk
      cases hk
  simp [List.length_take, Nat.min_eq_left (Nat.le_of_lt hlt)]

/-- Witness for C15: the chain `Puppy -> Dog -> Animal`, cast from `Puppy` to
`Animal` (position `2`): `5000 + 16 + 8`. -/
theorem cast_over_base_chain_witness :
    puppyData.Cast 5000 (some animalData.self) =
      .ok (adjustments (puppyData.chain.take 2) 5000) ∧
    (puppyData.chain.take 2).length = 2 ∧
    puppyData.Cast 5000 (some puppyData.self) = .ok 5000 ∧
    adjustments (puppyData.chain.take 2) 5000 = 5024 :=
  have h := cast_over_base_chain puppyData 5000 2 animalData rfl
    (fun j dj hj hdj => by
      have h01 : j = 0 ∨ j = 1 := by omega
      rcases h01 with h0 | h1
      · subst h0
        have : dj = puppyData := (Option.some.inj hdj).symm
        subst this
        decide
      · subst h1
        have : dj = dogData := (Option.some.inj hdj).symm
        subst this
        decide)
  ⟨h.1, h.2.1, h.2.2, rfl⟩

/-- C17 (the actual-type walk terminates).  For a live instance at `idx` whose
class passes a type check (it or one of its ancestors carries the tag `t`)
and carries no type tag itself, some strict ancestor carries a type tag, and
lines 248-258 of `GetInstance` return the tag `a` of the nearest such
ancestor `k`, with the world as it was, as soon as the loop budget reaches the
number `n` of iterations needed, which is at most the number of ancestors;
with a smaller budget the loop has not finished. -/
theorem actual_type_walk_terminates (idx : Int) {w : World} {id : Nat} {i : SQInstance}
    {t : Nat} (hv : w.at? idx = some (.inst id)) (hi : w.instances id = some i)
    (hchk : i.cls.hasTypeTag t = true) (hown : i.cls.typetag = none) :
    ∃ k a n, i.cls.ancestors.find? (fun x => x.typetag.isSome) = some k ∧
      k.typetag = some a ∧ n ≤ i.cls.ancestors.length ∧
      ∀ fuel, GetInstance.actualType fuel idx w =
        if n ≤ fuel then .ok (some a, w) else .error .outOfFuel := by
  obtain ⟨k, a, hk, hka⟩ := SQClass.find_tagged_of_hasTypeTag hown hchk
  obtain ⟨n, hn, hrun⟩ := actualType_walk idx hv hi hown hk
  refine ⟨k, a, n, hk, hka, hn, ?_⟩
  intro fuel
  rw [hrun fuel, hka]

/-- Witness for C17: the instance of `scriptDogClass` on the stack of
`worldScript`; the walk stops at the class of `Dog`. -/
theorem actual_type_walk_terminates_witness :
    ∃ k a n, scriptDogClass.ancestors.find? (fun x => x.typetag.isSome) = some k ∧
      k.typetag = some a ∧ n ≤ scriptDogClass.ancestors.length ∧
      ∀ fuel, GetInstance.actualType fuel (-1) worldScript =
        if n ≤ fuel then .ok (some a, worldScript) else .error .outOfFuel :=
  actual_type_walk_terminates (-1)
    (show worldScript.at? (-1) = some (.inst 0) from rfl)
    (show worldScript.instances 0 =
      some { cls := scriptDogClass, userpointer := some { first := 5000, second := 2 },
             hook := some (.DeleteInstance 2) } from rfl)
    (show scriptDogClass.hasTypeTag dogData.self = true from rfl)
    (show scriptDogClass.typetag = none from rfl)

theorem extract_missing {w : World} (classType actualType : Option StaticClassData)
    {pl : Payload} (hm : w.maps pl.second pl.first = none) :
    GetInstance.extract classType (some pl) actualType w =
      .ok (0, { w with thrown := .referenceNotFound :: w.thrown }) := by
  simp [GetInstance.extract, Sq.deref, Sq.ret, Sq.world, hm, SQTHROW]

theorem extract_total {w : World} {classType : Option StaticClassData} {pl : Payload}
    {a : StaticClassData}
    (hcast : ∀ obj, ∃ q, a.Cast obj (classType.map StaticClassData.self) = .ok q) :
    ∃ q w1, GetInstance.extract classType (some pl) (some a) w = .ok (q, w1) := by
  cases hm : w.maps pl.second pl.first with
  | none => exact ⟨0, _, extract_missing classType (some a) hm⟩
  | some ref =>
    by_cases hobj : a.GetPointer ref = 0
    · exact ⟨0, { w with thrown := .wrongType :: w.thrown },
        by simp [GetInstance.extract, Sq.deref, Sq.ret, Sq.world, hm, SQTHROW, hobj]⟩
    · have h := @extract_found w classType a pl.first pl.second ref hm hobj
      rw [h]
      split
      · exact ⟨_, _, rfl⟩
      · obtain ⟨q, hq⟩ := hcast (a.GetPointer ref)
        rw [hq]
        exact ⟨_, _, rfl⟩

/-- C18 (cast is safe inside extraction), as amended.  In a build with error
checking (`SCRAT_NO_ERROR_CHECKING` not defined), assume the descriptor base
links mirror the script class hierarchy of the value at `idx`.  Whenever the
checks of `GetInstance` let control through with requested descriptor
`classType` and payload `inst`, and the actual descriptor `actual` has been
found, then both are non-null, the address of the requested descriptor is the
address of a descriptor on the base chain of the actual one, so `Cast` to it
returns for every pointer, and the rest of `GetInstance` returns. -/
theorem cast_safe_in_extraction {b : Build} {C : TypeId} {idx : Int} {nullAllowed : Bool}
    {fuel : Nat} {w w1 w2 : World} {classType actual : Option StaticClassData}
    {inst : Option Payload} (hb : b.SCRAT_NO_ERROR_CHECKING = false)
    (hmir : ∀ id i, w.at? idx = some (.inst id) → w.instances id = some i → i.cls.Mirrored)
    (htc : GetInstance.typeCheck b C idx nullAllowed w = .ok (.inr (classType, inst), w1))
    (hat : GetInstance.actualType fuel idx w1 = .ok (actual, w2)) :
    ∃ d a, classType = some d ∧ actual = some a ∧
      d.self ∈ a.chain.map StaticClassData.self ∧
      (∀ obj, ∃ q, a.Cast obj (some d.self) = .ok q) ∧
      ∃ q w3, GetInstance.extract classType inst actual w2 = .ok (q, w3) := by
  obtain ⟨d, id, i, pl, hw1, hct, _, hv, hi, hchk, _, hinst⟩ := typeCheck_inr_checked hb htc
  subst hw1
  obtain ⟨a, hr, hnear⟩ := actualType_inv hv hi hchk hat
  have hchain := SQClass.chain_of_mirrored i.cls.ancestors i.cls a rfl (hmir id i hv hi) hnear
  have hmem : d.self ∈ a.chain.map StaticClassData.self := by
    rw [hchain]
    exact SQClass.hasTypeTag_mem_tags hchk
  have hcast : ∀ obj, ∃ q, a.Cast obj (some d.self) = .ok q :=
    fun obj => StaticClassData.Cast_ok_of_mem a.chain a obj d.self rfl hmem
  refine ⟨d, a, hct, hr, hmem, hcast, ?_⟩
  subst hct hr hinst
  exact extract_total hcast

theorem scriptDogClass_mirrored : scriptDogClass.Mirrored := by
  intro k hk d hd
  have hanc : scriptDogClass :: scriptDogClass.ancestors =
      [scriptDogClass, dogClass, animalClass] := rfl
  rw [hanc] at hk
  simp only [List.mem_cons, List.mem_singleton, List.not_mem_nil, or_false] at hk
  rcases hk with rfl | rfl | rfl
  · cases hd
  · have : d = dogData := (Option.some.inj hd).symm
    subst this
    rfl
  · have : d = animalData := (Option.some.inj hd).symm
    subst this
    rfl

theorem catClass_mirrored : catClass.Mirrored := by
  intro k hk d hd
  have hanc : catClass :: catClass.ancestors = [catClass] := rfl
  rw [hanc] at hk
  simp only [List.mem_singleton] at hk
  subst hk
  have : d = catData := (Option.some.inj hd).symm
  subst this
  rfl

/-- Witness for C18: in a debug build the instance of `scriptDogClass` of
`worldScript` is extracted as `Animal`; the actual descriptor is that of
`Dog`, whose base chain holds the descriptor of `Animal`. -/
theorem cast_safe_in_extraction_witness :
    ∃ d a, some animalData = some d ∧ some dogData = some a ∧
      d.self ∈ a.chain.map StaticClassData.self ∧
      (∀ obj, ∃ q, a.Cast obj (some d.self) = .ok q) ∧
      ∃ q w3, GetInstance.extract (some animalData) (some { first := 5000, second := 2 })
        (some dogData) worldScript = .ok (q, w3) :=
  cast_safe_in_extraction
    (show debugBuild.SCRAT_NO_ERROR_CHECKING = false from rfl)
    (show ∀ id i, worldScript.at? (-1) = some (.inst id) → worldScript.instances id = some i →
        i.cls.Mirrored from fun id i hv hi => by
      have hid : id = 0 := by
        have h0 : worldScript.at? (-1) = some (.inst 0) := rfl
        rw [h0] at hv
        cases hv
        rfl
      subst hid
      have h1 : worldScript.instances 0 =
          some { cls := scriptDogClass, userpointer := some { first := 5000, second := 2 },
                 hook := some (.DeleteInstance 2) } := rfl
      rw [h1] at hi
      cases hi
      exact scriptDogClass_mirrored)
    (show GetInstance.typeCheck debugBuild 1 (-1) false worldScript =
        .ok (.inr (some animalData, some { first := 5000, second := 2 }), worldScript) from
      @typeCheck_inst debugBuild 1 (-1) false worldScript animalData 0
        { cls := scriptDogClass, userpointer := some { first := 5000, second := 2 },
          hook := some (.DeleteInstance 2) } { first := 5000, second := 2 } rfl rfl rfl rfl rfl rfl)
    (show GetInstance.actualType 1 (-1) worldScript = .ok (some dogData, worldScript) from rfl)

/-- Counterexample to C18 as stated: the class of `Cat` is a tagged root whose
descriptor has no base, so the mirror assumption holds; in a build with
`SCRAT_NO_ERROR_CHECKING` the `Cat` instance of `worldCat`, extracted as
`Dog`, passes line 247 unchecked, the actual descriptor (of `Cat`) differs
from the requested one (of `Dog`), which is not on its base chain, and `Cast`
calls through the null base link of the root descriptor. -/
theorem cast_unsafe_unchecked :
    catClass.Mirrored ∧
    GetInstance.typeCheck uncheckedBuild 2 (-1) false worldCat =
      .ok (.inr (some dogData, some { first := 7000, second := 3 }), worldCat) ∧
    GetInstance.actualType 0 (-1) worldCat = .ok (some catData, worldCat) ∧
    catData.chain.map StaticClassData.self = [300] ∧ dogData.self = 200 ∧
    catData.Cast 7000 (some dogData.self) = .error .undefinedBehaviour ∧
    GetInstance.extract (some dogData) (some { first := 7000, second := 3 }) (some catData)
      worldCat = .error .undefinedBehaviour := by
  have h1 : GetInstance.typeCheck uncheckedBuild 2 (-1) false worldCat =
      .ok (.inr (some dogData, some { first := 7000, second := 3 }), worldCat) :=
    @typeCheck_unchecked uncheckedBuild 2 (-1) false worldCat dogData (.inst 0) rfl rfl rfl
      (show worldCat.at? (-1) = some (.inst 0) from rfl) (fun hn => absurd hn (by decide))
  have h2 : GetInstance.actualType 0 (-1) worldCat = .ok (some catData, worldCat) :=
    @actualType_tagged 0 (-1) worldCat catData 0 _ rfl rfl rfl
  have h3 := @extract_found worldCat (some dogData) catData 7000 3 _
    (show worldCat.maps 3 7000 = some _ from rfl) (by decide)
  refine ⟨catClass_mirrored, h1, h2, rfl, rfl, rfl, ?_⟩
  rw [h3]
  rfl

/-- C19 (extraction is read-only).  Whenever `GetInstance` returns, the world
after the call is the world before it with, at most, an error added to the
errors raised: the instance maps with their wrappers, the descriptors, the
class records, the script instances, the native objects and the stack are as
they were. -/
theorem getInstance_read_only (b : Build) (C : TypeId) (fuel : Nat) (idx : Int)
    (nullAllowed : Bool) {w w1 : World} {p : Ptr}
    (h : GetInstance b C fuel idx nullAllowed w = .ok (p, w1)) :
    w1 = { w with thrown := w1.thrown } ∧ w1.maps = w.maps ∧
    w1.staticClassData = w.staticClassData ∧ w1.classData = w.classData ∧
    w1.instances = w.instances ∧ w1.alive = w.alive := by
  obtain ⟨t, ht⟩ := GetInstance_preserves b C fuel idx nullAllowed w p w1 h
  subst ht
  exact ⟨rfl, rfl, rfl, rfl, rfl, rfl⟩

theorem worldStale_run :
    GetInstance debugBuild 2 0 (-1) false worldStale =
      .ok (0, { worldStale with thrown := [.referenceNotFound] }) := by
  have h1 : GetInstance.typeCheck debugBuild 2 (-1) false worldStale =
      .ok (.inr (some dogData, some { first := 5000, second := 2 }), worldStale) :=
    @typeCheck_inst debugBuild 2 (-1) false worldStale dogData 0
      { cls := dogClass, userpointer := some { first := 5000, second := 2 },
        hook := some (.DeleteInstance 2) } { first := 5000, second := 2 } rfl rfl rfl rfl rfl rfl
  have h2 : GetInstance.actualType 0 (-1) worldStale = .ok (some dogData, worldStale) :=
    @actualType_tagged 0 (-1) worldStale dogData 0 _ rfl rfl rfl
  have h3 := @extract_missing worldStale (some dogData) (some dogData)
    { first := 5000, second := 2 } rfl
  simp only [GetInstance, Sq.bind_run, h1, h2]
  rw [h3]
  rfl

/-- Witness for C19: in `worldStale` the payload of the instance on the stack
names the pointer `5000`, which has no entry; the lookup fails and inserts
nothing. -/
theorem getInstance_read_only_witness :
    GetInstance debugBuild 2 0 (-1) false worldStale =
      .ok (0, { worldStale with thrown := [.referenceNotFound] }) ∧
    worldStale.maps 2 5000 = none ∧
    ({ worldStale with thrown := [.referenceNotFound] } : World).maps = worldStale.maps ∧
    ({ worldStale with thrown := [.referenceNotFound] } : World).instances =
      worldStale.instances :=
  have h := getInstance_read_only debugBuild 2 0 (-1) false worldStale_run
  ⟨worldStale_run, rfl, h.2.1, h.2.2.2.2.1⟩

/-- C20 (VM stack discipline).  `hasClassData`, for every type and in every
world, returns on each of its four paths (descriptor expired, no `"__classes"`
slot, no slot for the class, found) with the stack it was given; on every
returning path of `GetInstance` the stack is the one it was given, also after
the walk up the class hierarchy; and `PushInstance` for a bound type returns
with exactly one more value on the stack: `null` for the null pointer, the
handle of the wrapper when the pointer has one, and the new instance
otherwise. -/
theorem stack_discipline (b : Build) (fuel : Nat) (idx : Int) (nullAllowed : Bool)
    {w : World} {C : TypeId} {d : StaticClassData} {cd : ClassData} {c : SQClass}
    (h : w.Bound C d cd c) (p : Ptr) :
    (∀ C2 w2,
      (w2.staticClassData C2 = none → hasClassData b C2 w2 = .ok (false, w2)) ∧
      (∀ d2, w2.staticClassData C2 = some d2 →
        rawLookup w2.tables w2.registry (.string "__classes") = none →
        hasClassData b C2 w2 = .ok (false, w2)) ∧
      (∀ d2 t, w2.staticClassData C2 = some d2 →
        rawLookup w2.tables w2.registry (.string "__classes") = some t →
        rawLookup w2.tables t (.string d2.className) = none →
        hasClassData b C2 w2 = .ok (false, w2)) ∧
      (∀ d2 t v, w2.staticClassData C2 = some d2 →
        rawLookup w2.tables w2.registry (.string "__classes") = some t →
        rawLookup w2.tables t (.string d2.className) = some v →
        hasClassData b C2 w2 = .ok (true, w2))) ∧
    (∀ C2 w2 q w3, GetInstance b C2 fuel idx nullAllowed w2 = .ok (q, w3) →
      w3.stack = w2.stack) ∧
    (∃ w1, PushInstance b C p w = .ok ((), w1) ∧
      w1.stack.length = w.stack.length + 1 ∧
      (p = 0 → w1.stack = .null :: w.stack) ∧
      (∀ ref, p ≠ 0 → w.maps cd.instances p = some ref →
        w1.stack = ref.squirrelObject :: w.stack) ∧
      (p ≠ 0 → w.maps cd.instances p = none → w1.stack = .inst w.nextInstance :: w.stack)) := by
  refine ⟨?_, ?_, ?_⟩
  · intro C2 w2
    refine ⟨?_, ?_, ?_, ?_⟩
    · intro hs
      rw [hasClassData_run]
      simp [World.registered, hs]
    · intro d2 hs ht
      rw [hasClassData_run]
      simp [World.registered, hs, ht]
    · intro d2 t hs ht hc
      rw [hasClassData_run]
      simp [World.registered, hs, ht, hc]
    · intro d2 t v hs ht hc
      rw [hasClassData_run]
      simp [World.registered, hs, ht, hc]
  · intro C2 w2 q w3 hrun
    obtain ⟨t, ht⟩ := GetInstance_preserves b C2 fuel idx nullAllowed w2 q w3 hrun
    rw [ht]
  · by_cases hp : p = 0
    · subst hp
      refine ⟨_, PushInstance_null b C w, rfl, fun _ => rfl, ?_, ?_⟩
      · intro ref hne
        exact absurd rfl hne
      · intro hne
        exact absurd rfl hne
    · cases hm : w.maps cd.instances p with
      | some ref =>
        refine ⟨_, PushInstance_existing b h hp hm, rfl, fun h0 => absurd h0 hp, ?_, ?_⟩
        · intro ref1 _ h1
          cases h1
          rfl
        · intro _ h1
          cases h1
      | none =>
        refine ⟨_, PushInstance_new b h hp hm, rfl, fun h0 => absurd h0 hp, ?_, ?_⟩
        · intro ref1 _ h1
          cases h1
        · intro _ _
          rfl

theorem worldScript_run :
    GetInstance debugBuild 2 1 (-1) false worldScript = .ok (5000, worldScript) := by
  have h1 : GetInstance.typeCheck debugBuild 2 (-1) false worldScript =
      .ok (.inr (some dogData, some { first := 5000, second := 2 }), worldScript) :=
    @typeCheck_inst debugBuild 2 (-1) false worldScript dogData 0
      { cls := scriptDogClass, userpointer := some { first := 5000, second := 2 },
        hook := some (.DeleteInstance 2) } { first := 5000, second := 2 } rfl rfl rfl rfl rfl rfl
  have h2 : GetInstance.actualType 1 (-1) worldScript = .ok (some dogData, worldScript) := rfl
  have h3 := @extract_found worldScript (some dogData) dogData 5000 2 dogRef rfl (by decide)
  simp only [GetInstance, Sq.bind_run, h1, h2]
  rw [h3]
  rfl

/-- Witness for C20: `worldScript`, whose stack holds an instance of a script
class derived from the class of `Dog`, so that `GetInstance` walks the class
hierarchy; the `Dog` at `5000` has a wrapper there. -/
theorem stack_discipline_witness :
    GetInstance debugBuild 2 1 (-1) false worldScript = .ok (5000, worldScript) ∧
    (∀ C2 w2,
      (w2.staticClassData C2 = none → hasClassData debugBuild C2 w2 = .ok (false, w2)) ∧
      (∀ d2, w2.staticClassData C2 = some d2 →
        rawLookup w2.tables w2.registry (.string "__classes") = none →
        hasClassData debugBuild C2 w2 = .ok (false, w2)) ∧
      (∀ d2 t, w2.staticClassData C2 = some d2 →
        rawLookup w2.tables w2.registry (.string "__classes") = some t →
        rawLookup w2.tables t (.string d2.className) = none →
        hasClassData debugBuild C2 w2 = .ok (false, w2)) ∧
      (∀ d2 t v, w2.staticClassData C2 = some d2 →
        rawLookup w2.tables w2.registry (.string "__classes") = some t →
        rawLookup w2.tables t (.string d2.className) = some v →
        hasClassData debugBuild C2 w2 = .ok (true, w2))) ∧
    (∀ C2 w2 q w3, GetInstance debugBuild C2 1 (-1) false w2 = .ok (q, w3) →
      w3.stack = w2.stack) ∧
    (∃ w1, PushInstance debugBuild 2 5000 worldScript = .ok ((), w1) ∧
      w1.stack.length = worldScript.stack.length + 1 ∧
      ((5000 : Ptr) = 0 → w1.stack = .null :: worldScript.stack) ∧
      (∀ ref, (5000 : Ptr) ≠ 0 → worldScript.maps dogClassData.instances 5000 = some ref →
        w1.stack = ref.squirrelObject :: worldScript.stack) ∧
      ((5000 : Ptr) ≠ 0 → worldScript.maps dogClassData.instances 5000 = none →
        w1.stack = .inst worldScript.nextInstance :: worldScript.stack)) :=
  ⟨worldScript_run,
    stack_discipline debugBuild 1 (-1) false
      (show worldScript.Bound 2 dogData dogClassData dogClass from
        ⟨rfl, rfl, ⟨.table 1, 2000, none, rfl, rfl, rfl⟩, rfl, rfl⟩) 5000⟩

/-- C16 (release frame).  When the instance map `m` holds the wrapper `rp`
under `p` and the wrapper `rq` under a different pointer `q`, the release hook
called for `p` returns `0` and erases the entry of `p` only: the entry of `q`
is the same wrapper `rq` (pointer, ownership flag and handle), no other entry
of any map changes, the script instances, the stack and the errors raised are
as they were, and the native object at `q` is touched only if the wrapper of
`p` held `q`.  If `q` was extractable before, as the wrapped instance of a
bound class at `idx`, then `GetInstance` on it still returns `q` after the
release. -/
theorem release_frame (b : Build) (fuel : Nat) (nullAllowed : Bool) (idx : Int) (size : Int)
    {w : World} {m : Nat} {p q : Ptr} {rp rq : ObjectReference}
    (hp : w.maps m p = some rp) (hq : w.maps m q = some rq) (hne : p ≠ q) :
    ∃ w1, DeleteInstance (some { first := p, second := m }) size w = .ok (0, w1) ∧
      w1.maps m p = none ∧ w1.maps m q = some rq ∧
      (∀ m1 p1, (m1 ≠ m ∨ p1 ≠ p) → w1.maps m1 p1 = w.maps m1 p1) ∧
      w1.instances = w.instances ∧ w1.stack = w.stack ∧ w1.thrown = w.thrown ∧
      (rp.object ≠ q → w1.alive q = w.alive q) ∧
      (∀ C d cd c, w.Bound C d cd c → cd.instances = m → w.Wrapped C c m q rq → q ≠ 0 →
        w.at? idx = some rq.squirrelObject →
        GetInstance b C fuel idx nullAllowed w = .ok (q, w) ∧
        GetInstance b C fuel idx nullAllowed w1 = .ok (q, w1)) := by
  have hqp : q ≠ p := fun h => hne h.symm
  have hq1 : Function.update w.maps m (Function.update (w.maps m) p none) m q = some rq := by
    simp [Function.update_noteq hqp, hq]
  refine ⟨_, DeleteInstance_run size hp, by simp, hq1, ?_, rfl, rfl, rfl, ?_, ?_⟩
  · intro m1 p1 hd
    by_cases hm1 : m1 = m
    · subst hm1
      have hp1 : p1 ≠ p := by
        rcases hd with h1 | h1
        · exact absurd rfl h1
        · exact h1
      simp [Function.update_noteq hp1]
    · simp [Function.update_noteq hm1]
  · intro hobj
    have hobj1 : q ≠ rp.object := fun h => hobj h.symm
    cases ho : rp.owner
    · simp
    · simp [Function.update_noteq hobj1]
  · intro C d cd c hB hcd hW hq0 hv
    subst hcd
    have hchk : c.hasTypeTag d.self = true := SQClass.hasTypeTag_of_typetag hB.typetag
    constructor
    · have := GetInstance_wrapped b fuel nullAllowed idx hB.is_registered hB.static hB hchk hq0
        hq hW hv
      simpa using this
    · have hB1 : ({ w with
          maps := Function.update w.maps cd.instances
            (Function.update (w.maps cd.instances) p none)
          alive := if rp.owner then Function.update w.alive rp.object false else w.alive } :
          World).Bound C d cd c := hB.of_eq rfl rfl rfl rfl
      have := GetInstance_wrapped b fuel nullAllowed idx hB1.is_registered hB1.static hB1 hchk
        hq0 hq1 hW hv
      simpa using this

/-- Witness for C16: in `worldTwo` the map of `Dog` holds wrappers for `5000`
and for the related address `5008`; the wrapper of `5008` is released and the
`Dog` at `5000` is still extracted. -/
theorem release_frame_witness :
    ∃ w1, DeleteInstance (some { first := 5008, second := 2 }) 0 worldTwo = .ok (0, w1) ∧
      w1.maps 2 5008 = none ∧ w1.maps 2 5000 = some dogRef ∧
      (∀ m1 p1, (m1 ≠ 2 ∨ p1 ≠ 5008) → w1.maps m1 p1 = worldTwo.maps m1 p1) ∧
      w1.instances = worldTwo.instances ∧ w1.stack = worldTwo.stack ∧
      w1.thrown = worldTwo.thrown ∧
      ((5008 : Ptr) ≠ 5000 → w1.alive 5000 = worldTwo.alive 5000) ∧
      (∀ C d cd c, worldTwo.Bound C d cd c → cd.instances = 2 →
        worldTwo.Wrapped C c 2 5000 dogRef → (5000 : Ptr) ≠ 0 →
        worldTwo.at? (-1) = some dogRef.squirrelObject →
        GetInstance debugBuild C 0 (-1) false worldTwo = .ok (5000, worldTwo) ∧
        GetInstance debugBuild C 0 (-1) false w1 = .ok (5000, w1)) :=
  release_frame debugBuild 0 false (-1) 0
    (show worldTwo.maps 2 5008 =
      some { type := 2, owner := true, object := 5008, squirrelObject := .inst 1 } from rfl)
    (show worldTwo.maps 2 5000 = some dogRef from rfl)
    (show (5008 : Ptr) ≠ 5000 by decide)

theorem release_no_hook {w : World} {id : Nat} {i : SQInstance}
    (hi : w.instances id = some i) (hh : i.hook = none) :
    release id w = .ok ((), { w with instances := Function.update w.instances id none }) := by
  simp [release, Sq.world, Sq.deref, Sq.ret, hi, hh, Sq.setWorld]

theorem release_hook {w : World} {id : Nat} {i : SQInstance} {C1 : TypeId} {p : Ptr} {m : Nat}
    {ref : ObjectReference}
    (hi : w.instances id = some i) (hh : i.hook = some (.DeleteInstance C1))
    (hup : i.userpointer = some { first := p, second := m }) (hm : w.maps m p = some ref) :
    release id w = .ok ((), { w with
      maps := Function.update w.maps m (Function.update (w.maps m) p none)
      alive := if ref.owner then Function.update w.alive ref.object false else w.alive
      instances := Function.update w.instances id none }) := by
  simp [release, Sq.world, Sq.deref, Sq.ret, hi, hh, Sq.setWorld, hup, DeleteInstance_run 0 hm]

theorem release_inv {w w1 : World} {id : Nat} (h : release id w = .ok ((), w1)) :
    ∃ i, w.instances id = some i ∧ w1.instances = Function.update w.instances id none ∧
      w1.staticClassData = w.staticClassData ∧ w1.tables = w.tables ∧
      w1.registry = w.registry ∧ w1.classData = w.classData ∧
      w1.nextInstance = w.nextInstance ∧
      ((i.hook = none ∧ w1.maps = w.maps) ∨
       ∃ C1 p m ref, i.hook = some (.DeleteInstance C1) ∧
         i.userpointer = some { first := p, second := m } ∧ w.maps m p = some ref ∧
         w1.maps = Function.update w.maps m (Function.update (w.maps m) p none)) := by
  cases hi : w.instances id with
  | none => simp [release, Sq.world, Sq.deref, Sq.ret, hi, Sq.fault] at h
  | some i =>
    cases hh : i.hook with
    | none =>
      rw [release_no_hook hi hh] at h
      simp only [Except.ok.injEq, Prod.mk.injEq, true_and] at h
      subst h
      exact ⟨i, rfl, rfl, rfl, rfl, rfl, rfl, rfl, Or.inl ⟨hh, rfl⟩⟩
    | some hk =>
      cases hk with
      | DeleteInstance C1 =>
        cases hup : i.userpointer with
        | none =>
          simp [release, Sq.world, Sq.deref, Sq.ret, hi, hh, hup, DeleteInstance, Sq.fault] at h
        | some pl =>
          obtain ⟨p, m⟩ := pl
          cases hm : w.maps m p with
          | none =>
            simp [release, Sq.world, Sq.deref, Sq.ret, hi, hh, hup, DeleteInstance, Sq.fault,
              hm] at h
          | some ref =>
            rw [release_hook hi hh hup hm] at h
            simp only [Except.ok.injEq, Prod.mk.injEq, true_and] at h
            subst h
            exact ⟨i, rfl, rfl, rfl, rfl, rfl, rfl, rfl,
              Or.inr ⟨C1, p, m, ref, hh, hup, hm, rfl⟩⟩

theorem World.Consistent.of_fields_eq {w w1 : World} {C : TypeId} {c : SQClass} {m : Nat}
    (h : w.Consistent C c m) (hn : w1.nextInstance = w.nextInstance)
    (hi : w1.instances = w.instances) (hm : w1.maps = w.maps) : w1.Consistent C c m := by
  obtain ⟨h1, h2, h3⟩ := h
  exact ⟨by rw [hn, hi]; exact h1, by rw [hm, hi]; exact h2, by rw [hm, hi]; exact h3⟩

theorem World.Consistent.push_new {w : World} {C : TypeId} {c : SQClass} {m : Nat} {p : Ptr}
    (h : w.Consistent C c m) (hp : p ≠ 0) (hm : w.maps m p = none) (st : List SQObject) :
    ({ w with
      stack := st
      instances := Function.update w.instances w.nextInstance
        (some { cls := c, userpointer := some { first := p, second := m },
                hook := some (.DeleteInstance C) })
      nextInstance := w.nextInstance + 1
      maps := Function.update w.maps m
        (Function.update (w.maps m) p
          (some { type := C, owner := false, object := p,
                  squirrelObject := .inst w.nextInstance })) } : World).Consistent C c m := by
  obtain ⟨hfresh, hentry, hobject⟩ := h
  have hnext : w.instances w.nextInstance = none := hfresh _ (Nat.le_refl _)
  refine ⟨?_, ?_, ?_⟩
  · intro id hid
    have hne : id ≠ w.nextInstance := by
      intro he
      subst he
      exact absurd hid (Nat.not_succ_le_self _)
    simp only [Function.update_noteq hne]
    exact hfresh id (Nat.le_of_succ_le hid)
  · intro p1 ref1 h1
    simp only [Function.update_same] at h1
    by_cases hp1 : p1 = p
    · subst hp1
      simp only [Function.update_same, Option.some.injEq] at h1
      subst h1
      exact ⟨hp, rfl, rfl, rfl, w.nextInstance,
        { cls := c, userpointer := some { first := p1, second := m },
          hook := some (.DeleteInstance C) }, rfl, by simp, rfl, rfl, rfl⟩
    · simp only [Function.update_noteq hp1] at h1
      obtain ⟨a1, a2, a3, a4, id, i, a5, a6, a7, a8, a9⟩ := hentry p1 ref1 h1
      have hne : id ≠ w.nextInstance := by
        intro he
        subst he
        rw [hnext] at a6
        cases a6
      exact ⟨a1, a2, a3, a4, id, i, a5, by simp only [Function.update_noteq hne]; exact a6,
        a7, a8, a9⟩
  · intro id i p1 hi hup
    by_cases hid : id = w.nextInstance
    · subst hid
      simp only [Function.update_same, Option.some.injEq] at hi
      subst hi
      simp only [Option.some.injEq, Payload.mk.injEq, and_true] at hup
      subst hup
      exact ⟨{ type := C, owner := false, object := p, squirrelObject := .inst w.nextInstance },
        by simp, rfl⟩
    · simp only [Function.update_noteq hid] at hi
      obtain ⟨ref, hr, hs⟩ := hobject id i p1 hi hup
      have hp1 : p1 ≠ p := by
        intro he
        subst he
        rw [hm] at hr
        cases hr
      exact ⟨ref, by simp [Function.update_noteq hp1, hr], hs⟩

theorem PushInstance_consistent (b : Build) {w : World} {C : TypeId} {d : StaticClassData}
    {cd : ClassData} {c : SQClass} (hB : w.Bound C d cd c)
    (hC : w.Consistent C c cd.instances) (p : Ptr) :
    ∃ w1, PushInstance b C p w = .ok ((), w1) ∧ w1.Bound C d cd c ∧
      w1.Consistent C c cd.instances := by
  by_cases hp : p = 0
  · subst hp
    exact ⟨_, PushInstance_null b C w, hB.of_eq rfl rfl rfl rfl, hC.of_fields_eq rfl rfl rfl⟩
  · cases hm : w.maps cd.instances p with
    | some ref =>
      exact ⟨_, PushInstance_existing b hB hp hm, hB.of_eq rfl rfl rfl rfl, hC.of_fields_eq rfl rfl rfl⟩
    | none =>
      exact ⟨_, PushInstance_new b hB hp hm, hB.of_eq rfl rfl rfl rfl, hC.push_new hp hm _⟩

theorem release_consistent {w w1 : World} {C : TypeId} {d : StaticClassData}
    {cd : ClassData} {c : SQClass} {id : Nat} (hB : w.Bound C d cd c)
    (hC : w.Consistent C c cd.instances) (h : release id w = .ok ((), w1)) :
    w1.Bound C d cd c ∧ w1.Consistent C c cd.instances := by
  obtain ⟨i, hi, hinst, hs, ht, hr, hcd, hn, hcase⟩ := release_inv h
  refine ⟨hB.of_eq hs ht hr hcd, ?_⟩
  obtain ⟨hfresh, hentry, hobject⟩ := hC
  -- the entries of the map of `C` after the release
  have hmaps : (∀ p, i.userpointer ≠ some { first := p, second := cd.instances }) ∧
        w1.maps cd.instances = w.maps cd.instances ∨
      ∃ p, i.userpointer = some { first := p, second := cd.instances } ∧
        w1.maps cd.instances = Function.update (w.maps cd.instances) p none := by
    rcases hcase with ⟨hh, hm⟩ | ⟨C1, p, m, ref, hh, hup, hm, hm1⟩
    · left
      refine ⟨?_, by rw [hm]⟩
      intro p hup
      obtain ⟨ref, hr1, hs1⟩ := hobject id i p hi hup
      obtain ⟨_, _, _, _, id2, i2, b5, b6, _, _, b9⟩ := hentry p ref hr1
      rw [hs1] at b5
      cases b5
      rw [hi] at b6
      cases b6
      rw [hh] at b9
      cases b9
    · by_cases hmm : m = cd.instances
      · subst hmm
        right
        exact ⟨p, hup, by rw [hm1]; simp⟩
      · left
        refine ⟨?_, by rw [hm1]; simp [Function.update_noteq (Ne.symm hmm)]⟩
        intro p1 hup1
        rw [hup] at hup1
        simp only [Option.some.injEq, Payload.mk.injEq] at hup1
        exact hmm hup1.2
  refine ⟨?_, ?_, ?_⟩
  · intro id1 hid1
    rw [hinst]
    by_cases he : id1 = id
    · subst he
      simp
    · simp only [Function.update_noteq he]
      exact hfresh id1 (by rw [← hn]; exact hid1)
  · intro p1 ref1 h1
    have hold : w.maps cd.instances p1 = some ref1 ∧
        ∀ p, i.userpointer = some { first := p, second := cd.instances } → p1 ≠ p := by
      rcases hmaps with ⟨hno, hsame⟩ | ⟨p, hup, hupd⟩
      · refine ⟨by rw [← hsame]; exact h1, ?_⟩
        intro p hup
        exact absurd hup (hno p)
      · rw [hupd] at h1
        have hp1 : p1 ≠ p := by
          intro he
          subst he
          simp at h1
        simp only [Function.update_noteq hp1] at h1
        refine ⟨h1, ?_⟩
        intro p2 hup2
        rw [hup] at hup2
        simp only [Option.some.injEq, Payload.mk.injEq, and_true] at hup2
        subst hup2
        exact hp1
    obtain ⟨a1, a2, a3, a4, id2, i2, a5, a6, a7, a8, a9⟩ := hentry p1 ref1 hold.1
    have hne : id2 ≠ id := by
      intro he
      subst he
      rw [hi] at a6
      cases a6
      exact hold.2 p1 a8 rfl
    exact ⟨a1, a2, a3, a4, id2, i2, a5, by rw [hinst]; simp only [Function.update_noteq hne]; exact a6,
      a7, a8, a9⟩
  · intro id2 i2 p1 hi2 hup2
    rw [hinst] at hi2
    have hne : id2 ≠ id := by
      intro he
      subst he
      simp at hi2
    simp only [Function.update_noteq hne] at hi2
    obtain ⟨ref, hr1, hs1⟩ := hobject id2 i2 p1 hi2 hup2
    refine ⟨ref, ?_, hs1⟩
    rcases hmaps with ⟨_, hsame⟩ | ⟨p, hup, hupd⟩
    · rw [hsame]
      exact hr1
    · rw [hupd]
      have hp1 : p1 ≠ p := by
        intro he
        subst he
        obtain ⟨ref0, hr0, hs0⟩ := hobject id i p1 hi hup
        rw [hr1] at hr0
        cases hr0
        rw [hs1] at hs0
        cases hs0
        exact hne rfl
      simp only [Function.update_noteq hp1]
      exact hr1

theorem runOps_consistent (b : Build) {C : TypeId} {d : StaticClassData} {cd : ClassData}
    {c : SQClass} (ops : List Op) :
    ∀ {w w1 : World}, w.Bound C d cd c → w.Consistent C c cd.instances →
      runOps b C ops w = .ok ((), w1) →
      w1.Bound C d cd c ∧ w1.Consistent C c cd.instances := by
  induction ops with
  | nil =>
    intro w w1 hB hC h
    simp only [runOps, Sq.pure_run, Except.ok.injEq, Prod.mk.injEq, true_and] at h
    subst h
    exact ⟨hB, hC⟩
  | cons op ops ih =>
    intro w w1 hB hC h
    simp only [runOps] at h
    obtain ⟨u, w2, h1, h2⟩ := Sq.bind_ok h
    cases op with
    | push ptr =>
      obtain ⟨w3, hrun, hB3, hC3⟩ := PushInstance_consistent b hB hC ptr
      simp only [Op.run] at h1
      rw [hrun] at h1
      simp only [Except.ok.injEq, Prod.mk.injEq, true_and] at h1
      subst h1
      exact ih hB3 hC3 h2
    | pop n =>
      simp only [Op.run, sq_pop] at h1
      split at h1
      · simp only [Except.ok.injEq, Prod.mk.injEq, true_and] at h1
        subst h1
        have hB3 : ({ w with stack := w.stack.drop n } : World).Bound C d cd c :=
          hB.of_eq rfl rfl rfl rfl
        have hC3 : ({ w with stack := w.stack.drop n } : World).Consistent C c cd.instances :=
          hC.of_fields_eq rfl rfl rfl
        exact ih hB3 hC3 h2
      · cases h1
    | release id =>
      simp only [Op.run] at h1
      obtain ⟨hB3, hC3⟩ := release_consistent hB hC h1
      exact ih hB3 hC3 h2

theorem World.EmptyRegistration.consistent {w : World} {C : TypeId} {d : StaticClassData}
    {cd : ClassData} {c : SQClass} (h : w.EmptyRegistration C d cd c) :
    w.Consistent C c cd.instances := by
  refine ⟨h.fresh, ?_, ?_⟩
  · intro p ref hr
    rw [h.noEntry p] at hr
    cases hr
  · intro id i p hi hup
    exact absurd hup (h.noObject id i p hi)

theorem runOps_cons {b : Build} {C : TypeId} {op : Op} {ops : List Op} {w w1 : World}
    {r : Except Fault (Unit × World)} (h1 : op.run b C w = .ok ((), w1))
    (h2 : runOps b C ops w1 = r) : runOps b C (op :: ops) w = r := by
  simp only [runOps, Sq.bind_run, h1]
  exact h2

theorem sq_pop_run (n : Nat) {w : World} (h : n ≤ w.stack.length) :
    sq_pop n w = .ok ((), { w with stack := w.stack.drop n }) := by
  simp [sq_pop, h]

theorem world0_empty : world0.EmptyRegistration 2 dogData dogClassData dogClass :=
  ⟨⟨rfl, rfl, ⟨.table 1, 2000, none, rfl, rfl, rfl⟩, rfl, rfl⟩, fun _ _ => rfl, fun _ => rfl,
    fun id i p hi => by cases hi⟩

theorem runOps_example :
    ∃ w, runOps debugBuild 2 [.push 5000, .push 5000, .pop 2, .push 6000, .release 0] world0 =
        .ok ((), w) ∧
      w.stack = [.inst 1] ∧ w.instances 0 = none ∧
      w.instances 1 = some { cls := dogClass, userpointer := some { first := 6000, second := 2 },
                             hook := some (.DeleteInstance 2) } ∧
      w.maps 2 5000 = none ∧
      w.maps 2 6000 = some { type := 2, owner := false, object := 6000,
                             squirrelObject := .inst 1 } := by
  have hB0 : world0.Bound 2 dogData dogClassData dogClass := world0_empty.bound
  have h5 : (5000 : Ptr) ≠ 0 := by decide
  have h6 : (6000 : Ptr) ≠ 0 := by decide
  obtain ⟨w1, e1, s1⟩ : ∃ w1, w1 = _ ∧ PushInstance debugBuild 2 5000 world0 = .ok ((), w1) :=
    ⟨_, rfl, PushInstance_new debugBuild hB0 h5 rfl⟩
  have hB1 : w1.Bound 2 dogData dogClassData dogClass := by
    rw [e1]
    exact hB0.of_eq rfl rfl rfl rfl
  have hm1 : w1.maps dogClassData.instances 5000 = some dogRef := by
    rw [e1]
    rfl
  obtain ⟨w2, e2, s2⟩ : ∃ w2, w2 = _ ∧ PushInstance debugBuild 2 5000 w1 = .ok ((), w2) :=
    ⟨_, rfl, PushInstance_existing debugBuild hB1 h5 hm1⟩
  have hl2 : 2 ≤ w2.stack.length := by
    rw [e2, e1]
    exact Nat.le_refl 2
  obtain ⟨w3, e3, s3⟩ : ∃ w3, w3 = _ ∧ sq_pop 2 w2 = .ok ((), w3) := ⟨_, rfl, sq_pop_run 2 hl2⟩
  have hB3 : w3.Bound 2 dogData dogClassData dogClass := by
    rw [e3, e2]
    exact hB1.of_eq rfl rfl rfl rfl
  have hm3 : w3.maps dogClassData.instances 6000 = none := by
    rw [e3, e2, e1]
    rfl
  obtain ⟨w4, e4, s4⟩ : ∃ w4, w4 = _ ∧ PushInstance debugBuild 2 6000 w3 = .ok ((), w4) :=
    ⟨_, rfl, PushInstance_new debugBuild hB3 h6 hm3⟩
  have hi4 : w4.instances 0 = some { cls := dogClass,
                                     userpointer := some { first := 5000, second := 2 },
                                     hook := some (.DeleteInstance 2) } := by
    rw [e4, e3, e2, e1]
    rfl
  have hm4 : w4.maps 2 5000 = some dogRef := by
    rw [e4, e3, e2, e1]
    rfl
  obtain ⟨w5, e5, s5⟩ : ∃ w5, w5 = _ ∧ release 0 w4 = .ok ((), w5) :=
    ⟨_, rfl, release_hook hi4 rfl rfl hm4⟩
  refine ⟨w5, runOps_cons s1 (runOps_cons s2 (runOps_cons s3 (runOps_cons s4
    (runOps_cons s5 rfl)))), ?_⟩
  rw [e5, e4, e3, e2, e1]
  exact ⟨rfl, rfl, rfl, rfl, rfl⟩

/-- C13 (Instance Map invariant).  Start from an empty registration of `C`
(the class is bound, its instance map has no entry and no live instance
carries a payload for it) and run any sequence of `PushInstance` calls, pops
and releases of live instances by the collector (the release hook,
`DeleteInstance`, is called with the payload of the instance).  In the state
`w` reached: the invariant `Consistent` holds; two live instances with the
same payload pointer are the same instance (the map, a function of the
pointer, holds at most one wrapper for it); every live instance with a
payload for the map is the handle of the one entry of its pointer, the release
hook called with its payload finds that entry and removes it, releasing the
instance leaves a consistent state without the entry and without the
instance, and `GetInstance` on it returns its pointer and raises no error;
every entry belongs to a live instance, so none is left for a released object;
and `PushInstance` still returns for every pointer. -/
theorem instance_map_invariant (b : Build) (ops : List Op) {w0 w : World} {C : TypeId}
    {d : StaticClassData} {cd : ClassData} {c : SQClass}
    (h0 : w0.EmptyRegistration C d cd c) (hrun : runOps b C ops w0 = .ok ((), w)) :
    w.Consistent C c cd.instances ∧
    (∀ id1 id2 i1 i2 p, w.instances id1 = some i1 → w.instances id2 = some i2 →
      i1.userpointer = some { first := p, second := cd.instances } →
      i2.userpointer = some { first := p, second := cd.instances } → id1 = id2) ∧
    (∀ id i p, w.instances id = some i →
      i.userpointer = some { first := p, second := cd.instances } →
      (∃ ref, w.maps cd.instances p = some ref ∧ ref.squirrelObject = .inst id ∧
        ref.object = p) ∧
      (∃ w1, DeleteInstance i.userpointer 0 w = .ok (0, w1) ∧ w1.maps cd.instances p = none) ∧
      (∃ w1, release id w = .ok ((), w1) ∧ w1.maps cd.instances p = none ∧
        w1.instances id = none ∧ w1.Consistent C c cd.instances) ∧
      (∀ fuel idx nullAllowed, w.at? idx = some (.inst id) →
        GetInstance b C fuel idx nullAllowed w = .ok (p, w))) ∧
    (∀ p ref, w.maps cd.instances p = some ref →
      ∃ id i, ref.squirrelObject = .inst id ∧ w.instances id = some i ∧
        i.userpointer = some { first := p, second := cd.instances }) ∧
    (∀ p, ∃ w1, PushInstance b C p w = .ok ((), w1)) := by
  obtain ⟨hB, hC⟩ := runOps_consistent b ops h0.bound h0.consistent hrun
  refine ⟨hC, ?_, ?_, ?_, ?_⟩
  · intro id1 id2 i1 i2 p hi1 hi2 hu1 hu2
    obtain ⟨r1, hr1, hs1⟩ := hC.object id1 i1 p hi1 hu1
    obtain ⟨r2, hr2, hs2⟩ := hC.object id2 i2 p hi2 hu2
    rw [hr1] at hr2
    cases hr2
    rw [hs1] at hs2
    cases hs2
    rfl
  · intro id i p hi hup
    obtain ⟨ref, hr, hs⟩ := hC.object id i p hi hup
    obtain ⟨a1, a2, a3, a4, id2, i2, a5, a6, a7, a8, a9⟩ := hC.entry p ref hr
    have hid : id2 = id := by
      rw [hs] at a5
      cases a5
      rfl
    subst hid
    have hii : i2 = i := by
      rw [hi] at a6
      cases a6
      rfl
    subst hii
    refine ⟨⟨ref, hr, hs, a3⟩, ?_, ?_, ?_⟩
    · rw [hup]
      exact ⟨_, DeleteInstance_run 0 hr, by simp⟩
    · have hrel := release_hook hi a9 hup hr
      exact ⟨_, hrel, by simp, by simp, (release_consistent hB hC hrel).2⟩
    · intro fuel idx nullAllowed hv
      have hchk : c.hasTypeTag d.self = true := SQClass.hasTypeTag_of_typetag hB.typetag
      have hW : w.Wrapped C c cd.instances p ref := ⟨a2, a3, id2, i2, hs, hi, a7, hup⟩
      have := GetInstance_wrapped b fuel nullAllowed idx hB.is_registered hB.static hB hchk a1
        hr hW (by rw [hs]; exact hv)
      simpa using this
  · intro p ref hr
    obtain ⟨_, _, _, _, id2, i2, a5, a6, _, a8, _⟩ := hC.entry p ref hr
    exact ⟨id2, i2, a5, a6, a8⟩
  · intro p
    obtain ⟨w1, h1, _⟩ := PushInstance_consistent b hB hC p
    exact ⟨w1, h1⟩

/-- Witness for C13: in `world0`, an empty registration of `Dog`, the `Dog` at
`5000` is pushed twice, both values are popped, the `Dog` at `6000` is pushed
and then the instance of the first `Dog` is released. -/
theorem instance_map_invariant_witness :
    ∃ w, runOps debugBuild 2 [.push 5000, .push 5000, .pop 2, .push 6000, .release 0] world0 =
        .ok ((), w) ∧
      (w.stack = [.inst 1] ∧ w.instances 0 = none ∧
        w.instances 1 =
          some { cls := dogClass, userpointer := some { first := 6000, second := 2 },
                 hook := some (.DeleteInstance 2) } ∧
        w.maps 2 5000 = none ∧
        w.maps 2 6000 = some { type := 2, owner := false, object := 6000,
                               squirrelObject := .inst 1 }) ∧
      w.Consistent 2 dogClass dogClassData.instances ∧
      (∀ id1 id2 i1 i2 p, w.instances id1 = some i1 → w.instances id2 = some i2 →
        i1.userpointer = some { first := p, second := dogClassData.instances } →
        i2.userpointer = some { first := p, second := dogClassData.instances } → id1 = id2) ∧
      (∀ id i p, w.instances id = some i →
        i.userpointer = some { first := p, second := dogClassData.instances } →
        (∃ ref, w.maps dogClassData.instances p = some ref ∧ ref.squirrelObject = .inst id ∧
          ref.object = p) ∧
        (∃ w1, DeleteInstance i.userpointer 0 w = .ok (0, w1) ∧
          w1.maps dogClassData.instances p = none) ∧
        (∃ w1, release id w = .ok ((), w1) ∧ w1.maps dogClassData.instances p = none ∧
          w1.instances id = none ∧ w1.Consistent 2 dogClass dogClassData.instances) ∧
        (∀ fuel idx nullAllowed, w.at? idx = some (.inst id) →
          GetInstance debugBuild 2 fuel idx nullAllowed w = .ok (p, w))) ∧
      (∀ p ref, w.maps dogClassData.instances p = some ref →
        ∃ id i, ref.squirrelObject = .inst id ∧ w.instances id = some i ∧
          i.userpointer = some { first := p, second := dogClassData.instances }) ∧
      (∀ p, ∃ w1, PushInstance debugBuild 2 p w = .ok ((), w1)) := by
  obtain ⟨w, hrun, hfacts⟩ := runOps_example
  exact ⟨w, hrun, hfacts, instance_map_invariant debugBuild _ world0_empty hrun⟩

end Sqrat
